import Mathlib

/-!
# Verification of the LauzHACK AML scoring core

Shallow embedding, in Lean 4, of the risk-scoring core of the repository:
the per-feature AML computers (`src/features/feature_*.py`), the feature
aggregator (`src/features/run_all_features.py`), the population ranker
(`src/features/analyze_top_suspects.py`) and the country aggregator
(`src/sent_amounts_by_country.py`), together with theorems that settle the
behavioural claims made about them.

Modelling conventions, used throughout and noted again at each definition
where they matter:

* A pandas `DataFrame` of transactions is a `List TxRow`; a row field that
  can be null/NaN is an `Option`.
* Timestamps are integers (seconds since the epoch); `pd.to_datetime(...,
  errors="coerce")` applied to the raw text column is modelled by the row
  already carrying `Option ℤ` (`none` = `NaT`).  `Timedelta.days` is floor
  division by 86400 (`Int.fdiv`), `dt.floor("h")` is floor division by
  3600, `dt.hour` is `(t.fdiv 3600) % 24` and `dt.dayofweek`
  (Monday = 0) is `(t.fdiv 86400 + 3) % 7` (1970-01-01 was a Thursday).
* Python floats are modelled by `ℚ`; `round(x, 2)` is `roundTo2`
  (round-half-up at two decimals; Python uses the float nearest/even rule,
  which agrees except exactly at half-cent ties — every theorem that
  involves reporting rounding only uses `|roundTo2 x - x| ≤ 1/200`, which
  holds for either tie rule).
* `datetime.now()` / `pd.Timestamp.now()` timestamps that feed into a
  computation are passed in as an explicit `today`/`utcnow` parameter; the
  purely decorative `"timestamp"` field of result dictionaries is omitted.
* A Python value used in an `if v:` test is truthy per Python's rules:
  `None` and `""` are falsy, a non-empty string is truthy, and the truth
  test of a pandas `DataFrame` raises `ValueError` (modelled by `Except`).
-/

/-! ## Python truthiness and rounding -/

/-- Python truthiness of an `Optional[str]` value: `None` and the empty
string are falsy, any other string is truthy. -/
def pyTruthyStr : Option String → Bool
  | none => false
  | some s => s ≠ ""

/-- Python's `round(x, 2)`, modelled on `ℚ` as round-half-up at two
decimal places (see module docstring for the tie-rule caveat). -/
def roundTo2 (x : ℚ) : ℚ := (round (x * 100) : ℤ) / 100

theorem abs_roundTo2_sub_le (x : ℚ) : |roundTo2 x - x| ≤ 1 / 200 := by
  have h := abs_sub_round (x * 100)
  rw [abs_sub_comm] at h
  rw [roundTo2]
  have : ((round (x * 100) : ℤ) : ℚ) / 100 - x = ((round (x * 100) : ℤ) - x * 100) / 100 := by
    ring
  rw [this, abs_div]
  have h100 : |(100 : ℚ)| = 100 := by norm_num
  rw [h100]
  rw [div_le_div_iff₀ (by norm_num) (by norm_num)]
  linarith [h]

/-! ## Data model

One row of the joined transaction table (canonical column names listed in
§6 of the spec).  Fields that the source reads but never lets influence a
returned value (e.g. the industry codes, which only feed the derived
`logical_partner_sector`/`counterparty_sector` columns that no feature
consumes) are carried for completeness.  The optional
`ext_counterparty_country` / `ext_counterparty_Account_ID` columns are
modelled per-row; a table in which the column is absent behaves exactly
like one in which every row has `none` there (the `fillna` fallback then
never fires), so column presence needs no separate flag.  The
`partner_id_col` field is the account-level `partner_id` column of the
`joined_with_transactions` table (used by `run_all_features.__main__` and
`feature_abnormal_activity`). -/

structure TxRow where
  date : Option ℤ
  amount : ℚ
  debit_credit : String
  partner_id_incoming : Option String
  partner_id_outgoing : Option String
  account_id_incoming : Option String
  account_id_outgoing : Option String
  country_name_incoming : Option String
  country_name_outgoing : Option String
  industry_gic2_code_incoming : Option String
  industry_gic2_code_outgoing : Option String
  partner_country_status_code_incoming : Option String
  partner_country_status_code_outgoing : Option String
  account_open_date_incoming : Option ℤ
  account_open_date_outgoing : Option ℤ
  account_close_date_incoming : Option ℤ
  account_close_date_outgoing : Option ℤ
  ext_counterparty_country : Option String
  ext_counterparty_account_id : Option String
  partner_id_col : Option String
  deriving DecidableEq, Repr

/-- A row of the account table (`account.csv`). -/
structure AccountRow where
  account_id : Option String
  account_open_date : Option ℤ
  account_close_date : Option ℤ
  account_currency : Option String
  deriving DecidableEq, Repr

/-- A neutral default row, used only as the `getD` fallback of list
indexing in places where the index is always in range. -/
def TxRow.default : TxRow :=
  ⟨none, 0, "", none, none, none, none, none, none, none, none, none, none,
   none, none, none, none, none, none, none⟩

/-! ## The Transaction Normalizer (`_prepare_transactions`)

Each feature module carries its own `_prepare_transactions` copy; all of
them derive the same logical columns with the same `np.where` formulas
(`df['Debit/Credit'] == 'debit'`, an exact, case-sensitive string
comparison) and then filter on `logical_partner_id` when a truthy
`partner_id` is supplied.  The derived columns are embedded as functions
of a row rather than materialised columns. -/

/-- `logical_partner_id` column: `np.where(df['Debit/Credit'] == 'debit',
partner_id_outgoing, partner_id_incoming)`.  Note the exact string
comparison: any casing other than lowercase `"debit"` takes the credit
branch. -/
def logicalPartnerId (r : TxRow) : Option String :=
  if r.debit_credit = "debit" then r.partner_id_outgoing else r.partner_id_incoming

/-- `logical_partner_country` column. -/
def logicalPartnerCountry (r : TxRow) : Option String :=
  if r.debit_credit = "debit" then r.country_name_outgoing else r.country_name_incoming

/-- `counterparty_id` column. -/
def counterpartyId (r : TxRow) : Option String :=
  if r.debit_credit = "debit" then r.partner_id_incoming else r.partner_id_outgoing

/-- `counterparty_country` column before the external fallback. -/
def counterpartyCountryRaw (r : TxRow) : Option String :=
  if r.debit_credit = "debit" then r.country_name_incoming else r.country_name_outgoing

/-- `counterparty_country` column after
`df['counterparty_country'].fillna(df['ext_counterparty_country'])`. -/
def counterpartyCountry (r : TxRow) : Option String :=
  (counterpartyCountryRaw r).orElse fun _ => r.ext_counterparty_country

/-- `counterparty_account_id` column before the external fallback. -/
def counterpartyAccountIdRaw (r : TxRow) : Option String :=
  if r.debit_credit = "debit" then r.account_id_incoming else r.account_id_outgoing

/-- `counterparty_account_id` after the `ext_counterparty_Account_ID`
fallback (`feature_counterparties._prepare_transactions`). -/
def counterpartyAccountId (r : TxRow) : Option String :=
  (counterpartyAccountIdRaw r).orElse fun _ => r.ext_counterparty_account_id

/-- `logical_account_id` column (`feature_ephemeral_account`). -/
def logicalAccountId (r : TxRow) : Option String :=
  if r.debit_credit = "debit" then r.account_id_outgoing else r.account_id_incoming

/-- `logical_account_open_date` column (`feature_ephemeral_account`). -/
def logicalAccountOpenDate (r : TxRow) : Option ℤ :=
  if r.debit_credit = "debit" then r.account_open_date_outgoing else r.account_open_date_incoming

/-- `logical_account_close_date` column (`feature_ephemeral_account`). -/
def logicalAccountCloseDate (r : TxRow) : Option ℤ :=
  if r.debit_credit = "debit" then r.account_close_date_outgoing else r.account_close_date_incoming

/-- The partner filter at the end of every `_prepare_transactions`:
`if partner_id: df = df[df['logical_partner_id'] == partner_id]`.
A pandas `==` comparison of a NaN cell against a string is `False`, so a
row with a null `logical_partner_id` never survives the filter; this is
exactly `logicalPartnerId r = some p`. -/
def prepareFilter (tx : List TxRow) (partner_id : Option String) : List TxRow :=
  if pyTruthyStr partner_id then tx.filter (fun r => logicalPartnerId r = partner_id) else tx

/-- The `"global"` sentinel: `partner_id if partner_id else "global"`. -/
def pidLabel (partner_id : Option String) : String :=
  if pyTruthyStr partner_id then partner_id.getD "global" else "global"

/-! ## Feature results -/

inductive RiskLevel
  | LOW
  | MEDIUM
  | HIGH
  deriving DecidableEq, Repr

/-- The shared shape of every feature computer's returned dictionary.
The decorative `"timestamp"` field (a wall-clock ISO string) is omitted;
`metrics` is the per-feature metrics record.  Numeric values interpolated
into `risk_reasons` strings are not rendered (Python formats them with
f-strings); the reason list structure — which messages are appended under
which conditions — is preserved. -/
structure FeatureResult (M : Type) where
  feature_name : String
  partner_id : String
  partner_name : Option String
  metrics : M
  risk_level : RiskLevel
  risk_score : ℚ
  risk_reasons : List String
  deriving DecidableEq, Repr

/-- Helper: number of elements of `l` equal to `k` (a pandas
`value_counts` entry / `groupby(...).size()` cell). -/
def countKey {κ : Type} [DecidableEq κ] (l : List κ) (k : κ) : ℕ :=
  (l.filter (fun x => x = k)).length

/-! ## Feature: Frequency (`src/features/feature_frequency.py`)

Metrics omitted from the embedding because they are reported only and feed
neither the risk logic nor any claim: `std_daily` (a float square root),
`avg_daily`, the `percentiles` map, `start_date`/`end_date` ISO strings
and the `daily_distribution` list. -/

structure FreqMetrics where
  total_transactions : ℕ
  date_range_days : ℤ
  tx_per_day_avg : ℚ
  max_daily : ℕ
  deriving DecidableEq, Repr

/-- Daily transaction counts: `df.groupby(df['Date'].dt.date).size()`;
rows with an unparsable (`NaT`) date are dropped by the groupby. -/
def dailyCounts (df : List TxRow) : List ℕ :=
  let days := df.filterMap (fun r => r.date.map (fun d => d.fdiv 86400))
  days.dedup.map (fun d => countKey days d)

/-- `feature_frequency`.  The source's `return_data` flag is `True` at
every call site in the analysis paths, so the embedding returns the
metrics dictionary directly. -/
def featureFrequency (tx : List TxRow) (partner_id : Option String) :
    FeatureResult FreqMetrics :=
  let df := prepareFilter tx partner_id
  if df.length = 0 then
    { feature_name := "frequency"
      partner_id := pidLabel partner_id
      partner_name := none
      metrics := ⟨0, 0, 0, 0⟩
      risk_level := .LOW
      risk_score := 0
      risk_reasons := ["No transactions found"] }
  else
    let total_tx := df.length
    let dates := df.filterMap (·.date)
    let min_date := dates.min?.getD 0
    let max_date := dates.max?.getD 0
    let date_range0 := (max_date - min_date).fdiv 86400
    let date_range := if date_range0 = 0 then 1 else date_range0
    let tx_per_day : ℚ := (total_tx : ℚ) / (date_range : ℚ)
    let max_daily := (dailyCounts df).max?.getD 0
    let (risk, risk_score, reasons0) :=
      if tx_per_day > 10 then
        (RiskLevel.HIGH, (85 : ℚ),
         ["Transaction frequency significantly exceeds normal threshold (10 tx/day)"])
      else if tx_per_day > 3 then
        (RiskLevel.MEDIUM, (55 : ℚ),
         ["Transaction frequency moderately elevated above threshold (3 tx/day)"])
      else
        (RiskLevel.LOW, (20 : ℚ), ["Transaction frequency within normal range"])
    let reasons :=
      if (max_daily : ℚ) > tx_per_day * 2 then
        reasons0 ++ ["Peak daily volume is a multiple of the average, indicating bursts"]
      else reasons0
    { feature_name := "frequency"
      partner_id := pidLabel partner_id
      partner_name := none
      metrics := ⟨total_tx, date_range, roundTo2 tx_per_day, max_daily⟩
      risk_level := risk
      risk_score := risk_score
      risk_reasons := reasons }

/-! ## Feature: Burst / Structuring (`src/features/feature_burst_structuring.py`)

The `df.sort_values('Date')` step before the groupby is omitted: every
value the function computes afterwards (group sizes, band counts) is
invariant under row order.  `structuring_details` (a reporting map) is
omitted. -/

structure BurstMetrics where
  total_transactions : ℕ
  burst_hours : ℕ
  max_burst : ℕ
  structuring_count : ℕ
  deriving DecidableEq, Repr

/-- The `(logical_partner_id, hour_window)` group keys:
`df['hour_window'] = df['Date'].dt.floor('h')` followed by
`df.groupby(['logical_partner_id', 'hour_window']).size()`.  A row whose
partner id or date is null is dropped by the groupby (pandas drops NaN
group keys). -/
def burstKeys (df : List TxRow) : List (String × ℤ) :=
  df.filterMap (fun r =>
    match logicalPartnerId r, r.date with
    | some p, some d => some (p, d.fdiv 3600)
    | _, _ => none)

/-- Count of transactions whose absolute amount lies in the 80–99% band
of `threshold` (`lower = threshold * 0.8`, `upper = threshold * 0.99`). -/
def structuringBandCount (df : List TxRow) (threshold : ℚ) : ℕ :=
  (df.filter (fun r => threshold * (8 / 10) ≤ |r.amount| ∧ |r.amount| ≤ threshold * (99 / 100))).length

/-- `burst_hours`: the number of (partner, hour) groups with more than 5
transactions. -/
def burstHoursOf (df : List TxRow) : ℕ :=
  (((burstKeys df).dedup.map (fun k => countKey (burstKeys df) k)).filter (fun c => 5 < c)).length

/-- `max_burst`: the largest hourly group size. -/
def maxBurstOf (df : List TxRow) : ℕ :=
  ((burstKeys df).dedup.map (fun k => countKey (burstKeys df) k)).max?.getD 0

/-- `structuring_count`: the summed band counts over the three fixed
thresholds 10000, 9000, 5000. -/
def structuringCountOf (df : List TxRow) : ℕ :=
  structuringBandCount df 10000 + structuringBandCount df 9000 + structuringBandCount df 5000

/-- `feature_burst_structuring`. -/
def featureBurstStructuring (tx : List TxRow) (partner_id : Option String) :
    FeatureResult BurstMetrics :=
  let df := prepareFilter tx partner_id
  if df.length = 0 then
    { feature_name := "burst_structuring"
      partner_id := pidLabel partner_id
      partner_name := none
      metrics := ⟨0, 0, 0, 0⟩
      risk_level := .LOW
      risk_score := 0
      risk_reasons := ["No transactions found"] }
  else
    let burst_hours := burstHoursOf df
    let max_burst := maxBurstOf df
    let structuring_count := structuringCountOf df
    let (risk, risk_score, reasons) :=
      if 10 < burst_hours ∨ 20 < structuring_count then
        (RiskLevel.HIGH, (90 : ℚ),
         (if 10 < burst_hours then
            ["Detected hourly bursts, indicating rapid transaction activity"] else []) ++
         (if 20 < structuring_count then
            ["Found transactions near reporting thresholds, potential structuring"] else []))
      else if 3 < burst_hours ∨ 5 < structuring_count then
        (RiskLevel.MEDIUM, (60 : ℚ),
         (if 3 < burst_hours then ["Detected hourly bursts"] else []) ++
         (if 5 < structuring_count then ["Found transactions near thresholds"] else []))
      else
        (RiskLevel.LOW, (15 : ℚ), ["No significant burst or structuring patterns detected"])
    { feature_name := "burst_structuring"
      partner_id := pidLabel partner_id
      partner_name := none
      metrics := ⟨df.length, burst_hours, max_burst, structuring_count⟩
      risk_level := risk
      risk_score := risk_score
      risk_reasons := reasons }

/-! ## Feature: Cross-Border (`src/features/feature_cross_border.py`) -/

/-- `Series.mode()[0]` for a string series: pandas returns the values of
maximal multiplicity sorted ascending, and the code takes the first, i.e.
the lexicographically least among the most frequent values.  `none` when
the series is empty. -/
def pandasModeFirst (l : List String) : Option String :=
  let keys := l.dedup
  let best := (keys.map (fun k => countKey l k)).max?.getD 0
  (keys.filter (fun k => countKey l k = best)).min?

/-- The fixed high-risk jurisdiction list of `feature_cross_border`. -/
def crossBorderHighRiskCountries : List String :=
  ["Panama", "China", "Iran", "North Korea", "Syria", "Afghanistan", "Yemen", "Myanmar",
   "Pakistan", "Turkey", "Uganda", "South Sudan", "Senegal", "Nigeria", "Mali",
   "Mozambique", "Philippines", "Venezuela", "Haiti", "Barbados", "Jamaica",
   "Democratic Republic of the Congo", "Burkina Faso", "Cameroon", "Croatia",
   "Tanzania", "Vietnam", "Albania", "Cayman Islands", "Jordan", "Monaco"]

structure CrossBorderMetrics where
  total_transactions : ℕ
  home_country : Option String
  cross_border_count : ℕ
  cross_border_pct : ℚ
  unique_countries : ℕ
  high_risk_count : ℕ
  high_risk_pct : ℚ
  deriving DecidableEq, Repr

/-- The cross-border row predicate when a truthy home country was found:
`(df['counterparty_country'].notna()) & (df['counterparty_country'] != home_country)`. -/
def crossBorderPred (home : String) (r : TxRow) : Bool :=
  (counterpartyCountry r).isSome ∧ counterpartyCountry r ≠ some home

/-- `home_country`: the mode of the partner's own country values. -/
def homeCountryOf (df : List TxRow) : Option String :=
  pandasModeFirst (df.filterMap logicalPartnerCountry)

/-- `cross_border_count`: rows whose non-null counterparty country
differs from the home country (all non-null counterparty countries when
no truthy home country could be determined). -/
def crossBorderCountOf (df : List TxRow) : ℕ :=
  if pyTruthyStr (homeCountryOf df) then
    (df.filter (crossBorderPred ((homeCountryOf df).getD ""))).length
  else
    (df.filter (fun r => (counterpartyCountry r).isSome)).length

/-- `high_risk_count`: rows whose counterparty country is on the fixed
high-risk list. -/
def highRiskCountOf (df : List TxRow) : ℕ :=
  (df.filter (fun r =>
    match counterpartyCountry r with
    | some c => c ∈ crossBorderHighRiskCountries
    | none => False)).length

/-- `unique_countries`: distinct non-null counterparty countries. -/
def uniqueCountriesOf (df : List TxRow) : ℕ :=
  (df.filterMap counterpartyCountry).dedup.length

/-- `feature_cross_border`.  Omitted report-only metrics:
`countries_list` (first 20 unique countries) and
`high_risk_countries_involved` (the sorted set of offending countries,
used only inside reason strings). -/
def featureCrossBorder (tx : List TxRow) (partner_id : Option String) :
    FeatureResult CrossBorderMetrics :=
  let df := prepareFilter tx partner_id
  if df.length = 0 then
    { feature_name := "cross_border"
      partner_id := pidLabel partner_id
      partner_name := none
      metrics := ⟨0, none, 0, 0, 0, 0, 0⟩
      risk_level := .LOW
      risk_score := 0
      risk_reasons := ["No transactions found"] }
  else
    let total_tx := df.length
    let home_country := homeCountryOf df
    let cross_border_count := crossBorderCountOf df
    let cross_border_pct : ℚ := (cross_border_count : ℚ) / (total_tx : ℚ) * 100
    let high_risk_count := highRiskCountOf df
    let high_risk_pct : ℚ := (high_risk_count : ℚ) / (total_tx : ℚ) * 100
    let unique_countries := uniqueCountriesOf df
    let (risk, risk_score, reasons0) :=
      if cross_border_pct > 50 ∨ 5 < high_risk_count then
        (RiskLevel.HIGH, (85 : ℚ),
         (if cross_border_pct > 50 then ["Majority of transactions are cross-border"] else []) ++
         (if 5 < high_risk_count then ["Transactions with high-risk countries"] else []))
      else if cross_border_pct > 20 ∨ 0 < high_risk_count then
        (RiskLevel.MEDIUM, (55 : ℚ),
         (if cross_border_pct > 20 then ["Significant cross-border activity"] else []) ++
         (if 0 < high_risk_count then ["Transactions with high-risk countries"] else []))
      else
        (RiskLevel.LOW, (15 : ℚ),
         ["Primarily domestic transactions with no high-risk jurisdictions"])
    let reasons :=
      if 10 < unique_countries then reasons0 ++ ["High geographic diversity"] else reasons0
    { feature_name := "cross_border"
      partner_id := pidLabel partner_id
      partner_name := none
      metrics := ⟨total_tx, home_country, cross_border_count, roundTo2 cross_border_pct,
                  unique_countries, high_risk_count, roundTo2 high_risk_pct⟩
      risk_level := risk
      risk_score := risk_score
      risk_reasons := reasons }

/-! ## Feature: Atypical Amounts (`src/features/feature_atypical_amounts.py`) -/

/-- pandas' default (linear, "type 7") quantile of a series: with the
`m` values sorted ascending, `h = (m-1)·q`, and the result interpolates
linearly between the values at positions `⌊h⌋` and `⌊h⌋+1`. -/
def pandasQuantile (l : List ℚ) (q : ℚ) : ℚ :=
  let s := l.insertionSort (· ≤ ·)
  let m := s.length
  let h : ℚ := ((m : ℚ) - 1) * q
  let lo : ℕ := (⌊h⌋).toNat
  let a := s.getD lo 0
  let b := s.getD (lo + 1) a
  a + (h - (lo : ℚ)) * (b - a)

/-- Arithmetic mean of a list of rationals (`Series.mean`), 0 on empty. -/
def listMean (l : List ℚ) : ℚ := if l.length = 0 then 0 else l.sum / (l.length : ℚ)

/-- Sample variance (`Series.var`, pandas default `ddof=1`), for `m ≥ 2`.
pandas' `Series.std` is its square root; the source only compares
`std > 0` and `|z| > 3`, both of which are decided here by the exact
squared comparisons (`std > 0 ↔ var > 0`, `|x-mean|/std > 3 ↔
(x-mean)² > 9·var`), avoiding an irrational square root. -/
def sampleVar (l : List ℚ) : ℚ :=
  let μ := listMean l
  (l.map (fun x => (x - μ) ^ 2)).sum / ((l.length : ℚ) - 1)

structure AtypicalMetrics where
  total_transactions : ℕ
  outlier_count : ℕ
  outlier_pct : ℚ
  extreme_outliers : ℕ
  median_amount : ℚ
  mean_amount : ℚ
  min_amount : ℚ
  max_amount : ℚ
  q1 : ℚ
  q3 : ℚ
  iqr : ℚ
  deriving DecidableEq, Repr

/-- `feature_atypical_amounts`. -/
def featureAtypicalAmounts (tx : List TxRow) (partner_id : Option String) :
    FeatureResult AtypicalMetrics :=
  let df := prepareFilter tx partner_id
  if df.length = 0 then
    { feature_name := "atypical_amounts"
      partner_id := pidLabel partner_id
      partner_name := none
      metrics := ⟨0, 0, 0, 0, 0, 0, 0, 0, 0, 0, 0⟩
      risk_level := .LOW
      risk_score := 0
      risk_reasons := ["No transactions found"] }
  else
    let amounts := df.map (fun r => |r.amount|)
    let q1 := pandasQuantile amounts (1 / 4)
    let q3 := pandasQuantile amounts (3 / 4)
    let iqr := q3 - q1
    let lower := q1 - 3 * iqr
    let upper := q3 + 3 * iqr
    let outlier_count := (amounts.filter (fun a => a < lower ∨ upper < a)).length
    let outlier_pct : ℚ := (outlier_count : ℚ) / (df.length : ℚ) * 100
    let mean_amount := listMean amounts
    -- `std_amount > 0` is `var > 0` (and requires `m ≥ 2`: for a single
    -- value pandas' ddof=1 std is NaN, and `NaN > 0` is false).
    let extreme_outliers :=
      if 2 ≤ amounts.length ∧ 0 < sampleVar amounts then
        (amounts.filter (fun a => 9 * sampleVar amounts < (a - mean_amount) ^ 2)).length
      else 0
    let (risk, risk_score, reasons) :=
      if outlier_pct > 10 ∨ 5 < extreme_outliers then
        (RiskLevel.HIGH, (85 : ℚ),
         (if outlier_pct > 10 then ["High proportion of outlier amounts"] else []) ++
         (if 5 < extreme_outliers then ["Extreme outliers detected (z-score above 3)"] else []))
      else if outlier_pct > 5 ∨ 2 < extreme_outliers then
        (RiskLevel.MEDIUM, (55 : ℚ),
         (if outlier_pct > 5 then ["Moderate outlier amounts"] else []) ++
         (if 2 < extreme_outliers then ["Extreme outliers detected"] else []))
      else
        (RiskLevel.LOW, (20 : ℚ),
         ["Transaction amounts follow normal distribution patterns"])
    { feature_name := "atypical_amounts"
      partner_id := pidLabel partner_id
      partner_name := none
      metrics := ⟨df.length, outlier_count, roundTo2 outlier_pct, extreme_outliers,
                  roundTo2 (pandasQuantile amounts (1 / 2)), roundTo2 mean_amount,
                  roundTo2 ((amounts.min?).getD 0), roundTo2 ((amounts.max?).getD 0),
                  roundTo2 q1, roundTo2 q3, roundTo2 iqr⟩
      risk_level := risk
      risk_score := risk_score
      risk_reasons := reasons }

/-! ## Feature: Counterparties (`src/features/feature_counterparties.py`) -/

/-- The (shorter) fixed high-risk country list of `feature_counterparties`. -/
def counterpartyHighRiskCountries : List String :=
  ["Panama", "China", "Iran", "North Korea", "Syria", "Afghanistan", "Yemen", "Myanmar",
   "Pakistan", "Turkey", "Uganda", "South Sudan", "Senegal", "Nigeria", "Mali"]

structure CounterpartyMetrics where
  total_transactions : ℕ
  unique_counterparties : ℕ
  diversity_ratio : ℚ
  top_counterparty_pct : ℚ
  top_3_pct : ℚ
  high_risk_cp_count : ℕ
  deriving DecidableEq, Repr

/-- `feature_counterparties`. -/
def featureCounterparties (tx : List TxRow) (partner_id : Option String) :
    FeatureResult CounterpartyMetrics :=
  let df := prepareFilter tx partner_id
  if df.length = 0 then
    { feature_name := "counterparties"
      partner_id := pidLabel partner_id
      partner_name := none
      metrics := ⟨0, 0, 0, 0, 0, 0⟩
      risk_level := .LOW
      risk_score := 0
      risk_reasons := ["No transactions found"] }
  else
    let total_tx := df.length
    -- prefer non-null counterparty ids, falling back to account ids
    let cps_partner := df.filterMap counterpartyId
    let cps_account := df.filterMap counterpartyAccountId
    let counterparties := if cps_partner.length ≠ 0 then cps_partner
      else if cps_account.length ≠ 0 then cps_account else []
    let unique_counterparties := counterparties.dedup.length
    -- `value_counts()` is sorted descending by count; `iloc[0]` is the max
    let countsDesc :=
      (counterparties.dedup.map (fun k => countKey counterparties k)).insertionSort (· ≥ ·)
    let top_counterparty_pct : ℚ :=
      if counterparties.length ≠ 0 then ((countsDesc.headD 0 : ℚ) / (total_tx : ℚ)) * 100 else 0
    let top_3_pct : ℚ :=
      if counterparties.length ≠ 0 then
        if 3 ≤ countsDesc.length then (((countsDesc.take 3).sum : ℚ) / (total_tx : ℚ)) * 100
        else ((countsDesc.sum : ℚ) / (total_tx : ℚ)) * 100
      else 0
    let diversity_ratio : ℚ := (unique_counterparties : ℚ) / (total_tx : ℚ)
    let high_risk_cp_count :=
      (df.filter (fun r =>
        match counterpartyCountry r with
        | some c => c ∈ counterpartyHighRiskCountries
        | none => False)).length
    let (risk0, risk_score0, reasons0) :=
      if unique_counterparties < 3 ∨ top_counterparty_pct > 80 then
        (RiskLevel.HIGH, (85 : ℚ),
         (if unique_counterparties < 3 then ["Very low counterparty diversity"] else []) ++
         (if top_counterparty_pct > 80 then ["Extreme concentration on the top counterparty"] else []))
      else if unique_counterparties < 10 ∨ top_counterparty_pct > 50 then
        (RiskLevel.MEDIUM, (55 : ℚ),
         (if unique_counterparties < 10 then ["Low counterparty diversity"] else []) ++
         (if top_counterparty_pct > 50 then ["High concentration on the top counterparty"] else []))
      else
        (RiskLevel.LOW, (20 : ℚ), ["Good counterparty diversity"])
    -- a single high-risk counterparty escalates a LOW verdict to MEDIUM
    let (risk, risk_score, reasons) :=
      if 0 < high_risk_cp_count then
        (if risk0 = RiskLevel.LOW then RiskLevel.MEDIUM else risk0,
         if risk0 = RiskLevel.LOW then max risk_score0 50 else risk_score0,
         reasons0 ++ ["Transactions with counterparties in high-risk countries"])
      else (risk0, risk_score0, reasons0)
    { feature_name := "counterparties"
      partner_id := pidLabel partner_id
      partner_name := none
      metrics := ⟨total_tx, unique_counterparties, diversity_ratio,
                  roundTo2 top_counterparty_pct, roundTo2 top_3_pct, high_risk_cp_count⟩
      risk_level := risk
      risk_score := risk_score
      risk_reasons := reasons }

/-! ## Feature: Night Activity (`src/features/feature_night_activity.py`) -/

/-- `Date.dt.hour` of a parsed timestamp. -/
def txHour (d : ℤ) : ℤ := (d.fdiv 3600) % 24

/-- `Date.dt.dayofweek` (Monday = 0); 1970-01-01 was a Thursday (= 3). -/
def txDayOfWeek (d : ℤ) : ℤ := (d.fdiv 86400 + 3) % 7

/-- Night predicate: `(hour >= 22) | (hour < 6)`.  A `NaT` date gives a
NaN hour and both comparisons are then false. -/
def isNightRow (r : TxRow) : Bool :=
  match r.date with
  | some d => 22 ≤ txHour d ∨ txHour d < 6
  | none => false

/-- Weekend predicate: `dayofweek.isin([5, 6])`; false for `NaT`. -/
def isWeekendRow (r : TxRow) : Bool :=
  match r.date with
  | some d => txDayOfWeek d = 5 ∨ txDayOfWeek d = 6
  | none => false

structure NightMetrics where
  total_transactions : ℕ
  night_count : ℕ
  night_pct : ℚ
  weekend_count : ℕ
  weekend_pct : ℚ
  night_weekend_count : ℕ
  peak_hour : Option ℤ
  peak_hour_count : ℕ
  deriving DecidableEq, Repr

/-- `feature_night_activity`. -/
def featureNightActivity (tx : List TxRow) (partner_id : Option String) :
    FeatureResult NightMetrics :=
  let df := prepareFilter tx partner_id
  if df.length = 0 then
    { feature_name := "night_activity"
      partner_id := pidLabel partner_id
      partner_name := none
      metrics := ⟨0, 0, 0, 0, 0, 0, none, 0⟩
      risk_level := .LOW
      risk_score := 0
      risk_reasons := ["No transactions found"] }
  else
    let total_tx := df.length
    let night_count := (df.filter isNightRow).length
    let night_pct : ℚ := (night_count : ℚ) / (total_tx : ℚ) * 100
    -- hour distribution: `value_counts().sort_index()`, then `idxmax()`
    -- returns the first (i.e. smallest) hour attaining the maximal count
    let hours := df.filterMap (fun r => r.date.map txHour)
    let hourKeys := hours.dedup.insertionSort (· ≤ ·)
    let peak_hour_count := (hourKeys.map (fun h => countKey hours h)).max?.getD 0
    let peak_hour := hourKeys.find? (fun h => countKey hours h = peak_hour_count)
    let weekend_count := (df.filter isWeekendRow).length
    let weekend_pct : ℚ := (weekend_count : ℚ) / (total_tx : ℚ) * 100
    let night_weekend_count := (df.filter (fun r => isNightRow r ∧ isWeekendRow r)).length
    let (risk, risk_score, reasons) :=
      if night_pct > 30 ∨ 10 < night_weekend_count then
        (RiskLevel.HIGH, (85 : ℚ),
         (if night_pct > 30 then ["High proportion of night transactions"] else []) ++
         (if 10 < night_weekend_count then ["Transactions during night hours on weekends"] else []) ++
         (match peak_hour with
          | some h => if 22 ≤ h ∨ h < 6 then ["Peak activity during night hours"] else []
          | none => []))
      else if night_pct > 10 ∨ 3 < night_weekend_count then
        (RiskLevel.MEDIUM, (50 : ℚ),
         (if night_pct > 10 then ["Moderate night activity"] else []) ++
         (if 3 < night_weekend_count then ["Transactions during night hours on weekends"] else []))
      else
        (RiskLevel.LOW, (15 : ℚ),
         ["Low night activity, consistent with normal business hours"])
    { feature_name := "night_activity"
      partner_id := pidLabel partner_id
      partner_name := none
      metrics := ⟨total_tx, night_count, roundTo2 night_pct, weekend_count,
                  roundTo2 weekend_pct, night_weekend_count, peak_hour, peak_hour_count⟩
      risk_level := risk
      risk_score := risk_score
      risk_reasons := reasons }

/-! ## Feature: Irregularity (`src/features/feature_irregularity.py`)

The composite score mixes exact rational statistics with `np.sqrt` (inside
the coefficients of variation, via `Series.std`) and `np.log` (inside the
Shannon entropies), so the non-empty branch is necessarily stated over `ℝ`
and is `noncomputable`; only its empty branch (which is what claim C2
exercises) is evaluated in proofs. -/

/-- `Series.std` over `ℝ` (`ddof=1`); NaN cases (fewer than two values)
are guarded at each use site exactly as in the source. -/
noncomputable def realStd (l : List ℚ) : ℝ :=
  Real.sqrt ((sampleVar l : ℚ) : ℝ)

/-- Shannon entropy term of a distribution given as rational
probabilities: `-(p * log(p + 1e-10)).sum()`. -/
noncomputable def entropyNat (probs : List ℚ) : ℝ :=
  -(probs.map (fun p => (p : ℝ) * Real.log ((p : ℝ) + 1e-10))).sum

structure IrregularityMetrics where
  total_transactions : ℕ
  cv_amount : ℝ
  cv_timing : ℝ
  day_entropy : ℝ
  hour_entropy : ℝ
  irregularity_score : ℝ

/-- `feature_irregularity`.  Row order matters only through the
inter-transaction time differences, which are taken after
`df.sort_values('Date')`: `NaT` dates sort to the end and their
differences are dropped by `dropna()`, so the retained differences are
the consecutive gaps of the ascending valid dates (embedded via a sort of
the valid dates; tie order among equal dates cannot affect a
difference). -/
noncomputable def featureIrregularity (tx : List TxRow) (partner_id : Option String) :
    FeatureResult IrregularityMetrics :=
  let df := prepareFilter tx partner_id
  if df.length = 0 then
    { feature_name := "irregularity"
      partner_id := pidLabel partner_id
      partner_name := none
      metrics := ⟨0, 0, 0, 0, 0, 0⟩
      risk_level := .LOW
      risk_score := 0
      risk_reasons := ["No transactions found"] }
  else
    let amounts := df.map (fun r => |r.amount|)
    let mean_amt := listMean amounts
    let cv_amount : ℝ := if 0 < mean_amt then realStd amounts / (mean_amt : ℝ) else 0
    let sortedDates := (df.filterMap (·.date)).insertionSort (· ≤ ·)
    let time_diffs : List ℚ :=
      (sortedDates.zip sortedDates.tail).map (fun p => ((p.2 - p.1 : ℤ) : ℚ) / 3600)
    let cv_timing : ℝ :=
      if 1 < df.length then
        let mean_time := listMean time_diffs
        if 0 < mean_time then realStd time_diffs / (mean_time : ℝ) else 0
      else 0
    let days := df.filterMap (fun r => r.date.map txDayOfWeek)
    let day_probs := days.dedup.map (fun d => (countKey days d : ℚ) / (df.length : ℚ))
    let day_entropy := entropyNat day_probs
    let hours := df.filterMap (fun r => r.date.map txHour)
    let hour_probs := hours.dedup.map (fun h => (countKey hours h : ℚ) / (df.length : ℚ))
    let hour_entropy := entropyNat hour_probs
    let score : ℝ :=
      min 100 (cv_amount * 20 + cv_timing * 10 + day_entropy * 10 + hour_entropy * 5)
    let (risk, risk_score, reasons) :=
      if 60 < score then
        (RiskLevel.HIGH, (85 : ℚ),
         ["High irregularity score indicates erratic transaction patterns"] ++
         (if 2 < cv_amount then ["Highly variable transaction amounts"] else []) ++
         (if 3 < cv_timing then ["Highly irregular transaction timing"] else []))
      else if 30 < score then
        (RiskLevel.MEDIUM, (50 : ℚ),
         ["Moderate irregularity score"] ++
         (if 1 < cv_amount then ["Variable transaction amounts"] else []))
      else
        (RiskLevel.LOW, (20 : ℚ),
         ["Low irregularity score indicates consistent transaction patterns"])
    { feature_name := "irregularity"
      partner_id := pidLabel partner_id
      partner_name := none
      metrics := ⟨df.length, cv_amount, cv_timing, day_entropy, hour_entropy, score⟩
      risk_level := risk
      risk_score := risk_score
      risk_reasons := reasons }

/-! ## Feature: Ephemeral Account (`src/features/feature_ephemeral_account.py`)

This computer's `partner_id` parameter is dynamically typed at its call
sites: `run_all_features` passes the *accounts DataFrame* positionally
into it (see `runAllFeatures` below), while `analyze_top_suspects` passes
a proper keyword `partner_id`.  The parameter (and the `return_data`
flag, which receives the caller's `partner_id` in the buggy call) is
therefore modelled as a dynamic Python value, and the `if partner_id:` /
`if return_data:` truth tests go through `pyTruthy`, which raises
`ValueError` on a `DataFrame` exactly as `pandas.NDFrame.__bool__`
does — unconditionally, whatever the frame's length. -/

inductive PyVal
  | none
  | bool (b : Bool)
  | str (s : String)
  | accountsFrame (rows : List AccountRow)
  deriving DecidableEq, Repr

inductive PyErr
  | valueErrorDataFrameTruth
  | keyError (col : String)
  deriving DecidableEq, Repr

/-- Python truth test of a dynamic value.  `bool(DataFrame)` raises
`ValueError: The truth value of a DataFrame is ambiguous` for every
frame, empty or not. -/
def pyTruthy : PyVal → Except PyErr Bool
  | .none => .ok false
  | .bool b => .ok b
  | .str s => .ok (s ≠ "")
  | .accountsFrame _ => .error .valueErrorDataFrameTruth

/-- The dynamic value a caller builds from an `Optional[str]`. -/
def PyVal.ofOptStr : Option String → PyVal
  | Option.none => PyVal.none
  | Option.some s => PyVal.str s

/-- `feature_ephemeral_account._prepare_transactions`: identical column
derivations, but the final `if partner_id:` truth test now acts on the
dynamic value.  When the (truthy) value is not a string the filter
compares every `logical_partner_id` cell against it; that combination is
unreachable from the call sites, and the embedding keeps the frame
unfiltered there. -/
def prepareEphemeral (tx : List TxRow) (partner_id : PyVal) :
    Except PyErr (List TxRow) := do
  let t ← pyTruthy partner_id
  if t then
    match partner_id with
    | .str p => pure (tx.filter (fun r => logicalPartnerId r = some p))
    | _ => pure tx
  else
    pure tx

/-- Per-account aggregation row (`df.groupby('logical_account_id').agg`):
pandas' `'first'` aggregation takes the first *non-null* value in group
order, `'min'`/`'max'`/`'count'` on `Date` skip `NaT`. -/
structure AcctAgg where
  open_date : Option ℤ
  close_date : Option ℤ
  first_tx_date : Option ℤ
  last_tx_date : Option ℤ
  tx_count : ℕ
  deriving DecidableEq, Repr

def acctAggOf (df : List TxRow) (a : String) : AcctAgg :=
  let g := df.filter (fun r => logicalAccountId r = some a)
  { open_date := (g.filterMap logicalAccountOpenDate).head?
    close_date := (g.filterMap logicalAccountCloseDate).head?
    first_tx_date := (g.filterMap (·.date)).min?
    last_tx_date := (g.filterMap (·.date)).max?
    tx_count := (g.filterMap (·.date)).length }

/-- `calc_lifetime`: start is the open date, else the first transaction
date, else NaN (the account is dropped); end is the close date, else the
last transaction date, else "today"; the result is the `Timedelta.days`
floor. -/
def calcLifetime (today : ℤ) (g : AcctAgg) : Option ℤ :=
  match g.open_date.orElse (fun _ => g.first_tx_date) with
  | Option.none => Option.none
  | Option.some o =>
    let e := (g.close_date.orElse (fun _ => g.last_tx_date)).getD today
    Option.some ((e - o).fdiv 86400)

/-- Metrics of the ephemeral-account result dictionary.  The source's
empty-input dictionaries carry only the first four keys; the embedding
zero-fills the remaining fields there.  `median_lifetime_days`
(report-only) is omitted. -/
structure EphemeralMetrics where
  total_accounts : ℕ
  ephemeral_count : ℕ
  ephemeral_pct : ℚ
  very_ephemeral_count : ℕ
  high_activity_ephemeral_count : ℕ
  avg_lifetime_days : ℚ
  deriving DecidableEq, Repr

/-- `feature_ephemeral_account`. -/
def featureEphemeralAccount (tx : List TxRow) (partner_id : PyVal)
    (return_data : PyVal) (today : ℤ) :
    Except PyErr (Option (FeatureResult EphemeralMetrics)) := do
  let df ← prepareEphemeral tx partner_id
  let _ ← pyTruthy partner_id   -- `if partner_id:` label selection
  let pidStr := match partner_id with
    | .str s => if s ≠ "" then s else "global"
    | _ => "global"
  if df.length = 0 then
    let rd ← pyTruthy return_data
    if rd then
      pure (some
        { feature_name := "ephemeral_account"
          partner_id := pidStr
          partner_name := Option.none
          metrics := ⟨0, 0, 0, 0, 0, 0⟩
          risk_level := .LOW
          risk_score := 0
          risk_reasons := ["No transactions found"] })
    else pure Option.none
  else
    let accountIds := (df.filterMap logicalAccountId).dedup
    let aggs := accountIds.map (acctAggOf df)
    let valid := aggs.filterMap (fun g => (calcLifetime today g).map (fun lt => (lt, g.tx_count)))
    if valid.length = 0 then
      let rd ← pyTruthy return_data
      if rd then
        pure (some
          { feature_name := "ephemeral_account"
            partner_id := pidStr
            partner_name := Option.none
            metrics := ⟨0, 0, 0, 0, 0, 0⟩
            risk_level := .LOW
            risk_score := 0
            risk_reasons := ["No valid account lifetime data"] })
      else pure Option.none
    else
      let ephemeral := valid.filter (fun v => v.1 < 90)
      let ephemeral_count := ephemeral.length
      let ephemeral_pct : ℚ := (ephemeral_count : ℚ) / (valid.length : ℚ) * 100
      let very_ephemeral_count := (valid.filter (fun v => v.1 < 30)).length
      let high_activity_count := (ephemeral.filter (fun v => 10 < v.2)).length
      let avg_lifetime := listMean (valid.map (fun v => (v.1 : ℚ)))
      let (risk, risk_score, reasons) :=
        if ephemeral_pct > 30 ∨ 3 < high_activity_count then
          (RiskLevel.HIGH, (85 : ℚ),
           (if ephemeral_pct > 30 then ["High proportion of ephemeral accounts"] else []) ++
           (if 0 < very_ephemeral_count then ["Very short-lived accounts (under 30 days)"] else []) ++
           (if 3 < high_activity_count then ["Ephemeral accounts with high transaction volume"] else []))
        else if ephemeral_pct > 10 ∨ 0 < high_activity_count then
          (RiskLevel.MEDIUM, (55 : ℚ),
           (if ephemeral_pct > 10 then ["Moderate ephemeral accounts"] else []) ++
           (if 0 < high_activity_count then ["Ephemeral accounts with high transaction volume"] else []))
        else
          (RiskLevel.LOW, (15 : ℚ), ["Low proportion of ephemeral accounts"])
      let rd ← pyTruthy return_data
      if rd then
        pure (some
          { feature_name := "ephemeral_account"
            partner_id := pidStr
            partner_name := Option.none
            metrics := ⟨valid.length, ephemeral_count, roundTo2 ephemeral_pct,
                        very_ephemeral_count, high_activity_count,
                        roundTo2 avg_lifetime⟩
            risk_level := risk
            risk_score := risk_score
            risk_reasons := reasons })
      else pure Option.none

/-! ## Features that only print (`feature_account_age.py`,
`feature_abnormal_activity.py`, `feature_account_multiplicity.py`)

These three functions print their statistics and have no `return value`
statement on any path: every path returns Python `None`.  Their computed
statistics are embedded where they carry logic, but the functions'
*results* are `none` on every input — including the empty-input early
returns the empty-input law (claim C2) is about. -/

/-- The statistics `feature_account_age` computes and prints: `none` when
the accounts table is empty (the early-return branch), otherwise the mean
age in months, the count and percentage of accounts younger than six
months and the risk tier.  Ages are `(end - open).days / 30.44` with a
NaN (skipped) age when the open date is null; `len(accts)` — all
accounts, not just aged ones — is the percentage denominator. -/
def accountAgeStats (accounts : List AccountRow) (today : ℤ) :
    Option (ℚ × ℕ × ℚ × RiskLevel) :=
  if accounts.length = 0 then none
  else
    let ages : List ℚ := accounts.filterMap (fun a =>
      a.account_open_date.map (fun o =>
        ((((a.account_close_date.getD today) - o).fdiv 86400 : ℤ) : ℚ) / (3044 / 100)))
    let mean_age := listMean ages
    let new_accounts := (ages.filter (fun x => x < 6)).length
    let new_pct : ℚ := (new_accounts : ℚ) / (accounts.length : ℚ) * 100
    let risk := if new_pct > 40 then RiskLevel.HIGH
      else if new_pct > 20 then RiskLevel.MEDIUM else RiskLevel.LOW
    some (mean_age, new_accounts, new_pct, risk)

/-- `feature_account_age`: prints `accountAgeStats` and returns `None` on
every path (there is no `return <value>` in the function). -/
def featureAccountAge (accounts : List AccountRow) (today : ℤ) :
    Option (FeatureResult Unit) :=
  match accountAgeStats accounts today with
  | _ => none

/-- `feature_abnormal_activity`: filters on the account-level
`partner_id` column when a truthy partner id is supplied, prints either
"No transactions found", "Insufficient data for comparison" or the
baseline/recent comparison, and returns `None` on every path.  The
branch structure (the part claim C2 is about) is kept; the printed
statistics themselves are not observable. -/
def featureAbnormalActivity (tx : List TxRow) (_accounts : List AccountRow)
    (partner_id : Option String) : Option (FeatureResult Unit) :=
  let df := if pyTruthyStr partner_id then
      tx.filter (fun r => r.partner_id_col = partner_id) else tx
  if df.length = 0 then none
  else
    let split_point := df.length * 8 / 10   -- int(len(df) * 0.8)
    if split_point = 0 ∨ df.length - split_point = 0 then none
    else none

/-- `feature_account_multiplicity`: prints an accounts-per-partner
summary (or a "requires transaction data" notice when no transactions
are supplied) and returns `None` on every path. -/
def featureAccountMultiplicity (_accounts : List AccountRow)
    (tx : Option (List TxRow)) : Option (FeatureResult Unit) :=
  match tx with
  | Option.none => none
  | Option.some _ => none

/-! ## Population Ranker scoring (`analyze_top_suspects.calculate_aggregate_score`) -/

/-- The claim-relevant view of one feature dictionary as consumed by
`calculate_aggregate_score`: its `risk_score` (`.get('risk_score', 0)`
can in principle find `None`, hence the `Option`), its `risk_level`
(every feature computer only ever emits `"HIGH"`/`"MEDIUM"`/`"LOW"`, so
the `level in risk_levels` membership test of the source is always true
and the level is an enum here) and its `risk_reasons`. -/
structure ScoredFeature where
  risk_score : Option ℚ
  risk_level : RiskLevel
  risk_reasons : List String
  deriving DecidableEq, Repr

structure AggregateOutcome where
  aggregate_score : ℚ
  overall_risk : RiskLevel
  high_count : ℕ
  medium_count : ℕ
  low_count : ℕ
  feature_scores : List (String × ScoredFeature)
  deriving DecidableEq, Repr

/-- `calculate_aggregate_score` (analyze_top_suspects.py, lines 148–191):
collect the non-`None` scores, count levels, average the scores, add a
5-point bonus per HIGH feature capped at 100, and classify. -/
def calculateAggregateScore (feature_results : List (String × ScoredFeature)) :
    AggregateOutcome :=
  let risk_scores := feature_results.filterMap (fun e => e.2.risk_score)
  let high := (feature_results.filter (fun e => e.2.risk_level = RiskLevel.HIGH)).length
  let med := (feature_results.filter (fun e => e.2.risk_level = RiskLevel.MEDIUM)).length
  let low := (feature_results.filter (fun e => e.2.risk_level = RiskLevel.LOW)).length
  let aggregate_score : ℚ :=
    if risk_scores.length ≠ 0 then
      min 100 (risk_scores.sum / (risk_scores.length : ℚ) + (high : ℚ) * 5)
    else 0
  let overall :=
    if 70 ≤ aggregate_score ∨ 3 ≤ high then RiskLevel.HIGH
    else if 40 ≤ aggregate_score ∨ 1 ≤ high then RiskLevel.MEDIUM
    else RiskLevel.LOW
  { aggregate_score := aggregate_score
    overall_risk := overall
    high_count := high
    medium_count := med
    low_count := low
    feature_scores := feature_results.filter (fun e => e.2.risk_score.isSome) }

/-! ## Feature Aggregator (`src/features/run_all_features.py`) -/

/-- One collected entry of the aggregator's `results` list (the feature
dictionaries are heterogeneous in their `metrics`). -/
inductive AnyFeatureResult
  | frequency (r : FeatureResult FreqMetrics)
  | burst (r : FeatureResult BurstMetrics)
  | atypical (r : FeatureResult AtypicalMetrics)
  | crossBorder (r : FeatureResult CrossBorderMetrics)
  | counterparties (r : FeatureResult CounterpartyMetrics)
  | irregularity (r : FeatureResult IrregularityMetrics)
  | night (r : FeatureResult NightMetrics)
  | ephemeral (r : FeatureResult EphemeralMetrics)
  | printOnly (r : FeatureResult Unit)

def AnyFeatureResult.risk_level : AnyFeatureResult → RiskLevel
  | .frequency r => r.risk_level
  | .burst r => r.risk_level
  | .atypical r => r.risk_level
  | .crossBorder r => r.risk_level
  | .counterparties r => r.risk_level
  | .irregularity r => r.risk_level
  | .night r => r.risk_level
  | .ephemeral r => r.risk_level
  | .printOnly r => r.risk_level

def AnyFeatureResult.risk_score : AnyFeatureResult → ℚ
  | .frequency r => r.risk_score
  | .burst r => r.risk_score
  | .atypical r => r.risk_score
  | .crossBorder r => r.risk_score
  | .counterparties r => r.risk_score
  | .irregularity r => r.risk_score
  | .night r => r.risk_score
  | .ephemeral r => r.risk_score
  | .printOnly r => r.risk_score

/-- `result['partner_name'] = partner_name`. -/
def FeatureResult.setName {M : Type} (r : FeatureResult M) (n : Option String) :
    FeatureResult M := { r with partner_name := n }

structure ReportSummary where
  high_risk_features : ℕ
  medium_risk_features : ℕ
  low_risk_features : ℕ
  average_risk_score : ℚ
  deriving DecidableEq, Repr

structure AnalysisMetadata where
  partner_id : String
  partner_name : Option String
  total_features_analyzed : ℕ
  deriving DecidableEq, Repr

structure AnalysisReport where
  metadata : AnalysisMetadata
  features : List AnyFeatureResult
  summary : ReportSummary

/-- The report constructor of `run_all_features` (lines 117–131): the
metadata block (its wall-clock `analysis_timestamp` omitted), the
collected feature list, and the summary with per-level counts and the
rounded average score (0 when no feature produced a result). -/
def buildAnalysisReport (partner_id partner_name : Option String)
    (results : List AnyFeatureResult) : AnalysisReport :=
  { metadata := ⟨pidLabel partner_id, partner_name, results.length⟩
    features := results
    summary :=
      { high_risk_features :=
          (results.filter (fun r => r.risk_level = RiskLevel.HIGH)).length
        medium_risk_features :=
          (results.filter (fun r => r.risk_level = RiskLevel.MEDIUM)).length
        low_risk_features :=
          (results.filter (fun r => r.risk_level = RiskLevel.LOW)).length
        average_risk_score :=
          if results.length ≠ 0 then
            roundTo2 ((results.map AnyFeatureResult.risk_score).sum / (results.length : ℚ))
          else 0 } }

/-- `run_all_features` (JSON saving omitted — a terminal side effect).
The eighth call is the source's
`feature_ephemeral_account(transactions_df, accounts_df, partner_id)`:
three positional arguments against the signature
`(transactions_df, partner_id=None, return_data=True)`, so the accounts
frame lands in `partner_id` and the caller's partner id in
`return_data`.  Nothing on this path catches the resulting
`ValueError`. -/
noncomputable def runAllFeatures (tx : List TxRow) (accounts : List AccountRow)
    (partner_id partner_name : Option String) (today : ℤ) :
    Except PyErr AnalysisReport := do
  let rFreq := (featureFrequency tx partner_id).setName partner_name
  let rBurst := (featureBurstStructuring tx partner_id).setName partner_name
  let rAtyp := (featureAtypicalAmounts tx partner_id).setName partner_name
  let rXb := (featureCrossBorder tx partner_id).setName partner_name
  let rCp := (featureCounterparties tx partner_id).setName partner_name
  let rIrr := (featureIrregularity tx partner_id).setName partner_name
  let rNight := (featureNightActivity tx partner_id).setName partner_name
  let rEph ← featureEphemeralAccount tx (PyVal.accountsFrame accounts)
    (PyVal.ofOptStr partner_id) today
  let rAbn := featureAbnormalActivity tx accounts partner_id
  let results : List AnyFeatureResult :=
    [.frequency rFreq, .burst rBurst, .atypical rAtyp, .crossBorder rXb,
     .counterparties rCp, .irregularity rIrr, .night rNight]
    ++ (match rEph with
        | some r => [.ephemeral (r.setName partner_name)]
        | none => [])
    ++ (match rAbn with
        | some r => [.printOnly (r.setName partner_name)]
        | none => [])
    ++ (if ¬ pyTruthyStr partner_id then
          (match featureAccountAge accounts today with
           | some r => [AnyFeatureResult.printOnly r]
           | none => [])
          ++ (match featureAccountMultiplicity accounts (some tx) with
              | some r => [AnyFeatureResult.printOnly r]
              | none => [])
        else [])
  pure (buildAnalysisReport partner_id partner_name results)

/-! ## Country aggregator (`src/sent_amounts_by_country.py`) -/

/-- A raw transaction row as read by `sent_amounts_by_country`, after
`resolve_columns` has located the `Account ID`, `Date`, `Amount`,
`Debit/Credit` and country columns.  `date` is the `pd.to_datetime(...,
errors="coerce")` result (`none` = NaT), `amount` is `none` when
`pd.to_numeric(..., errors="coerce")` fails. -/
structure RawCountryRow where
  account_id : String
  date : Option ℤ
  amount : Option ℚ
  direction : String
  country : Option String
  deriving DecidableEq, Repr

/-- A standardised row of `load_transactions`. -/
structure CountryTxRow where
  tx_date : ℤ
  amount_value : ℚ
  is_debit : Bool
  account_id_value : String
  country_clean : String
  deriving DecidableEq, Repr

/-- Python's `str.lower`, embedded structurally over the character list
(so that concrete instances reduce in the kernel); agrees with
`String.toLower` and with Python on the data's ASCII direction values. -/
def pyLower (s : String) : String := String.mk (s.data.map Char.toLower)

/-- Python's `str.strip`: drop whitespace from both ends, embedded
structurally for the same reason. -/
def pyStrip (s : String) : String :=
  String.mk (((s.data.dropWhile (·.isWhitespace)).reverse.dropWhile
    (·.isWhitespace)).reverse)

/-- `load_transactions`' direction normalisation:
`.astype(str).str.lower().str.strip() == "debit"`. -/
def isDebitDirection (s : String) : Bool := pyStrip (pyLower s) = "debit"

/-- `load_transactions`' country normalisation:
`.fillna("Unknown").astype(str).str.strip()` followed by replacing the
empty string with `"Unknown"`. -/
def cleanCountry (c : Option String) : String :=
  let s := pyStrip (c.getD "Unknown")
  if s = "" then "Unknown" else s

/-- `load_transactions`: drop rows with an unparsable date, coerce
unparsable amounts to 0.0, normalise direction and country. -/
def loadTransactions (raws : List RawCountryRow) : List CountryTxRow :=
  raws.filterMap (fun r =>
    r.date.map (fun d =>
      { tx_date := d
        amount_value := r.amount.getD 0
        is_debit := isDebitDirection r.direction
        account_id_value := r.account_id
        country_clean := cleanCountry r.country }))

/-- `compute_date_bounds`: the end bound is the explicit end date if
given, else the latest transaction date in the whole dataset, else (for
an empty dataset) today's UTC midnight — the `utcnow_norm` parameter.
The start bound is `end - window_days` days when a window is given, else
the explicit start date, else absent.  Explicit dates are modelled
already parsed (`pd.to_datetime` of a CLI string). -/
def computeDateBounds (df : List CountryTxRow) (start_date end_date : Option ℤ)
    (window_days : Option ℤ) (utcnow_norm : ℤ) : Option ℤ × Option ℤ :=
  let e := match end_date with
    | some e => e
    | none => ((df.map (·.tx_date)).max?).getD utcnow_norm
  let s : Option ℤ := match window_days with
    | some w => some (e - w * 86400)
    | none => start_date
  (s, some e)

/-- The per-country totals of `amount_sent_per_country`'s filtered
subset: `subset.groupby("country_clean")["amount_value"].sum()`.  The
groupby's ascending key order is kept for fidelity; it is immediately
re-ordered by the descending sort on the totals anyway. -/
def groupTotals (subset : List CountryTxRow) : List (String × ℚ) :=
  ((subset.map (·.country_clean)).dedup.insertionSort (· ≤ ·)).map
    (fun c => (c, ((subset.filter (fun r => r.country_clean = c)).map (·.amount_value)).sum))

/-- `amount_sent_per_country`: filter to the account's debit rows inside
the window, group per country, sum, and sort descending by total.  The
final `sort_values("total_sent", ascending=False)` is embedded at its
contract level — the rows reordered so the totals are non-increasing —
with a stable insertion sort; the pandas default quicksort leaves the
relative order of *equal* totals unspecified, and nothing downstream
depends on it. -/
def amountSentPerCountry (df : List CountryTxRow) (account_id : String)
    (start_date end_date window_days : Option ℤ) (utcnow_norm : ℤ) :
    List (String × ℚ) × Option ℤ × Option ℤ :=
  let (start, stop) := computeDateBounds df start_date end_date window_days utcnow_norm
  let subset := df.filter (fun r =>
    (r.account_id_value = account_id : Bool) && r.is_debit
    && (match start with | some s => decide (s ≤ r.tx_date) | none => true)
    && (match stop with | some e => decide (r.tx_date ≤ e) | none => true))
  ((groupTotals subset).insertionSort (fun a b => b.2 ≤ a.2), start, stop)

/-- `main`'s window-defaulting rule: when neither `--start-date` nor
`--end-date` nor `--window-days` is supplied, a 30-day lookback is used
(`DEFAULT_WINDOW_DAYS`).  The mutually-exclusive-usage and positivity
`ValueError`s of `main` precede this and are usage errors outside the
aggregation contract. -/
def mainWindowDays (start_date end_date window_days : Option ℤ) : Option ℤ :=
  if window_days = none ∧ start_date = none ∧ end_date = none then some 30 else window_days

/-! ## The Population Ranker's sort (`analyze_top_suspects.analyze_all_partners`)

`results_df.sort_values('aggregate_risk_score', ascending=False)` with
the pandas defaults runs `nargsort(values, kind='quicksort',
ascending=False)`, which *reverses* the values, takes numpy's
introsort-based `argsort`, indexes the reversed positions and reverses
the resulting indexer.  Tie behaviour therefore comes from numpy's
introsort (`npy_sort/quicksort.c`): segments of more than
`SMALL_QUICKSORT = 15` elements are partitioned (median-of-3 Hoare
partition on the index array), smaller segments are insertion sorted,
and a segment whose running depth budget (`2·msb(n)`) is exhausted falls
back to heapsort.  The partition *permutes equal keys*; only the
insertion-sort regime (whole arrays of at most 16 elements) is stable.
The machinery below embeds that algorithm; the in-place insertion sort of
an index segment computes the unique stable ascending ordering of the
segment, embedded as `List.insertionSort` on the segment (itself stable,
`List.pair_sublist_insertionSort`). -/

namespace NpSort

/-- Value of the index stored at position `p` of the index array. -/
def keyAt (v : List ℚ) (t : List ℕ) (p : ℕ) : ℚ := v.getD (t.getD p 0) 0

/-- Swap the contents of positions `a` and `b` (`INTP_SWAP`). -/
def lswap (t : List ℕ) (a b : ℕ) : List ℕ :=
  let x := t.getD a 0
  let y := t.getD b 0
  (t.set a y).set b x

/-- `do ++pi; while (LT(v[*pi], vp));` — first position `≥ p` whose key
is not below the pivot.  Terminates in the C code because the pivot
itself bounds the scan; the fuel makes that explicit. -/
def scanUp (v : List ℚ) (vp : ℚ) (t : List ℕ) : ℕ → ℕ → ℕ
  | 0, p => p
  | fuel + 1, p => if keyAt v t p < vp then scanUp v vp t fuel (p + 1) else p

/-- `do --pj; while (LT(vp, v[*pj]));`. -/
def scanDown (v : List ℚ) (vp : ℚ) (t : List ℕ) : ℕ → ℕ → ℕ
  | 0, p => p
  | fuel + 1, p => if vp < keyAt v t p then scanDown v vp t fuel (p - 1) else p

/-- The inner partition exchange loop; returns the crossing position and
the permuted index array. -/
def partLoop (v : List ℚ) (vp : ℚ) : ℕ → List ℕ → ℕ → ℕ → ℕ × List ℕ
  | 0, t, pi, _ => (pi, t)
  | fuel + 1, t, pi, pj =>
    let pi' := scanUp v vp t (fuel + 2) (pi + 1)
    let pj' := scanDown v vp t (fuel + 2) (pj - 1)
    if pj' ≤ pi' then (pi', t)
    else partLoop v vp fuel (lswap t pi' pj') pi' pj'

/-- One median-of-3 Hoare partition round of `aquicksort` on the segment
`[pl, pr]`. -/
def partitionStep (v : List ℚ) (t : List ℕ) (pl pr : ℕ) : ℕ × List ℕ :=
  let pm := pl + (pr - pl) / 2
  let t := if keyAt v t pm < keyAt v t pl then lswap t pm pl else t
  let t := if keyAt v t pr < keyAt v t pm then lswap t pr pm else t
  let t := if keyAt v t pm < keyAt v t pl then lswap t pm pl else t
  let vp := keyAt v t pm
  let t := lswap t pm (pr - 1)
  let (pi, t) := partLoop v vp (pr + 2) t pl (pr - 1)
  let t := lswap t pi (pr - 1)
  (pi, t)

/-- Stable ascending insertion sort of the index segment `[pl, pr]` by
key (the small-segment phase of `aquicksort`). -/
def insertionSortSegment (v : List ℚ) (t : List ℕ) (pl pr : ℕ) : List ℕ :=
  t.take pl
    ++ ((t.drop pl).take (pr + 1 - pl)).insertionSort (fun i j => v.getD i 0 ≤ v.getD j 0)
    ++ t.drop (pr + 1)

/-- One heap sift of `aheapsort` (1-based positions into the segment
`a`; `tmp` is the index value being sifted). -/
def siftLoop (v : List ℚ) (tmp : ℕ) (n : ℕ) : ℕ → List ℕ → ℕ → ℕ → List ℕ
  | 0, a, i, _ => a.set (i - 1) tmp
  | fuel + 1, a, i, j =>
    if j ≤ n then
      let j := if j < n ∧ v.getD (a.getD (j - 1) 0) 0 < v.getD (a.getD j 0) 0 then j + 1 else j
      if v.getD tmp 0 < v.getD (a.getD (j - 1) 0) 0 then
        siftLoop v tmp n fuel (a.set (i - 1) (a.getD (j - 1) 0)) j (j + j)
      else a.set (i - 1) tmp
    else a.set (i - 1) tmp

/-- Heap construction phase of `aheapsort` (`l = n >> 1` down to 1). -/
def heapBuild (v : List ℚ) (n : ℕ) : ℕ → List ℕ → List ℕ
  | 0, a => a
  | l + 1, a =>
    heapBuild v n l (siftLoop v (a.getD l 0) n (n + 2) a (l + 1) (2 * (l + 1)))

/-- Extraction phase of `aheapsort`. -/
def heapExtract (v : List ℚ) : ℕ → ℕ → List ℕ → List ℕ
  | 0, _, a => a
  | fuel + 1, n, a =>
    if n ≤ 1 then a
    else
      let tmp := a.getD (n - 1) 0
      let a := a.set (n - 1) (a.getD 0 0)
      let n' := n - 1
      heapExtract v fuel n' (siftLoop v tmp n' (n' + 2) a 1 2)

/-- `aheapsort` run on the segment `[pl, pr]` of the index array (the
introsort depth-exhaustion fallback). -/
def npHeapsortSeg (v : List ℚ) (t : List ℕ) (pl pr : ℕ) : List ℕ :=
  let seg := (t.drop pl).take (pr + 1 - pl)
  let n := seg.length
  t.take pl ++ heapExtract v (n + 1) n (heapBuild v n (n / 2) seg) ++ t.drop (pr + 1)

/-- The main `aquicksort` loop with its explicit segment stack: partition
segments longer than `SMALL_QUICKSORT = 15`, pushing the larger half;
insertion sort the rest; heapsort on depth exhaustion (the budget is
post-decremented on every partition test, exactly as in the C source). -/
def quickLoop (v : List ℚ) : ℕ → List ℕ → ℕ → ℕ → List (ℕ × ℕ) → ℤ → List ℕ
  | 0, t, _, _, _, _ => t
  | fuel + 1, t, pl, pr, stack, depth =>
    if 15 < pr - pl then
      if depth < 0 then
        let t := npHeapsortSeg v t pl pr
        match stack with
        | [] => t
        | (pl', pr') :: rest => quickLoop v fuel t pl' pr' rest (depth - 1)
      else
        let (pi, t) := partitionStep v t pl pr
        if pi - pl < pr - pi then
          quickLoop v fuel t pl (pi - 1) ((pi + 1, pr) :: stack) (depth - 1)
        else
          quickLoop v fuel t (pi + 1) pr ((pl, pi - 1) :: stack) (depth - 1)
    else
      let t := insertionSortSegment v t pl pr
      match stack with
      | [] => t
      | (pl', pr') :: rest => quickLoop v fuel t pl' pr' rest depth

/-- numpy `argsort(kind='quicksort')` (introsort) of a value array:
start from the identity index array with depth budget `2 · msb n`. -/
def npArgsortQuick (v : List ℚ) : List ℕ :=
  let n := v.length
  quickLoop v (n * n + n + 2) (List.range n) 0 (n - 1) [] ((Nat.log2 n : ℤ) * 2)

end NpSort

/-- pandas `nargsort(values, kind='quicksort', ascending=False)` (no
NaNs): reverse the values and the identity index, `argsort` the reversed
values, index, and reverse the indexer. -/
def pandasArgsortDesc (v : List ℚ) : List ℕ :=
  ((NpSort.npArgsortQuick v.reverse).map (fun k => v.length - 1 - k)).reverse

/-- Row gather by an index list (`df.take(indexer)`). -/
def applyIndexer {α : Type} (idx : List ℕ) (rows : List α) (d : α) : List α :=
  idx.map (fun i => rows.getD i d)

/-- One row of the Population Ranker's `results` list
(`analyze_all_partners`, step 3); the nested `feature_details` map is
omitted (report-only). -/
structure SuspectEntry where
  partner_id : String
  partner_name : String
  total_transactions : ℕ
  aggregate_risk_score : ℚ
  overall_risk_level : RiskLevel
  high_risk_features : ℕ
  medium_risk_features : ℕ
  low_risk_features : ℕ
  deriving DecidableEq, Repr

def SuspectEntry.default : SuspectEntry := ⟨"", "", 0, 0, .LOW, 0, 0, 0⟩

/-- Step 4 of `analyze_all_partners`:
`results_df.sort_values('aggregate_risk_score', ascending=False)`. -/
def sortSuspectsDesc (results : List SuspectEntry) : List SuspectEntry :=
  applyIndexer (pandasArgsortDesc (results.map (·.aggregate_risk_score))) results
    SuspectEntry.default

/-- `top_suspects = results_df.head(top_n)`. -/
def topSuspects (results : List SuspectEntry) (top_n : ℕ) : List SuspectEntry :=
  (sortSuspectsDesc results).take top_n

/-- The concrete C7 scenario: partner `"P1"`, twelve debit transactions
inside clock hour 0, ten of amount 500 plus one of 9200 and one of 9400
(both inside the 80–99% band of the 10000 threshold and of no other
band). -/
def c7Table : List TxRow :=
  ((List.range 10).map (fun k => { TxRow.default with
    debit_credit := "debit"
    partner_id_outgoing := some "P1"
    date := some (60 * (k : ℤ))
    amount := 500 }))
  ++ [{ TxRow.default with
      debit_credit := "debit"
      partner_id_outgoing := some "P1"
      date := some 700
      amount := 9200 },
    { TxRow.default with
      debit_credit := "debit"
      partner_id_outgoing := some "P1"
      date := some 800
      amount := 9400 }]

/-- The concrete C10 scenario: partner `"P1"` with two Swiss rows
(domestic counterparties) and one row whose country fields read the
string `"Unknown"`. -/
def c10Table : List TxRow :=
  [{ TxRow.default with
    debit_credit := "debit"
    partner_id_outgoing := some "P1"
    country_name_outgoing := some "Switzerland"
    country_name_incoming := some "Switzerland"
    date := some 0
    amount := 100 },
   { TxRow.default with
    debit_credit := "debit"
    partner_id_outgoing := some "P1"
    country_name_outgoing := some "Switzerland"
    country_name_incoming := some "Switzerland"
    date := some 86400
    amount := 200 },
   { TxRow.default with
    debit_credit := "debit"
    partner_id_outgoing := some "P1"
    country_name_outgoing := some "Unknown"
    country_name_incoming := some "Unknown"
    date := some 172800
    amount := 300 }]

def c8Df : List CountryTxRow :=
  [ { tx_date := 1700000000, amount_value := 5, is_debit := true,
      account_id_value := "A1", country_clean := "France" },
    { tx_date := 1700003600, amount_value := 7, is_debit := true,
      account_id_value := "A1", country_clean := "Italy" },
    { tx_date := 1700007200, amount_value := 3, is_debit := false,
      account_id_value := "A1", country_clean := "France" } ]

def c5Table : List SuspectEntry :=
  (List.range 17).map (fun i =>
    { partner_id := ""
      partner_name := ""
      total_transactions := i
      aggregate_risk_score := 50
      overall_risk_level := RiskLevel.LOW
      high_risk_features := 0
      medium_risk_features := 0
      low_risk_features := 0 })

def c5Small : List SuspectEntry :=
  [ { partner_id := "P1"
      partner_name := "A"
      total_transactions := 1
      aggregate_risk_score := 50
      overall_risk_level := RiskLevel.MEDIUM
      high_risk_features := 0
      medium_risk_features := 1
      low_risk_features := 0 },
    { partner_id := "P2"
      partner_name := "B"
      total_transactions := 2
      aggregate_risk_score := 80
      overall_risk_level := RiskLevel.HIGH
      high_risk_features := 2
      medium_risk_features := 0
      low_risk_features := 0 },
    { partner_id := "P3"
      partner_name := "C"
      total_transactions := 3
      aggregate_risk_score := 50
      overall_risk_level := RiskLevel.MEDIUM
      high_risk_features := 0
      medium_risk_features := 1
      low_risk_features := 0 } ]

/-! ## General list lemmas used by several claim proofs -/

theorem max?_eq_some_iff_all {α : Type} [LinearOrder α] (l : List α) (a : α) :
    l.max? = some a ↔ a ∈ l ∧ ∀ b ∈ l, b ≤ a := by
  haveI : Std.Antisymm (fun (x1 x2 : α) => x1 ≤ x2) := ⟨@fun _ _ h h' => le_antisymm h h'⟩
  exact List.max?_eq_some_iff (fun a => le_refl a) (fun a b => max_choice a b)
    (fun a b c => max_le_iff)

theorem min?_eq_some_iff_all {α : Type} [LinearOrder α] (l : List α) (a : α) :
    l.min? = some a ↔ a ∈ l ∧ ∀ b ∈ l, a ≤ b := by
  haveI : Std.Antisymm (fun (x1 x2 : α) => x1 ≤ x2) := ⟨@fun _ _ h h' => le_antisymm h h'⟩
  exact List.min?_eq_some_iff (fun a => le_refl a) (fun a b => min_choice a b)
    (fun a b c => le_min_iff)

/-- A `filterMap` over a list on which the function is everywhere `some`
keeps the length. -/
theorem length_filterMap_of_isSome {α β : Type} (f : α → Option β) :
    ∀ (l : List α), (∀ a ∈ l, (f a).isSome) → (l.filterMap f).length = l.length := by
  intro l
  induction l with
  | nil => intro _; rfl
  | cons a t ih =>
    intro h
    have ha := h a (List.mem_cons_self a t)
    obtain ⟨b, hb⟩ := Option.isSome_iff_exists.mp ha
    rw [List.filterMap_cons, hb]
    simp only [List.length_cons]
    rw [ih (fun x hx => h x (List.mem_cons_of_mem a hx))]

/-- `dedup` of a non-empty constant list is the singleton. -/
theorem dedup_eq_singleton_of_all_eq {α : Type} [DecidableEq α] (c : α) :
    ∀ (l : List α), l ≠ [] → (∀ x ∈ l, x = c) → l.dedup = [c] := by
  intro l
  induction l with
  | nil => intro h; exact absurd rfl h
  | cons a t ih =>
    intro _ hall
    have ha : a = c := hall a (List.mem_cons_self a t)
    subst ha
    rcases eq_or_ne t [] with rfl | hne
    · simp
    · have ht := ih hne (fun x hx => hall x (List.mem_cons_of_mem a hx))
      have hmem : a ∈ t := by
        rcases t with _ | ⟨b, t⟩
        · exact absurd rfl hne
        · have : b = a := hall b (by simp)
          simp [this]
      rw [List.dedup_cons_of_mem hmem, ht]

/-- `countKey` of a constant list at its constant. -/
theorem countKey_of_all_eq {α : Type} [DecidableEq α] (c : α) (l : List α)
    (hall : ∀ x ∈ l, x = c) : countKey l c = l.length := by
  unfold countKey
  rw [List.filter_eq_self.mpr]
  intro a ha
  simpa using hall a ha

/-- A disjoint pair of predicates both implying `q` bounds `countP q`. -/
theorem countP_pair_le {α : Type} (p₁ p₂ q : α → Bool)
    (h₁ : ∀ a, p₁ a → q a) (h₂ : ∀ a, p₂ a → q a)
    (hdisj : ∀ a, ¬(p₁ a ∧ p₂ a)) :
    ∀ (l : List α), l.countP p₁ + l.countP p₂ ≤ l.countP q := by
  intro l
  induction l with
  | nil => simp
  | cons a t ih =>
    rw [List.countP_cons, List.countP_cons, List.countP_cons]
    by_cases hb1 : p₁ a = true
    · have hbq : q a = true := h₁ a hb1
      have hb2 : p₂ a = false := by
        rcases hb2 : p₂ a
        · rfl
        · exact absurd ⟨hb1, hb2⟩ (hdisj a)
      rw [hb1, hbq, hb2]
      norm_num
      omega
    · have hb1x : p₁ a = false := by rwa [Bool.not_eq_true] at hb1
      by_cases hb2 : p₂ a = true
      · have hbq : q a = true := h₂ a hb2
        rw [hb1x, hb2, hbq]
        norm_num
        omega
      · have hb2x : p₂ a = false := by rwa [Bool.not_eq_true] at hb2
        rw [hb1x, hb2x]
        norm_num
        rcases hbq : q a
        · simp [hbq]
          omega
        · simp [hbq]
          omega

/-- Multiplicity of a value in a `filterMap` through an `Option`-valued
projection, as a `countP` on the original list. -/
theorem countKey_filterMap {α β : Type} [DecidableEq β] (f : α → Option β) (c : β) :
    ∀ (l : List α), countKey (l.filterMap f) c = l.countP (fun a => f a = some c) := by
  intro l
  induction l with
  | nil => rfl
  | cons a t ih =>
    rw [List.countP_cons, List.filterMap_cons]
    rcases hfa : f a with _ | b
    · rw [ih]
      simp [hfa]
    · unfold countKey at ih ⊢
      rw [List.filter_cons]
      by_cases hbc : b = c
    
      · subst hbc
        simp [hfa, ih]
      · simp [hfa, hbc, ih]

/-- Gathering a list by `getD` over `range` of its length is the
identity. -/
theorem map_range_getD {α : Type} (l : List α) (d : α) :
    (List.range l.length).map (fun i => l.getD i d) = l := by
  apply List.ext_getElem
  · simp
  · intro i h1 h2
    simp only [List.getElem_map, List.getElem_range]
    rw [List.getD_eq_getElem?_getD, List.getElem?_eq_getElem h2]
    rfl

/-- `getD` on a reversed list. -/
theorem getD_reverse_of_lt {α : Type} (l : List α) (i : ℕ) (h : i < l.length) (d : α) :
    l.reverse.getD i d = l.getD (l.length - 1 - i) d := by
  rw [List.getD_eq_getElem?_getD, List.getD_eq_getElem?_getD, List.getElem?_reverse h]

/-- On a `Nodup` list whose predicate holds at `x` and nowhere else, the
filter is exactly `[x]`. -/
theorem filter_eq_singleton_of_unique {α : Type} (p : α → Bool) (x : α) :
    ∀ (l : List α), l.Nodup → x ∈ l → p x → (∀ y ∈ l, y ≠ x → ¬ p y) →
      l.filter p = [x] := by
  intro l
  induction l with
  | nil => intro _ hx; exact absurd hx (List.not_mem_nil x)
  | cons a t ih =>
    intro hnd hx hpx hothers
    rcases List.mem_cons.mp hx with rfl | hxt
    · rw [List.filter_cons_of_pos hpx]
      have : t.filter p = [] := by
        rw [List.filter_eq_nil_iff]
        intro y hy
        have hya : y ≠ x := by
          intro h
          subst h
          exact (List.nodup_cons.mp hnd).1 hy
        exact hothers y (List.mem_cons_of_mem _ hy) hya
      rw [this]
    · have hax : a ≠ x := by
        intro h
        subst h
        exact (List.nodup_cons.mp hnd).1 hxt
      rw [List.filter_cons_of_neg (hothers a (List.mem_cons_self a t) hax)]
      exact ih (List.nodup_cons.mp hnd).2 hxt hpx
        (fun y hy => hothers y (List.mem_cons_of_mem _ hy))

/-- pandas `mode()[0]` of a series with a strict plurality value is that
value. -/
theorem pandasModeFirst_of_strict_max (l : List String) (x : String)
    (hx : x ∈ l) (hmax : ∀ y ∈ l.dedup, y ≠ x → countKey l y < countKey l x) :
    pandasModeFirst l = some x := by
  have hdef : pandasModeFirst l
      = (l.dedup.filter (fun k =>
          countKey l k = ((l.dedup.map (fun k => countKey l k)).max?.getD 0))).min? := rfl
  rw [hdef]
  have hxk : x ∈ l.dedup := List.mem_dedup.mpr hx
  have hbest : ((l.dedup.map (fun k => countKey l k)).max?) = some (countKey l x) := by
    rw [max?_eq_some_iff_all]
    constructor
    · exact List.mem_map.mpr ⟨x, hxk, rfl⟩
    · intro b hb
      obtain ⟨y, hy, rfl⟩ := List.mem_map.mp hb
      by_cases hyx : y = x
      · subst hyx; exact le_refl _
      · exact le_of_lt (hmax y hy hyx)
  rw [hbest]
  simp only [Option.getD_some]
  rw [filter_eq_singleton_of_unique _ x _ (List.nodup_dedup l) hxk (by simp)
    (fun y hy hyx => by
      simp only [decide_eq_true_eq]
      exact Nat.ne_of_lt (hmax y hy hyx))]
  rfl

/-- Calling `feature_ephemeral_account` with a *proper* `Optional[str]`
partner id filters exactly like every other computer's
`_prepare_transactions`. -/
theorem prepareEphemeral_ofOptStr (tx : List TxRow) (pid : Option String) :
    prepareEphemeral tx (PyVal.ofOptStr pid) = Except.ok (prepareFilter tx pid) := by
  rcases pid with _ | s
  · rfl
  · unfold prepareEphemeral PyVal.ofOptStr pyTruthy prepareFilter pyTruthyStr
    by_cases hs : s = ""
    · subst hs; rfl
    · have h1 : (decide (s ≠ "")) = true := by simp [hs]
      simp only [h1]
      rfl

/-- The ephemeral-account computer's empty-input result under a proper
call (`return_data=True`, string-or-`None` partner id). -/
theorem featureEphemeralAccount_empty (tx : List TxRow) (pid : Option String) (today : ℤ)
    (hempty : prepareFilter tx pid = []) :
    featureEphemeralAccount tx (PyVal.ofOptStr pid) (PyVal.bool true) today
      = Except.ok (some
        { feature_name := "ephemeral_account", partner_id := pidLabel pid,
          partner_name := none, metrics := ⟨0, 0, 0, 0, 0, 0⟩,
          risk_level := .LOW, risk_score := 0,
          risk_reasons := ["No transactions found"] }) := by
  unfold featureEphemeralAccount
  rw [prepareEphemeral_ofOptStr, hempty]
  rcases pid with _ | s
  · rfl
  · by_cases hs : s = ""
    · subst hs; rfl
    · have h1 : pyTruthy (PyVal.ofOptStr (some s)) = Except.ok true := by
        simp [PyVal.ofOptStr, pyTruthy, hs]
      have h2 : pidLabel (some s) = s := by simp [pidLabel, pyTruthyStr, hs]
      rw [h1, h2]
      simp only [PyVal.ofOptStr, ne_eq, hs, not_false_eq_true, if_true]
      rfl

/-! ### Claim C2 — the empty-input law -/

/-- C2, counterexample.  The claim states that *every* feature computer
returns a `risk_level = LOW, risk_score = 0` result with a non-empty
`risk_reasons` on an empty filtered input and "never returns nothing";
but `feature_account_age` (one of the two files the claim itself cites)
only prints and has no `return <value>` statement: on an empty accounts
table (and indeed on every input) it returns Python `None` — no feature
result at all. -/
theorem c2_counterexample : featureAccountAge [] 0 = none := rfl

/-- C2, as amended: the empty-input law holds for the eight feature
computers that return result dictionaries (frequency, burst/structuring,
atypical amounts, cross-border, counterparties, irregularity, night
activity, ephemeral accounts): an empty filtered transaction set yields
`risk_level = LOW`, `risk_score = 0` and a non-empty `risk_reasons`
naming the absence of data, and no exception.  It fails for the two
print-only computers: `feature_abnormal_activity` and
`feature_account_age` return `None` (no result) on empty input — in
fact on every input, since neither ever returns a value. -/
theorem c2_empty_input_law (tx : List TxRow) (accounts : List AccountRow)
    (pid : Option String) (today : ℤ)
    (hempty : prepareFilter tx pid = []) :
    ((featureFrequency tx pid).risk_level = RiskLevel.LOW
      ∧ (featureFrequency tx pid).risk_score = 0
      ∧ (featureFrequency tx pid).risk_reasons = ["No transactions found"])
    ∧ ((featureBurstStructuring tx pid).risk_level = RiskLevel.LOW
      ∧ (featureBurstStructuring tx pid).risk_score = 0
      ∧ (featureBurstStructuring tx pid).risk_reasons = ["No transactions found"])
    ∧ ((featureAtypicalAmounts tx pid).risk_level = RiskLevel.LOW
      ∧ (featureAtypicalAmounts tx pid).risk_score = 0
      ∧ (featureAtypicalAmounts tx pid).risk_reasons = ["No transactions found"])
    ∧ ((featureCrossBorder tx pid).risk_level = RiskLevel.LOW
      ∧ (featureCrossBorder tx pid).risk_score = 0
      ∧ (featureCrossBorder tx pid).risk_reasons = ["No transactions found"])
    ∧ ((featureCounterparties tx pid).risk_level = RiskLevel.LOW
      ∧ (featureCounterparties tx pid).risk_score = 0
      ∧ (featureCounterparties tx pid).risk_reasons = ["No transactions found"])
    ∧ ((featureIrregularity tx pid).risk_level = RiskLevel.LOW
      ∧ (featureIrregularity tx pid).risk_score = 0
      ∧ (featureIrregularity tx pid).risk_reasons = ["No transactions found"])
    ∧ ((featureNightActivity tx pid).risk_level = RiskLevel.LOW
      ∧ (featureNightActivity tx pid).risk_score = 0
      ∧ (featureNightActivity tx pid).risk_reasons = ["No transactions found"])
    ∧ (∃ r, featureEphemeralAccount tx (PyVal.ofOptStr pid) (PyVal.bool true) today
          = Except.ok (some r)
        ∧ r.risk_level = RiskLevel.LOW ∧ r.risk_score = 0
        ∧ r.risk_reasons = ["No transactions found"])
    ∧ featureAbnormalActivity tx accounts pid = none
    ∧ featureAccountAge accounts today = none := by
  refine ⟨?_, ?_, ?_, ?_, ?_, ?_, ?_, ?_, ?_, rfl⟩
  · rw [featureFrequency, hempty]; exact ⟨rfl, rfl, rfl⟩
  · rw [featureBurstStructuring, hempty]; exact ⟨rfl, rfl, rfl⟩
  · rw [featureAtypicalAmounts, hempty]; exact ⟨rfl, rfl, rfl⟩
  · rw [featureCrossBorder, hempty]; exact ⟨rfl, rfl, rfl⟩
  · rw [featureCounterparties, hempty]; exact ⟨rfl, rfl, rfl⟩
  · rw [featureIrregularity, hempty]; exact ⟨rfl, rfl, rfl⟩
  · rw [featureNightActivity, hempty]; exact ⟨rfl, rfl, rfl⟩
  · exact ⟨_, featureEphemeralAccount_empty tx pid today hempty, rfl, rfl, rfl⟩
  · unfold featureAbnormalActivity
    by_cases hp : pyTruthyStr pid
    · simp only [hp, if_true]
      rcases htx : (tx.filter (fun r => r.partner_id_col = pid)).length with _ | n
      · simp [htx]
      · simp [htx]
    · simp only [hp]
      rcases htx : tx.length with _ | n
      · simp [htx]
      · simp [htx]

/-- C2 witness: the law instantiated at an empty transaction table and
partner `"P1"`. -/
theorem c2_empty_input_law_witness :
    prepareFilter [] (some "P1") = []
    ∧ ((featureFrequency [] (some "P1")).risk_level = RiskLevel.LOW
      ∧ (featureFrequency [] (some "P1")).risk_score = 0
      ∧ (featureFrequency [] (some "P1")).risk_reasons = ["No transactions found"]) :=
  ⟨rfl, (c2_empty_input_law [] [] (some "P1") 0 rfl).1⟩

/-! ### Claim C3 — case sensitivity of the direction column -/

/-- C3, counterexample.  The claim asserts that the partner/counterparty
derivation "is invariant under the letter case of the direction values"
because "direction is lower-cased before comparison in every feature
computer".  In the feature computers (`_prepare_transactions`, e.g.
`feature_frequency.py` lines 50–54) the comparison is the exact
`df['Debit/Credit'] == 'debit'` with no lower-casing: a `"Debit"` row is
classified as a credit, so the *incoming* side becomes the partner, the
opposite of the same row spelled `"debit"`; the row even disappears from
partner `OUT`'s filtered view.  Only `sent_amounts_by_country.py`
normalises case (`isDebitDirection "Debit" = true`). -/
theorem c3_counterexample :
    logicalPartnerId { TxRow.default with
      debit_credit := "Debit"
      partner_id_incoming := some "IN"
      partner_id_outgoing := some "OUT" } = some "IN"
    ∧ logicalPartnerId { TxRow.default with
      debit_credit := "debit"
      partner_id_incoming := some "IN"
      partner_id_outgoing := some "OUT" } = some "OUT"
    ∧ prepareFilter [{ TxRow.default with
      debit_credit := "Debit"
      partner_id_incoming := some "IN"
      partner_id_outgoing := some "OUT" }] (some "OUT") = []
    ∧ isDebitDirection "Debit" = true := by
  refine ⟨rfl, rfl, by decide, by decide⟩

/-- C3, as amended: the case-insensitive normalisation exists only in the
country aggregator's `load_transactions`, whose debit test depends only
on the lower-cased direction string; the feature computers compare the
direction against the exact lowercase `"debit"`, so every other spelling
takes the credit branch and attributes the row to the incoming side. -/
theorem c3_amended :
    (∀ s t : String, pyLower s = pyLower t → isDebitDirection s = isDebitDirection t)
    ∧ (∀ r : TxRow, r.debit_credit ≠ "debit" →
        logicalPartnerId r = r.partner_id_incoming
        ∧ counterpartyId r = r.partner_id_outgoing
        ∧ logicalPartnerCountry r = r.country_name_incoming) := by
  constructor
  · intro s t h
    unfold isDebitDirection
    rw [h]
  · intro r h
    unfold logicalPartnerId counterpartyId logicalPartnerCountry
    rw [if_neg h, if_neg h, if_neg h]
    exact ⟨rfl, rfl, rfl⟩

theorem c3_amended_witness :
    pyLower "DEBIT" = pyLower "debit"
    ∧ isDebitDirection "DEBIT" = isDebitDirection "debit"
    ∧ logicalPartnerId { TxRow.default with
      debit_credit := "Debit"
      partner_id_incoming := some "IN"
      partner_id_outgoing := some "OUT" } = some "IN" :=
  ⟨by decide, c3_amended.1 "DEBIT" "debit" (by decide),
   (c3_amended.2 { TxRow.default with
      debit_credit := "Debit"
      partner_id_incoming := some "IN"
      partner_id_outgoing := some "OUT" } (by decide)).1⟩

/-! ### Claim C4 — the aggregator's ephemeral-account call crashes -/

/-- C4: `run_all_features` passes the accounts DataFrame positionally
into `feature_ephemeral_account`'s `partner_id` parameter; the first
`if partner_id:` truth test inside `_prepare_transactions` raises
`ValueError` (a DataFrame has no truth value), nothing on this path
catches it, and the call produces no aggregate report. -/
theorem c4_run_all_features_crashes (tx : List TxRow) (accounts : List AccountRow)
    (pid pname : Option String) (today : ℤ) (hacc : accounts ≠ []) :
    runAllFeatures tx accounts pid pname today
      = Except.error PyErr.valueErrorDataFrameTruth := by
  unfold runAllFeatures featureEphemeralAccount prepareEphemeral pyTruthy
  rfl

theorem c4_run_all_features_crashes_witness :
    ([(AccountRow.mk (some "A1") none none none)] ≠ [])
    ∧ runAllFeatures [] [AccountRow.mk (some "A1") none none none] none none 0
      = Except.error PyErr.valueErrorDataFrameTruth :=
  ⟨by simp, c4_run_all_features_crashes [] _ none none 0 (by simp)⟩

/-! ### Claim C1 — the Population Ranker's aggregate score -/

/-- C1: for every non-empty collection of feature results (each carrying
its numeric score, as every feature dictionary does), the aggregate
score is `min(100, mean(scores) + 5 · #HIGH)` and the overall level
follows the documented HIGH/MEDIUM/LOW rule. -/
theorem c1_aggregate_score (results : List (String × ScoredFeature))
    (hne : results ≠ [])
    (hs : ∀ e ∈ results, e.2.risk_score.isSome) :
    (calculateAggregateScore results).aggregate_score
      = min 100 ((results.filterMap (fun e => e.2.risk_score)).sum / (results.length : ℚ)
          + 5 * (((results.filter (fun e => e.2.risk_level = RiskLevel.HIGH)).length : ℚ)))
    ∧ ((calculateAggregateScore results).overall_risk = RiskLevel.HIGH
        ↔ 70 ≤ (calculateAggregateScore results).aggregate_score
          ∨ 3 ≤ (results.filter (fun e => e.2.risk_level = RiskLevel.HIGH)).length)
    ∧ ((calculateAggregateScore results).overall_risk = RiskLevel.MEDIUM
        ↔ ¬(70 ≤ (calculateAggregateScore results).aggregate_score
            ∨ 3 ≤ (results.filter (fun e => e.2.risk_level = RiskLevel.HIGH)).length)
          ∧ (40 ≤ (calculateAggregateScore results).aggregate_score
            ∨ 1 ≤ (results.filter (fun e => e.2.risk_level = RiskLevel.HIGH)).length))
    ∧ ((calculateAggregateScore results).overall_risk = RiskLevel.LOW
        ↔ ¬(70 ≤ (calculateAggregateScore results).aggregate_score
            ∨ 3 ≤ (results.filter (fun e => e.2.risk_level = RiskLevel.HIGH)).length)
          ∧ ¬(40 ≤ (calculateAggregateScore results).aggregate_score
            ∨ 1 ≤ (results.filter (fun e => e.2.risk_level = RiskLevel.HIGH)).length)) := by
  have hlen : (results.filterMap (fun e => e.2.risk_score)).length = results.length :=
    length_filterMap_of_isSome _ results hs
  have hne' : results.length ≠ 0 := fun h => hne (List.length_eq_zero.mp h)
  have hlen0 : (results.filterMap (fun e => e.2.risk_score)).length ≠ 0 := by
    rw [hlen]; exact hne'
  have hagg : (calculateAggregateScore results).aggregate_score
      = (if (results.filterMap (fun e => e.2.risk_score)).length ≠ 0 then
          min 100 ((results.filterMap (fun e => e.2.risk_score)).sum
            / ((results.filterMap (fun e => e.2.risk_score)).length : ℚ)
            + ((results.filter (fun e => e.2.risk_level = RiskLevel.HIGH)).length : ℚ) * 5)
         else 0) := rfl
  have hov : (calculateAggregateScore results).overall_risk
      = (if 70 ≤ (calculateAggregateScore results).aggregate_score
            ∨ 3 ≤ (results.filter (fun e => e.2.risk_level = RiskLevel.HIGH)).length
         then RiskLevel.HIGH
         else if 40 ≤ (calculateAggregateScore results).aggregate_score
            ∨ 1 ≤ (results.filter (fun e => e.2.risk_level = RiskLevel.HIGH)).length
         then RiskLevel.MEDIUM
         else RiskLevel.LOW) := rfl
  have haggval : (calculateAggregateScore results).aggregate_score
      = min 100 ((results.filterMap (fun e => e.2.risk_score)).sum / (results.length : ℚ)
          + 5 * (((results.filter (fun e => e.2.risk_level = RiskLevel.HIGH)).length : ℚ))) := by
    rw [hagg, if_pos hlen0, hlen]
    congr 1
    ring
  refine ⟨haggval, ?_, ?_, ?_⟩
  · by_cases h1 : 70 ≤ (calculateAggregateScore results).aggregate_score
        ∨ 3 ≤ (results.filter (fun e => e.2.risk_level = RiskLevel.HIGH)).length
    · rw [hov, if_pos h1]
      simp [h1]
    · rw [hov, if_neg h1]
      by_cases h2 : 40 ≤ (calculateAggregateScore results).aggregate_score
          ∨ 1 ≤ (results.filter (fun e => e.2.risk_level = RiskLevel.HIGH)).length
      · rw [if_pos h2]; simp [h1]
      · rw [if_neg h2]; simp [h1]
  · by_cases h1 : 70 ≤ (calculateAggregateScore results).aggregate_score
        ∨ 3 ≤ (results.filter (fun e => e.2.risk_level = RiskLevel.HIGH)).length
    · rw [hov, if_pos h1]
      simp [h1]
    · rw [hov, if_neg h1]
      by_cases h2 : 40 ≤ (calculateAggregateScore results).aggregate_score
          ∨ 1 ≤ (results.filter (fun e => e.2.risk_level = RiskLevel.HIGH)).length
      · rw [if_pos h2]; simp [h1, h2]
      · rw [if_neg h2]; simp [h1, h2]
  · by_cases h1 : 70 ≤ (calculateAggregateScore results).aggregate_score
        ∨ 3 ≤ (results.filter (fun e => e.2.risk_level = RiskLevel.HIGH)).length
    · rw [hov, if_pos h1]
      simp [h1]
    · rw [hov, if_neg h1]
      by_cases h2 : 40 ≤ (calculateAggregateScore results).aggregate_score
          ∨ 1 ≤ (results.filter (fun e => e.2.risk_level = RiskLevel.HIGH)).length
      · rw [if_pos h2]; simp [h1, h2]
      · rw [if_neg h2]; simp [h1, h2]

/-- C1 witness: two features, a HIGH 85 and a LOW 20; the aggregate is
`min(100, 52.5 + 5) = 57.5` and the overall level is MEDIUM. -/
theorem c1_aggregate_score_witness :
    ([("frequency", ScoredFeature.mk (some 85) RiskLevel.HIGH []),
      ("cross_border", ScoredFeature.mk (some 20) RiskLevel.LOW [])] ≠
        ([] : List (String × ScoredFeature)))
    ∧ (calculateAggregateScore
        [("frequency", ScoredFeature.mk (some 85) RiskLevel.HIGH []),
         ("cross_border", ScoredFeature.mk (some 20) RiskLevel.LOW [])]).aggregate_score
      = min 100
          (([("frequency", ScoredFeature.mk (some 85) RiskLevel.HIGH []),
             ("cross_border", ScoredFeature.mk (some 20) RiskLevel.LOW [])].filterMap
               (fun e => e.2.risk_score)).sum
            / (([("frequency", ScoredFeature.mk (some 85) RiskLevel.HIGH []),
                 ("cross_border", ScoredFeature.mk (some 20) RiskLevel.LOW [])].length : ℚ))
          + 5 * ((([("frequency", ScoredFeature.mk (some 85) RiskLevel.HIGH []),
                    ("cross_border", ScoredFeature.mk (some 20) RiskLevel.LOW [])].filter
                    (fun e => e.2.risk_level = RiskLevel.HIGH)).length : ℚ))) := by
  constructor
  · simp
  · exact (c1_aggregate_score
      [("frequency", ScoredFeature.mk (some 85) RiskLevel.HIGH []),
       ("cross_border", ScoredFeature.mk (some 20) RiskLevel.LOW [])]
      (by simp) (by intro e he; fin_cases he <;> rfl)).1

/-! ### Claim C6 — the aggregator's summary invariant -/

/-- Exactly-one-of-three partition of the collected results by risk
level. -/
theorem level_counts_partition (results : List AnyFeatureResult) :
    (results.filter (fun r => r.risk_level = RiskLevel.HIGH)).length
      + (results.filter (fun r => r.risk_level = RiskLevel.MEDIUM)).length
      + (results.filter (fun r => r.risk_level = RiskLevel.LOW)).length
      = results.length := by
  induction results with
  | nil => rfl
  | cons a t ih =>
    rw [List.filter_cons, List.filter_cons, List.filter_cons]
    rcases h : a.risk_level <;> simp [h] <;> omega

/-- C6: in every report the aggregator constructs, the three level
counts partition the collected feature results, and `average_risk_score`
is the (2-decimal rounded) arithmetic mean of their scores — 0 when no
feature produced a result. -/
theorem c6_summary_invariant (pid pname : Option String)
    (results : List AnyFeatureResult) :
    ((buildAnalysisReport pid pname results).summary.high_risk_features
      + (buildAnalysisReport pid pname results).summary.medium_risk_features
      + (buildAnalysisReport pid pname results).summary.low_risk_features
      = results.length)
    ∧ (results = [] → (buildAnalysisReport pid pname results).summary.average_risk_score = 0)
    ∧ (results ≠ [] →
        (buildAnalysisReport pid pname results).summary.average_risk_score
          = roundTo2 ((results.map AnyFeatureResult.risk_score).sum / (results.length : ℚ))
        ∧ |(buildAnalysisReport pid pname results).summary.average_risk_score
            - (results.map AnyFeatureResult.risk_score).sum / (results.length : ℚ)|
          ≤ 1 / 200) := by
  refine ⟨level_counts_partition results, ?_, ?_⟩
  · intro h
    subst h
    rfl
  · intro h
    have hlen : results.length ≠ 0 := fun hh => h (List.length_eq_zero.mp hh)
    have havg : (buildAnalysisReport pid pname results).summary.average_risk_score
        = roundTo2 ((results.map AnyFeatureResult.risk_score).sum / (results.length : ℚ)) := by
      unfold buildAnalysisReport
      simp only [ne_eq, hlen, not_false_eq_true, if_pos]
    refine ⟨havg, ?_⟩
    rw [havg]
    exact abs_roundTo2_sub_le _

/-- C6 witness: a single collected frequency result (score 20); the
counts are 0 + 0 + 1 and the average is 20. -/
theorem c6_summary_invariant_witness :
    ([AnyFeatureResult.frequency (featureFrequency [] none)] ≠ ([] : List AnyFeatureResult))
    ∧ ((buildAnalysisReport none none
          [AnyFeatureResult.frequency (featureFrequency [] none)]).summary.high_risk_features
        + (buildAnalysisReport none none
          [AnyFeatureResult.frequency (featureFrequency [] none)]).summary.medium_risk_features
        + (buildAnalysisReport none none
          [AnyFeatureResult.frequency (featureFrequency [] none)]).summary.low_risk_features
        = 1) := by
  refine ⟨by simp, ?_⟩
  exact (c6_summary_invariant none none
    [AnyFeatureResult.frequency (featureFrequency [] none)]).1

/-! ### Claim C9 — the Frequency computer's rate and thresholds -/

/-- C9: for every non-empty filtered transaction set (with parsed
dates), the reported `tx_per_day_avg` is `total_transactions /
max(date_range_days, 1)` up to the 2-decimal reporting rounding, and the
risk level is HIGH exactly when the rate exceeds 10/day, MEDIUM exactly
when it is in (3, 10], and LOW otherwise. -/
theorem c9_frequency (tx : List TxRow) (pid : Option String)
    (hne : prepareFilter tx pid ≠ [])
    (hd : ∀ r ∈ prepareFilter tx pid, (r.date).isSome) :
    (featureFrequency tx pid).metrics.total_transactions = (prepareFilter tx pid).length
    ∧ 1 ≤ (featureFrequency tx pid).metrics.date_range_days
    ∧ (featureFrequency tx pid).metrics.tx_per_day_avg
        = roundTo2 (((featureFrequency tx pid).metrics.total_transactions : ℚ)
            / ((max (featureFrequency tx pid).metrics.date_range_days 1 : ℤ) : ℚ))
    ∧ |(featureFrequency tx pid).metrics.tx_per_day_avg
        - ((featureFrequency tx pid).metrics.total_transactions : ℚ)
            / ((max (featureFrequency tx pid).metrics.date_range_days 1 : ℤ) : ℚ)|
      ≤ 1 / 200
    ∧ ((featureFrequency tx pid).risk_level = RiskLevel.HIGH
        ↔ 10 < ((featureFrequency tx pid).metrics.total_transactions : ℚ)
            / ((max (featureFrequency tx pid).metrics.date_range_days 1 : ℤ) : ℚ))
    ∧ ((featureFrequency tx pid).risk_level = RiskLevel.MEDIUM
        ↔ 3 < ((featureFrequency tx pid).metrics.total_transactions : ℚ)
            / ((max (featureFrequency tx pid).metrics.date_range_days 1 : ℤ) : ℚ)
          ∧ ((featureFrequency tx pid).metrics.total_transactions : ℚ)
            / ((max (featureFrequency tx pid).metrics.date_range_days 1 : ℤ) : ℚ) ≤ 10)
    ∧ ((featureFrequency tx pid).risk_level = RiskLevel.LOW
        ↔ ((featureFrequency tx pid).metrics.total_transactions : ℚ)
            / ((max (featureFrequency tx pid).metrics.date_range_days 1 : ℤ) : ℚ) ≤ 3) := by
  have hlen0 : ¬ (prepareFilter tx pid).length = 0 :=
    fun h => hne (List.length_eq_zero.mp h)
  -- the valid dates are all dates, and there is at least one
  have hdates : ((prepareFilter tx pid).filterMap (·.date)).length
      = (prepareFilter tx pid).length :=
    length_filterMap_of_isSome _ _ hd
  -- the computed date range is non-negative
  have hrange0 : 0 ≤ ((((prepareFilter tx pid).filterMap (·.date)).max?.getD 0)
      - (((prepareFilter tx pid).filterMap (·.date)).min?.getD 0)).fdiv 86400 := by
    rcases hM : ((prepareFilter tx pid).filterMap (·.date)).max? with _ | M
    · exact absurd (hdates ▸ List.max?_eq_none_iff.mp hM ▸ rfl) hlen0
    · rcases hm : ((prepareFilter tx pid).filterMap (·.date)).min? with _ | m
      · exact absurd (hdates ▸ List.min?_eq_none_iff.mp hm ▸ rfl) hlen0
      · have h1 := (max?_eq_some_iff_all _ M).mp hM
        have h2 := (min?_eq_some_iff_all _ m).mp hm
        have hmM : m ≤ M := h2.2 M h1.1
        simp only [hM, hm, Option.getD_some]
        exact Int.fdiv_nonneg (by omega) (by omega)
  set D : ℤ := ((((prepareFilter tx pid).filterMap (·.date)).max?.getD 0)
      - (((prepareFilter tx pid).filterMap (·.date)).min?.getD 0)).fdiv 86400 with hD
  set R : ℤ := if D = 0 then 1 else D with hR
  have hR1 : 1 ≤ R := by
    rw [hR]
    split_ifs with h
    · omega
    · omega
  have hmaxR : max R 1 = R := max_eq_left hR1
  -- the result record, definitionally
  have hres : featureFrequency tx pid
      = (if (prepareFilter tx pid).length = 0 then
          { feature_name := "frequency", partner_id := pidLabel pid, partner_name := none,
            metrics := ⟨0, 0, 0, 0⟩, risk_level := .LOW, risk_score := 0,
            risk_reasons := ["No transactions found"] }
         else
          { feature_name := "frequency", partner_id := pidLabel pid, partner_name := none,
            metrics := ⟨(prepareFilter tx pid).length, R,
              roundTo2 (((prepareFilter tx pid).length : ℚ) / (R : ℚ)),
              (dailyCounts (prepareFilter tx pid)).max?.getD 0⟩
            risk_level :=
              if ((prepareFilter tx pid).length : ℚ) / (R : ℚ) > 10 then .HIGH
              else if ((prepareFilter tx pid).length : ℚ) / (R : ℚ) > 3 then .MEDIUM
              else .LOW
            risk_score :=
              if ((prepareFilter tx pid).length : ℚ) / (R : ℚ) > 10 then 85
              else if ((prepareFilter tx pid).length : ℚ) / (R : ℚ) > 3 then 55
              else 20
            risk_reasons :=
              (if ((dailyCounts (prepareFilter tx pid)).max?.getD 0 : ℚ)
                  > ((prepareFilter tx pid).length : ℚ) / (R : ℚ) * 2 then
                (if ((prepareFilter tx pid).length : ℚ) / (R : ℚ) > 10 then
                  ["Transaction frequency significantly exceeds normal threshold (10 tx/day)"]
                 else if ((prepareFilter tx pid).length : ℚ) / (R : ℚ) > 3 then
                  ["Transaction frequency moderately elevated above threshold (3 tx/day)"]
                 else ["Transaction frequency within normal range"])
                ++ ["Peak daily volume is a multiple of the average, indicating bursts"]
               else
                (if ((prepareFilter tx pid).length : ℚ) / (R : ℚ) > 10 then
                  ["Transaction frequency significantly exceeds normal threshold (10 tx/day)"]
                 else if ((prepareFilter tx pid).length : ℚ) / (R : ℚ) > 3 then
                  ["Transaction frequency moderately elevated above threshold (3 tx/day)"]
                 else ["Transaction frequency within normal range"])) }) := by
    rw [featureFrequency]
    rcases h10 : decide (((prepareFilter tx pid).length : ℚ) / (R : ℚ) > 10) with _ | _
    · rcases h3 : decide (((prepareFilter tx pid).length : ℚ) / (R : ℚ) > 3) with _ | _
      · simp only [decide_eq_false_iff_not] at h10 h3
        simp only [hR, hD, if_neg h10, if_neg h3]
      · simp only [decide_eq_false_iff_not] at h10
        simp only [decide_eq_true_eq] at h3
        simp only [hR, hD, if_neg h10, if_pos h3]
    · simp only [decide_eq_true_eq] at h10
      simp only [hR, hD, if_pos h10]
  rw [hres, if_neg hlen0]
  refine ⟨rfl, hR1, ?_, ?_, ?_, ?_, ?_⟩
  · rw [hmaxR]
  · rw [hmaxR]
    exact abs_roundTo2_sub_le _
  · rw [hmaxR]
    by_cases h10 : ((prepareFilter tx pid).length : ℚ) / (R : ℚ) > 10
    · simp only [if_pos h10]
      exact iff_of_true trivial h10
    · by_cases h3 : ((prepareFilter tx pid).length : ℚ) / (R : ℚ) > 3
      · simp only [if_neg h10, if_pos h3]
        exact iff_of_false (fun h => RiskLevel.noConfusion h) h10
      · simp only [if_neg h10, if_neg h3]
        exact iff_of_false (fun h => RiskLevel.noConfusion h) h10
  · rw [hmaxR]
    by_cases h10 : ((prepareFilter tx pid).length : ℚ) / (R : ℚ) > 10
    · simp only [if_pos h10]
      exact iff_of_false (fun h => RiskLevel.noConfusion h) (fun h => absurd h10 (not_lt.mpr h.2))
    · by_cases h3 : ((prepareFilter tx pid).length : ℚ) / (R : ℚ) > 3
      · simp only [if_neg h10, if_pos h3]
        exact iff_of_true trivial ⟨h3, le_of_not_lt h10⟩
      · simp only [if_neg h10, if_neg h3]
        exact iff_of_false (fun h => RiskLevel.noConfusion h) (fun h => h3 h.1)
  · rw [hmaxR]
    by_cases h10 : ((prepareFilter tx pid).length : ℚ) / (R : ℚ) > 10
    · simp only [if_pos h10]
      exact iff_of_false (fun h => RiskLevel.noConfusion h) (fun h => absurd h10 (by linarith))
    · by_cases h3 : ((prepareFilter tx pid).length : ℚ) / (R : ℚ) > 3
      · simp only [if_neg h10, if_pos h3]
        exact iff_of_false (fun h => RiskLevel.noConfusion h) (fun h => absurd h3 (by linarith))
      · simp only [if_neg h10, if_neg h3]
        exact iff_of_true trivial (le_of_not_lt h3)

/-- C9 witness: two debit transactions of partner `"P1"` two days apart
(rate 1/day ⇒ LOW). -/
theorem c9_frequency_witness :
    prepareFilter [{ TxRow.default with
      debit_credit := "debit"
      partner_id_outgoing := some "P1"
      date := some 0
      amount := 500 },
     { TxRow.default with
      debit_credit := "debit"
      partner_id_outgoing := some "P1"
      date := some 172800
      amount := 600 }] (some "P1") ≠ []
    ∧ ((featureFrequency [{ TxRow.default with
          debit_credit := "debit"
          partner_id_outgoing := some "P1"
          date := some 0
          amount := 500 },
         { TxRow.default with
          debit_credit := "debit"
          partner_id_outgoing := some "P1"
          date := some 172800
          amount := 600 }] (some "P1")).risk_level = RiskLevel.LOW
        ↔ ((featureFrequency [{ TxRow.default with
              debit_credit := "debit"
              partner_id_outgoing := some "P1"
              date := some 0
              amount := 500 },
             { TxRow.default with
              debit_credit := "debit"
              partner_id_outgoing := some "P1"
              date := some 172800
              amount := 600 }] (some "P1")).metrics.total_transactions : ℚ)
            / ((max (featureFrequency [{ TxRow.default with
                  debit_credit := "debit"
                  partner_id_outgoing := some "P1"
                  date := some 0
                  amount := 500 },
                 { TxRow.default with
                  debit_credit := "debit"
                  partner_id_outgoing := some "P1"
                  date := some 172800
                  amount := 600 }] (some "P1")).metrics.date_range_days 1 : ℤ) : ℚ) ≤ 3) :=
  ⟨by decide, (c9_frequency _ _ (by decide) (by decide)).2.2.2.2.2.2⟩

/-! ### Claim C7 — 12 transactions in one hour with two near-threshold amounts -/


/-- C7, counterexample.  On exactly the claimed scenario the computer
reports `burst_hours = 1` and `structuring_count = 2` — but its risk
level is LOW, not "at least MEDIUM": the MEDIUM tier requires
`burst_hours > 3` or `structuring_count > 5`, and one burst hour with
two near-threshold transactions reaches neither. -/
theorem burstStructuring_spec (tx : List TxRow) (pid : Option String)
    (h : ¬ (prepareFilter tx pid).length = 0) :
    featureBurstStructuring tx pid =
      { feature_name := "burst_structuring", partner_id := pidLabel pid, partner_name := none,
        metrics := ⟨(prepareFilter tx pid).length, burstHoursOf (prepareFilter tx pid),
          maxBurstOf (prepareFilter tx pid), structuringCountOf (prepareFilter tx pid)⟩,
        risk_level :=
          if 10 < burstHoursOf (prepareFilter tx pid)
              ∨ 20 < structuringCountOf (prepareFilter tx pid) then RiskLevel.HIGH
          else if 3 < burstHoursOf (prepareFilter tx pid)
              ∨ 5 < structuringCountOf (prepareFilter tx pid) then RiskLevel.MEDIUM
          else RiskLevel.LOW,
        risk_score :=
          if 10 < burstHoursOf (prepareFilter tx pid)
              ∨ 20 < structuringCountOf (prepareFilter tx pid) then 90
          else if 3 < burstHoursOf (prepareFilter tx pid)
              ∨ 5 < structuringCountOf (prepareFilter tx pid) then 60
          else 15,
        risk_reasons :=
          if 10 < burstHoursOf (prepareFilter tx pid)
              ∨ 20 < structuringCountOf (prepareFilter tx pid) then
            (if 10 < burstHoursOf (prepareFilter tx pid) then
              ["Detected hourly bursts, indicating rapid transaction activity"] else [])
            ++ (if 20 < structuringCountOf (prepareFilter tx pid) then
              ["Found transactions near reporting thresholds, potential structuring"] else [])
          else if 3 < burstHoursOf (prepareFilter tx pid)
              ∨ 5 < structuringCountOf (prepareFilter tx pid) then
            (if 3 < burstHoursOf (prepareFilter tx pid) then ["Detected hourly bursts"] else [])
            ++ (if 5 < structuringCountOf (prepareFilter tx pid) then
              ["Found transactions near thresholds"] else [])
          else ["No significant burst or structuring patterns detected"] } := by
  simp only [featureBurstStructuring]
  rw [if_neg h]
  by_cases c1 : 10 < burstHoursOf (prepareFilter tx pid)
      ∨ 20 < structuringCountOf (prepareFilter tx pid)
  · simp only [if_pos c1]
  · by_cases c2 : 3 < burstHoursOf (prepareFilter tx pid)
        ∨ 5 < structuringCountOf (prepareFilter tx pid)
    · simp only [if_neg c1, if_pos c2]
    · simp only [if_neg c1, if_neg c2]

theorem c7_counterexample :
    (featureBurstStructuring c7Table (some "P1")).metrics.burst_hours = 1
    ∧ (featureBurstStructuring c7Table (some "P1")).metrics.structuring_count = 2
    ∧ (featureBurstStructuring c7Table (some "P1")).risk_level = RiskLevel.LOW := by
  have hlen : ¬ (prepareFilter c7Table (some "P1")).length = 0 := by decide
  have hB : burstHoursOf (prepareFilter c7Table (some "P1")) = 1 := by rfl
  have e1 : (10000 : ℚ) * (8 / 10) = 8000 := by norm_num
  have e2 : (10000 : ℚ) * (99 / 100) = 9900 := by norm_num
  have e3 : (9000 : ℚ) * (8 / 10) = 7200 := by norm_num
  have e4 : (9000 : ℚ) * (99 / 100) = 8910 := by norm_num
  have e5 : (5000 : ℚ) * (8 / 10) = 4000 := by norm_num
  have e6 : (5000 : ℚ) * (99 / 100) = 4950 := by norm_num
  have h1 : structuringBandCount (prepareFilter c7Table (some "P1")) 10000 = 2 := by
    unfold structuringBandCount
    simp only [e1, e2]
    decide
  have h2 : structuringBandCount (prepareFilter c7Table (some "P1")) 9000 = 0 := by
    unfold structuringBandCount
    simp only [e3, e4]
    decide
  have h3 : structuringBandCount (prepareFilter c7Table (some "P1")) 5000 = 0 := by
    unfold structuringBandCount
    simp only [e5, e6]
    decide
  have hS : structuringCountOf (prepareFilter c7Table (some "P1")) = 2 := by
    unfold structuringCountOf
    rw [h1, h2, h3]
  rw [burstStructuring_spec _ _ hlen]
  refine ⟨hB, hS, ?_⟩
  show (if 10 < burstHoursOf (prepareFilter c7Table (some "P1"))
      ∨ 20 < structuringCountOf (prepareFilter c7Table (some "P1")) then RiskLevel.HIGH
    else if 3 < burstHoursOf (prepareFilter c7Table (some "P1"))
      ∨ 5 < structuringCountOf (prepareFilter c7Table (some "P1")) then RiskLevel.MEDIUM
    else RiskLevel.LOW) = RiskLevel.LOW
  rw [hB, hS]
  decide

/-- C7, as amended: twelve same-hour transactions of one partner with
amounts 9200 and 9400 among them do give `burst_hours = 1` and
`structuring_count ≥ 2`, but the risk is at least MEDIUM exactly when
`structuring_count` exceeds 5 — a single burst hour never lifts the
level (the MEDIUM threshold is `burst_hours > 3`). -/
theorem c7_amended (tx : List TxRow) (p : String) (H : ℤ) (hp : p ≠ "")
    (hlen : (prepareFilter tx (some p)).length = 12)
    (hdate : ∀ r ∈ prepareFilter tx (some p), ∃ d, r.date = some d ∧ d.fdiv 3600 = H)
    (h92 : 1 ≤ (prepareFilter tx (some p)).countP (fun r => |r.amount| = 9200))
    (h94 : 1 ≤ (prepareFilter tx (some p)).countP (fun r => |r.amount| = 9400)) :
    (featureBurstStructuring tx (some p)).metrics.burst_hours = 1
    ∧ 2 ≤ (featureBurstStructuring tx (some p)).metrics.structuring_count
    ∧ ((featureBurstStructuring tx (some p)).risk_level ≠ RiskLevel.LOW
        ↔ 5 < (featureBurstStructuring tx (some p)).metrics.structuring_count) := by
  have hlen0 : ¬ (prepareFilter tx (some p)).length = 0 := by omega
  -- every filtered row belongs to partner p
  have hdf : prepareFilter tx (some p)
      = tx.filter (fun r => logicalPartnerId r = some p) := by
    unfold prepareFilter pyTruthyStr
    simp [hp]
  have hpartner : ∀ r ∈ prepareFilter tx (some p), logicalPartnerId r = some p := by
    intro r hr
    rw [hdf] at hr
    simpa using (List.mem_filter.mp hr).2
  -- the group keys are all (p, H) and one per row
  have hkey : ∀ r ∈ prepareFilter tx (some p),
      (match logicalPartnerId r, r.date with
       | some q, some d => some (q, d.fdiv 3600)
       | _, _ => none) = some ((p, H) : String × ℤ) := by
    intro r hr
    obtain ⟨d, hd, hfd⟩ := hdate r hr
    rw [hpartner r hr, hd]
    simp [hfd]
  have hklen : (burstKeys (prepareFilter tx (some p))).length = 12 := by
    unfold burstKeys
    rw [length_filterMap_of_isSome _ _ (fun r hr => by rw [hkey r hr]; rfl), hlen]
  have hkmem : ∀ k ∈ burstKeys (prepareFilter tx (some p)), k = ((p, H) : String × ℤ) := by
    intro k hk
    obtain ⟨r, hr, hfr⟩ := List.mem_filterMap.mp hk
    rw [hkey r hr] at hfr
    exact (Option.some_inj.mp hfr).symm
  have hkne : burstKeys (prepareFilter tx (some p)) ≠ [] := by
    intro h
    rw [h] at hklen
    exact absurd hklen (by simp)
  have hdedup : (burstKeys (prepareFilter tx (some p))).dedup = [((p, H) : String × ℤ)] :=
    dedup_eq_singleton_of_all_eq _ _ hkne hkmem
  have hcount : countKey (burstKeys (prepareFilter tx (some p))) ((p, H) : String × ℤ) = 12 := by
    rw [countKey_of_all_eq _ _ hkmem, hklen]
  have hB : burstHoursOf (prepareFilter tx (some p)) = 1 := by
    unfold burstHoursOf
    rw [hdedup]
    simp [hcount]
  -- the two near-threshold amounts are counted in the 10000 band
  have hband : 2 ≤ structuringBandCount (prepareFilter tx (some p)) 10000 := by
    unfold structuringBandCount
    rw [← List.countP_eq_length_filter]
    calc (2 : ℕ) ≤ (prepareFilter tx (some p)).countP (fun r => |r.amount| = 9200)
          + (prepareFilter tx (some p)).countP (fun r => |r.amount| = 9400) := by omega
    _ ≤ _ := by
        apply countP_pair_le
        · intro a ha
          simp only [decide_eq_true_eq] at ha ⊢
          rw [ha]
          norm_num
        · intro a ha
          simp only [decide_eq_true_eq] at ha ⊢
          rw [ha]
          norm_num
        · intro a ha
          simp only [decide_eq_true_eq] at ha
          rw [ha.1] at ha
          norm_num at ha
  have hS : 2 ≤ structuringCountOf (prepareFilter tx (some p)) := by
    unfold structuringCountOf
    omega
  rw [burstStructuring_spec _ _ hlen0]
  refine ⟨hB, hS, ?_⟩
  show (if 10 < burstHoursOf (prepareFilter tx (some p))
      ∨ 20 < structuringCountOf (prepareFilter tx (some p)) then RiskLevel.HIGH
    else if 3 < burstHoursOf (prepareFilter tx (some p))
      ∨ 5 < structuringCountOf (prepareFilter tx (some p)) then RiskLevel.MEDIUM
    else RiskLevel.LOW) ≠ RiskLevel.LOW
    ↔ 5 < structuringCountOf (prepareFilter tx (some p))
  rw [hB]
  by_cases h20 : 20 < structuringCountOf (prepareFilter tx (some p))
  · rw [if_pos (Or.inr h20)]
    exact iff_of_true (fun h => RiskLevel.noConfusion h) (by omega)
  · rw [if_neg (by omega)]
    by_cases h5 : 5 < structuringCountOf (prepareFilter tx (some p))
    · rw [if_pos (Or.inr h5)]
      exact iff_of_true (fun h => RiskLevel.noConfusion h) h5
    · rw [if_neg (by omega)]
      exact iff_of_false (by simp) h5

/-- C7 witness: the amended statement instantiated at the concrete
scenario table. -/
theorem c7_amended_witness :
    (prepareFilter c7Table (some "P1")).length = 12
    ∧ 2 ≤ (featureBurstStructuring c7Table (some "P1")).metrics.structuring_count :=
  ⟨by decide, (c7_amended c7Table "P1" 0 (by decide) (by decide)
    (by intro r hr; fin_cases hr <;> exact ⟨_, rfl, rfl⟩)
    (by decide) (by decide)).2.1⟩

/-! ### Claim C10 — cross-border home country and the "Unknown" string -/

/-- The cross-border result on a non-empty filtered set, with the risk
chain exposed. -/
theorem crossBorder_spec (tx : List TxRow) (pid : Option String)
    (h : ¬ (prepareFilter tx pid).length = 0) :
    featureCrossBorder tx pid =
      { feature_name := "cross_border", partner_id := pidLabel pid, partner_name := none,
        metrics := ⟨(prepareFilter tx pid).length, homeCountryOf (prepareFilter tx pid),
          crossBorderCountOf (prepareFilter tx pid),
          roundTo2 ((crossBorderCountOf (prepareFilter tx pid) : ℚ)
            / ((prepareFilter tx pid).length : ℚ) * 100),
          uniqueCountriesOf (prepareFilter tx pid),
          highRiskCountOf (prepareFilter tx pid),
          roundTo2 ((highRiskCountOf (prepareFilter tx pid) : ℚ)
            / ((prepareFilter tx pid).length : ℚ) * 100)⟩,
        risk_level :=
          if (crossBorderCountOf (prepareFilter tx pid) : ℚ)
              / ((prepareFilter tx pid).length : ℚ) * 100 > 50
              ∨ 5 < highRiskCountOf (prepareFilter tx pid) then RiskLevel.HIGH
          else if (crossBorderCountOf (prepareFilter tx pid) : ℚ)
              / ((prepareFilter tx pid).length : ℚ) * 100 > 20
              ∨ 0 < highRiskCountOf (prepareFilter tx pid) then RiskLevel.MEDIUM
          else RiskLevel.LOW,
        risk_score :=
          if (crossBorderCountOf (prepareFilter tx pid) : ℚ)
              / ((prepareFilter tx pid).length : ℚ) * 100 > 50
              ∨ 5 < highRiskCountOf (prepareFilter tx pid) then 85
          else if (crossBorderCountOf (prepareFilter tx pid) : ℚ)
              / ((prepareFilter tx pid).length : ℚ) * 100 > 20
              ∨ 0 < highRiskCountOf (prepareFilter tx pid) then 55
          else 15,
        risk_reasons :=
          (if 10 < uniqueCountriesOf (prepareFilter tx pid) then
            (if (crossBorderCountOf (prepareFilter tx pid) : ℚ)
                / ((prepareFilter tx pid).length : ℚ) * 100 > 50
                ∨ 5 < highRiskCountOf (prepareFilter tx pid) then
              (if (crossBorderCountOf (prepareFilter tx pid) : ℚ)
                  / ((prepareFilter tx pid).length : ℚ) * 100 > 50 then
                ["Majority of transactions are cross-border"] else [])
              ++ (if 5 < highRiskCountOf (prepareFilter tx pid) then
                ["Transactions with high-risk countries"] else [])
            else if (crossBorderCountOf (prepareFilter tx pid) : ℚ)
                / ((prepareFilter tx pid).length : ℚ) * 100 > 20
                ∨ 0 < highRiskCountOf (prepareFilter tx pid) then
              (if (crossBorderCountOf (prepareFilter tx pid) : ℚ)
                  / ((prepareFilter tx pid).length : ℚ) * 100 > 20 then
                ["Significant cross-border activity"] else [])
              ++ (if 0 < highRiskCountOf (prepareFilter tx pid) then
                ["Transactions with high-risk countries"] else [])
            else ["Primarily domestic transactions with no high-risk jurisdictions"])
            ++ ["High geographic diversity"]
          else
            (if (crossBorderCountOf (prepareFilter tx pid) : ℚ)
                / ((prepareFilter tx pid).length : ℚ) * 100 > 50
                ∨ 5 < highRiskCountOf (prepareFilter tx pid) then
              (if (crossBorderCountOf (prepareFilter tx pid) : ℚ)
                  / ((prepareFilter tx pid).length : ℚ) * 100 > 50 then
                ["Majority of transactions are cross-border"] else [])
              ++ (if 5 < highRiskCountOf (prepareFilter tx pid) then
                ["Transactions with high-risk countries"] else [])
            else if (crossBorderCountOf (prepareFilter tx pid) : ℚ)
                / ((prepareFilter tx pid).length : ℚ) * 100 > 20
                ∨ 0 < highRiskCountOf (prepareFilter tx pid) then
              (if (crossBorderCountOf (prepareFilter tx pid) : ℚ)
                  / ((prepareFilter tx pid).length : ℚ) * 100 > 20 then
                ["Significant cross-border activity"] else [])
              ++ (if 0 < highRiskCountOf (prepareFilter tx pid) then
                ["Transactions with high-risk countries"] else [])
            else ["Primarily domestic transactions with no high-risk jurisdictions"])) } := by
  simp only [featureCrossBorder]
  rw [if_neg h]
  by_cases c1 : (crossBorderCountOf (prepareFilter tx pid) : ℚ)
      / ((prepareFilter tx pid).length : ℚ) * 100 > 50
      ∨ 5 < highRiskCountOf (prepareFilter tx pid)
  · simp only [if_pos c1]
  · by_cases c2 : (crossBorderCountOf (prepareFilter tx pid) : ℚ)
        / ((prepareFilter tx pid).length : ℚ) * 100 > 20
        ∨ 0 < highRiskCountOf (prepareFilter tx pid)
    · simp only [if_neg c1, if_pos c2]
    · simp only [if_neg c1, if_neg c2]


/-- C10, counterexample.  Home country resolves to Switzerland (mode)
as claimed; but the row whose counterparty country is the *string*
`"Unknown"` IS counted cross-border (`cross_border_count = 1`, not 0):
the code only excludes genuine nulls (`notna()`), it gives the
placeholder string no special treatment. -/
theorem c10_counterexample :
    (featureCrossBorder c10Table (some "P1")).metrics.home_country = some "Switzerland"
    ∧ (featureCrossBorder c10Table (some "P1")).metrics.cross_border_count = 1 := by
  rw [crossBorder_spec _ _ (by decide)]
  exact ⟨by decide, by decide⟩

/-- C10, as amended: the home country does resolve to `"Switzerland"`
(the strict mode), but the string `"Unknown"` is *not* treated as
null/missing: `cross_border_count` counts every row whose counterparty
country is non-null and differs from home — the `"Unknown"` row
included.  Only genuine nulls are excluded. -/
theorem c10_amended (tx : List TxRow) (p : String) (hp : p ≠ "")
    (hsw : 2 ≤ (prepareFilter tx (some p)).countP
        (fun r => logicalPartnerCountry r = some "Switzerland"))
    (hunk : (prepareFilter tx (some p)).countP
        (fun r => logicalPartnerCountry r = some "Unknown") = 1)
    (hall : ∀ r ∈ prepareFilter tx (some p),
        logicalPartnerCountry r = some "Switzerland"
        ∨ logicalPartnerCountry r = some "Unknown") :
    (featureCrossBorder tx (some p)).metrics.home_country = some "Switzerland"
    ∧ (featureCrossBorder tx (some p)).metrics.cross_border_count
        = (prepareFilter tx (some p)).countP
            (fun r => crossBorderPred "Switzerland" r)
    ∧ (∀ r ∈ prepareFilter tx (some p), counterpartyCountry r = some "Unknown" →
        crossBorderPred "Switzerland" r = true) := by
  have hlen0 : ¬ (prepareFilter tx (some p)).length = 0 := by
    intro h
    rw [List.length_eq_zero.mp h] at hsw
    simp at hsw
  have hcs : countKey ((prepareFilter tx (some p)).filterMap logicalPartnerCountry)
      "Switzerland" = (prepareFilter tx (some p)).countP
        (fun r => logicalPartnerCountry r = some "Switzerland") :=
    countKey_filterMap _ _ _
  have hcu : countKey ((prepareFilter tx (some p)).filterMap logicalPartnerCountry)
      "Unknown" = (prepareFilter tx (some p)).countP
        (fun r => logicalPartnerCountry r = some "Unknown") :=
    countKey_filterMap _ _ _
  have hmem : "Switzerland" ∈ (prepareFilter tx (some p)).filterMap logicalPartnerCountry := by
    by_contra hno
    have : countKey ((prepareFilter tx (some p)).filterMap logicalPartnerCountry)
        "Switzerland" = 0 := by
      unfold countKey
      rw [List.filter_eq_nil_iff.mpr]
      · rfl
      · intro a ha
        simp only [decide_eq_true_eq]
        intro hEq
        exact hno (hEq ▸ ha)
    omega
  have hmode : homeCountryOf (prepareFilter tx (some p)) = some "Switzerland" := by
    unfold homeCountryOf
    apply pandasModeFirst_of_strict_max _ _ hmem
    intro y hy hyne
    have hymem : y ∈ (prepareFilter tx (some p)).filterMap logicalPartnerCountry :=
      List.mem_dedup.mp hy
    obtain ⟨r, hr, hry⟩ := List.mem_filterMap.mp hymem
    have := hall r hr
    have hyu : y = "Unknown" := by
      rcases this with h | h
      · rw [h] at hry
        exact absurd (Option.some_inj.mp hry).symm hyne
      · rw [h] at hry
        exact (Option.some_inj.mp hry).symm
    subst hyu
    omega
  have hcbc : crossBorderCountOf (prepareFilter tx (some p))
      = (prepareFilter tx (some p)).countP (fun r => crossBorderPred "Switzerland" r) := by
    unfold crossBorderCountOf
    rw [hmode]
    have : pyTruthyStr (some "Switzerland") = true := by decide
    rw [if_pos this]
    rw [List.countP_eq_length_filter]
    rfl
  rw [crossBorder_spec _ _ hlen0]
  refine ⟨hmode, hcbc, ?_⟩
  intro r _ hcc
  unfold crossBorderPred
  rw [hcc]
  decide

/-- C10 witness: the amended statement instantiated at the concrete
three-row table. -/
theorem c10_amended_witness :
    2 ≤ (prepareFilter c10Table (some "P1")).countP
        (fun r => logicalPartnerCountry r = some "Switzerland")
    ∧ (featureCrossBorder c10Table (some "P1")).metrics.cross_border_count
        = (prepareFilter c10Table (some "P1")).countP
            (fun r => crossBorderPred "Switzerland" r) :=
  ⟨by decide, (c10_amended c10Table "P1" (by decide) (by decide) (by decide)
    (by intro r hr; fin_cases hr <;> simp [logicalPartnerCountry])).2.1⟩


/-- C8: with no explicit start/end date and no lookback flag, `main`
defaults the window to 30 days; `compute_date_bounds` then ends the
window at the latest transaction date of the dataset — the wall clock
(`utcnow`) does not enter, as the conclusion holds for every value of
it — and starts it 30 days earlier; the result is the per-country sums
of the account's debit rows inside the window (a permutation of the
groupby totals, each entry carrying the sum of its country's amounts),
sorted descending by total. -/
theorem c8_country_aggregator (df : List CountryTxRow) (aid : String) (utcnow : ℤ)
    (hdf : df ≠ []) :
    mainWindowDays none none none = some 30
    ∧ ∃ m, (df.map (·.tx_date)).max? = some m
      ∧ (amountSentPerCountry df aid none none (mainWindowDays none none none) utcnow).2
          = (some (m - 30 * 86400), some m)
      ∧ List.Sorted (fun a b => b.2 ≤ a.2)
          (amountSentPerCountry df aid none none (mainWindowDays none none none) utcnow).1
      ∧ (amountSentPerCountry df aid none none (mainWindowDays none none none) utcnow).1.Perm
          (groupTotals (df.filter (fun r =>
            (r.account_id_value = aid : Bool) && r.is_debit
            && decide (m - 30 * 86400 ≤ r.tx_date) && decide (r.tx_date ≤ m))))
      ∧ ∀ p ∈ (amountSentPerCountry df aid none none (mainWindowDays none none none) utcnow).1,
          p.2 = (((df.filter (fun r =>
              (r.account_id_value = aid : Bool) && r.is_debit
              && decide (m - 30 * 86400 ≤ r.tx_date) && decide (r.tx_date ≤ m))).filter
                (fun r => r.country_clean = p.1)).map (·.amount_value)).sum := by
  have hw : mainWindowDays none none none = some 30 := by decide
  rw [hw]
  refine ⟨rfl, ?_⟩
  obtain ⟨a, t, rfl⟩ : ∃ a t, df = a :: t := by
    cases df with
    | nil => exact absurd rfl hdf
    | cons a t => exact ⟨a, t, rfl⟩
  obtain ⟨m, hmax⟩ : ∃ m, ((a :: t).map (·.tx_date)).max? = some m := ⟨_, rfl⟩
  refine ⟨m, hmax, ?_⟩
  have hbounds : computeDateBounds (a :: t) none none (some 30) utcnow
      = (some (m - 30 * 86400), some m) := by
    unfold computeDateBounds
    rw [hmax]
    rfl
  have hres : amountSentPerCountry (a :: t) aid none none (some 30) utcnow
      = (((groupTotals ((a :: t).filter (fun r =>
            (r.account_id_value = aid : Bool) && r.is_debit
            && decide (m - 30 * 86400 ≤ r.tx_date) && decide (r.tx_date ≤ m)))).insertionSort
              (fun a b => b.2 ≤ a.2)),
          some (m - 30 * 86400), some m) := by
    unfold amountSentPerCountry
    rw [hbounds]
  rw [hres]
  haveI : IsTotal (String × ℚ) (fun a b => b.2 ≤ a.2) := ⟨fun a b => le_total b.2 a.2⟩
  haveI : IsTrans (String × ℚ) (fun a b => b.2 ≤ a.2) :=
    ⟨fun _ _ _ h1 h2 => le_trans h2 h1⟩
  refine ⟨rfl, List.sorted_insertionSort _ _, List.perm_insertionSort _ _, ?_⟩
  intro p hp
  have hp' : p ∈ groupTotals ((a :: t).filter (fun r =>
      (r.account_id_value = aid : Bool) && r.is_debit
      && decide (m - 30 * 86400 ≤ r.tx_date) && decide (r.tx_date ≤ m))) :=
    (List.perm_insertionSort _ _).mem_iff.mp hp
  unfold groupTotals at hp'
  obtain ⟨c, _, hpc⟩ := List.mem_map.mp hp'
  rw [← hpc]

/-- C8 witness: the theorem instantiated at a concrete three-row table
(account `"A1"`, two debits, one credit), with an arbitrary wall-clock
value, showing it applies. -/
theorem c8_country_aggregator_witness :
    c8Df ≠ []
    ∧ (mainWindowDays none none none = some 30
      ∧ ∃ m, (c8Df.map (·.tx_date)).max? = some m
        ∧ (amountSentPerCountry c8Df "A1" none none (mainWindowDays none none none) 0).2
            = (some (m - 30 * 86400), some m)
        ∧ List.Sorted (fun a b => b.2 ≤ a.2)
            (amountSentPerCountry c8Df "A1" none none (mainWindowDays none none none) 0).1
        ∧ (amountSentPerCountry c8Df "A1" none none (mainWindowDays none none none) 0).1.Perm
            (groupTotals (c8Df.filter (fun r =>
              (r.account_id_value = "A1" : Bool) && r.is_debit
              && decide (m - 30 * 86400 ≤ r.tx_date) && decide (r.tx_date ≤ m))))
        ∧ ∀ p ∈ (amountSentPerCountry c8Df "A1" none none (mainWindowDays none none none) 0).1,
            p.2 = (((c8Df.filter (fun r =>
                (r.account_id_value = "A1" : Bool) && r.is_debit
                && decide (m - 30 * 86400 ≤ r.tx_date) && decide (r.tx_date ≤ m))).filter
                  (fun r => r.country_clean = p.1)).map (·.amount_value)).sum) :=
  ⟨by simp [c8Df], c8_country_aggregator c8Df "A1" 0 (by simp [c8Df])⟩

/-! ## C5: the Population Ranker's ordering and (in)stability -/



/-- A `quickLoop` round on a short segment with an empty stack is one
insertion sort of the segment. -/
theorem quickLoop_insertion_small (v : List ℚ) (fuel : ℕ) (t : List ℕ) (pl pr : ℕ)
    (d : ℤ) (h : ¬ 15 < pr - pl) :
    NpSort.quickLoop v (fuel + 1) t pl pr [] d
      = NpSort.insertionSortSegment v t pl pr := by
  unfold NpSort.quickLoop
  rw [if_neg h]

/-- numpy argsort on at most 16 elements never partitions: it is the
stable ascending insertion sort of the identity index array. -/
theorem npArgsortQuick_small (w : List ℚ) (h : w.length ≤ 16) :
    NpSort.npArgsortQuick w
      = (List.range w.length).insertionSort (fun i j => w.getD i 0 ≤ w.getD j 0) := by
  have h15 : ¬ 15 < w.length - 1 - 0 := by omega
  have hq : NpSort.npArgsortQuick w
      = NpSort.insertionSortSegment w (List.range w.length) 0 (w.length - 1) :=
    quickLoop_insertion_small w (w.length * w.length + w.length + 1) (List.range w.length)
      0 (w.length - 1) ((Nat.log2 w.length : ℤ) * 2) h15
  rw [hq]
  unfold NpSort.insertionSortSegment
  rw [List.take_zero, List.drop_zero,
      List.take_of_length_le (by simp only [List.length_range]; omega),
      List.drop_eq_nil_of_le (by simp only [List.length_range]; omega)]
  simp

/-- `getD` through a `map` of the score projection. -/
theorem getD_map_score (l : List SuspectEntry) (i : ℕ) (h : i < l.length) :
    (l.map (·.aggregate_risk_score)).getD i 0
      = (l.getD i SuspectEntry.default).aggregate_risk_score := by
  rw [List.getD_eq_getElem?_getD, List.getD_eq_getElem?_getD,
      List.getElem?_eq_getElem (by simpa using h), List.getElem?_eq_getElem h]
  simp

/-- On at most 16 rows, the whole pandas descending sort collapses to the
reversal of a stable ascending insertion sort of the reversed rows. -/
theorem sortSuspectsDesc_small (results : List SuspectEntry) (h : results.length ≤ 16) :
    sortSuspectsDesc results
      = ((results.reverse.insertionSort
          (fun a b => a.aggregate_risk_score ≤ b.aggregate_risk_score)).reverse) := by
  have hlv : ((results.map (·.aggregate_risk_score)).reverse).length = results.length := by
    simp
  have h0 := npArgsortQuick_small ((results.map (·.aggregate_risk_score)).reverse)
    (by simpa using h)
  rw [hlv] at h0
  unfold sortSuspectsDesc applyIndexer pandasArgsortDesc
  rw [h0, List.map_reverse, List.map_map]
  congr 1
  have hmap1 : ∀ k ∈ (List.range results.length).insertionSort
      (fun i j => ((results.map (·.aggregate_risk_score)).reverse).getD i 0
        ≤ ((results.map (·.aggregate_risk_score)).reverse).getD j 0),
      ((fun i => results.getD i SuspectEntry.default)
          ∘ (fun k => (results.map (·.aggregate_risk_score)).length - 1 - k)) k
        = results.reverse.getD k SuspectEntry.default := by
    intro k hk
    have hk2 : k < results.length := by
      have := (List.mem_insertionSort _).mp hk
      simpa using List.mem_range.mp this
    simp only [Function.comp, List.length_map]
    rw [getD_reverse_of_lt results k hk2]
  rw [List.map_congr_left hmap1]
  rw [List.map_insertionSort
      (fun i j => ((results.map (·.aggregate_risk_score)).reverse).getD i 0
        ≤ ((results.map (·.aggregate_risk_score)).reverse).getD j 0)
      (fun a b => a.aggregate_risk_score ≤ b.aggregate_risk_score)
      (fun k => results.reverse.getD k SuspectEntry.default)
      (List.range results.length) ?_]
  · congr 1
    have := map_range_getD results.reverse SuspectEntry.default
    simpa using this
  · intro i hi j hj
    have hi2 : i < results.reverse.length := by simpa using List.mem_range.mp hi
    have hj2 : j < results.reverse.length := by simpa using List.mem_range.mp hj
    dsimp only
    rw [← List.map_reverse, getD_map_score _ i hi2, getD_map_score _ j hj2]

/-- Filtering a score-ascending insertion sort to a single score value
returns those rows in their original order (stability of the small-array
regime). -/
theorem insertionSort_filter_score (l : List SuspectEntry) (q : ℚ) :
    ((l.insertionSort
        (fun a b => a.aggregate_risk_score ≤ b.aggregate_risk_score)).filter
      (fun e => e.aggregate_risk_score = q))
      = l.filter (fun e => e.aggregate_risk_score = q) := by
  have hB : (l.filter (fun e => e.aggregate_risk_score = q)).Pairwise
      (fun a b => a.aggregate_risk_score ≤ b.aggregate_risk_score) := by
    apply List.pairwise_of_forall_mem_list
    intro a ha b hb
    have ha2 := (List.mem_filter.mp ha).2
    have hb2 := (List.mem_filter.mp hb).2
    simp only [decide_eq_true_eq] at ha2 hb2
    rw [ha2, hb2]
  have hsub : List.Sublist (l.filter (fun e => e.aggregate_risk_score = q))
      (l.insertionSort (fun a b => a.aggregate_risk_score ≤ b.aggregate_risk_score)) :=
    List.sublist_insertionSort hB (List.filter_sublist l)
  have hsub2 := hsub.filter (fun e => e.aggregate_risk_score = q)
  have hself : ((l.filter (fun e => e.aggregate_risk_score = q)).filter
      (fun e => e.aggregate_risk_score = q)) = l.filter (fun e => e.aggregate_risk_score = q) :=
    List.filter_eq_self.mpr (fun a ha => (List.mem_filter.mp ha).2)
  rw [hself] at hsub2
  have hperm : ((l.insertionSort
      (fun a b => a.aggregate_risk_score ≤ b.aggregate_risk_score)).filter
        (fun e => e.aggregate_risk_score = q)).Perm
      (l.filter (fun e => e.aggregate_risk_score = q)) :=
    (List.perm_insertionSort _ _).filter _
  exact (hsub2.eq_of_length hperm.length_eq.symm).symm

/-- C5 counterexample: seventeen partners, all with aggregate score 50,
encountered in order 0,…,16 (recorded in `total_transactions`).  The
ranker's output does not keep that order: at 17 rows pandas' default
quicksort enters numpy's partitioning regime, which permutes ties. -/
theorem c5_counterexample :
    (∀ e ∈ c5Table, e.aggregate_risk_score = 50)
    ∧ c5Table.map (·.total_transactions) = List.range 17
    ∧ (sortSuspectsDesc c5Table).map (·.total_transactions) ≠ List.range 17 :=
  ⟨by decide, by decide, by decide⟩


/-! ## Toolkit for the introsort verification: `getD`/`set`/`lswap`/slice lemmas -/

theorem getD_set_ne {α : Type} (l : List α) (i j : ℕ) (x : α) (d : α) (h : j ≠ i) :
    (l.set i x).getD j d = l.getD j d := by
  rw [List.getD_eq_getElem?_getD, List.getD_eq_getElem?_getD,
    List.getElem?_set_ne (fun e => h e.symm)]

theorem getD_set_self {α : Type} (l : List α) (i : ℕ) (x : α) (d : α) (h : i < l.length) :
    (l.set i x).getD i d = x := by
  rw [List.getD_eq_getElem?_getD, List.getElem?_set_self h]
  rfl

theorem set_getD_self {α : Type} (l : List α) (i : ℕ) (d : α) (h : i < l.length) :
    l.set i (l.getD i d) = l := by
  apply List.ext_getElem
  · simp
  · intro p h1 h2
    by_cases hp : i = p
    · subst hp
      rw [List.getElem_set_self, List.getD_eq_getElem l d h]
    · rw [List.getElem_set_ne hp]

theorem cons_set_perm {α : Type} (c : α) (d : α) :
    ∀ (k : ℕ) (t : List α), k < t.length → List.Perm (t.getD k d :: t.set k c) (c :: t) := by
  intro k
  induction k with
  | zero =>
    intro t ht
    cases t with
    | nil => simp at ht
    | cons e t2 => simpa using List.Perm.swap c e t2
  | succ k ih =>
    intro t ht
    cases t with
    | nil => simp at ht
    | cons e t2 =>
      have h2 : k < t2.length := by simpa using ht
      have h1 : (e :: t2).getD (k + 1) d :: (e :: t2).set (k + 1) c
          = t2.getD k d :: e :: t2.set k c := by simp [List.getD_cons_succ]
      rw [h1]
      exact ((List.Perm.swap _ _ _).trans ((ih t2 h2).cons e)).trans
        (List.Perm.swap _ _ _)

theorem set_set_perm_lt {α : Type} (d : α) :
    ∀ (a : ℕ) (l : List α) (b : ℕ), a < b → b < l.length →
      List.Perm ((l.set a (l.getD b d)).set b (l.getD a d)) l := by
  intro a
  induction a with
  | zero =>
    intro l b hab hb
    cases l with
    | nil => simp at hb
    | cons c t =>
      obtain ⟨k, rfl⟩ : ∃ k, b = k + 1 := ⟨b - 1, by omega⟩
      have hk : k < t.length := by simpa using hb
      have h1 : ((c :: t).set 0 ((c :: t).getD (k + 1) d)).set (k + 1) ((c :: t).getD 0 d)
          = t.getD k d :: t.set k c := by
        simp [List.getD_cons_succ, List.getD_cons_zero]
      rw [h1]
      exact cons_set_perm c d k t hk
  | succ a ih =>
    intro l b hab hb
    cases l with
    | nil => simp at hb
    | cons c t =>
      obtain ⟨k, rfl⟩ : ∃ k, b = k + 1 := ⟨b - 1, by omega⟩
      have hk : k < t.length := by simpa using hb
      have h1 : ((c :: t).set (a + 1) ((c :: t).getD (k + 1) d)).set (k + 1)
            ((c :: t).getD (a + 1) d)
          = c :: (t.set a (t.getD k d)).set k (t.getD a d) := by
        simp [List.getD_cons_succ]
      rw [h1]
      exact (ih t k (by omega) hk).cons c

theorem set_set_perm {α : Type} (l : List α) (d : α) (a b : ℕ)
    (ha : a < l.length) (hb : b < l.length) :
    List.Perm ((l.set a (l.getD b d)).set b (l.getD a d)) l := by
  rcases lt_trichotomy a b with h | h | h
  · exact set_set_perm_lt d a l b h hb
  · subst h
    rw [List.set_set, set_getD_self l a d ha]
  · rw [List.set_comm _ _ _ (by omega : a ≠ b)]
    exact set_set_perm_lt d b l a h ha

theorem lswap_length (t : List ℕ) (a b : ℕ) : (NpSort.lswap t a b).length = t.length := by
  simp [NpSort.lswap]

theorem lswap_perm (t : List ℕ) (a b : ℕ) (ha : a < t.length) (hb : b < t.length) :
    List.Perm (NpSort.lswap t a b) t :=
  set_set_perm t 0 a b ha hb

theorem getD_lswap_left (t : List ℕ) (a b : ℕ) (ha : a < t.length) (hb : b < t.length) :
    (NpSort.lswap t a b).getD a 0 = t.getD b 0 := by
  by_cases hab : a = b
  · subst hab
    rw [NpSort.lswap]
    rw [List.set_set, set_getD_self t a 0 ha]
  · rw [NpSort.lswap]
    rw [getD_set_ne _ _ _ _ _ hab, getD_set_self _ _ _ _ ha]

theorem getD_lswap_right (t : List ℕ) (a b : ℕ) (ha : a < t.length) (hb : b < t.length) :
    (NpSort.lswap t a b).getD b 0 = t.getD a 0 := by
  rw [NpSort.lswap]
  rw [getD_set_self _ _ _ _ (by simpa using hb)]

theorem getD_lswap_other (t : List ℕ) (a b p : ℕ) (h1 : p ≠ a) (h2 : p ≠ b) :
    (NpSort.lswap t a b).getD p 0 = t.getD p 0 := by
  rw [NpSort.lswap, getD_set_ne _ _ _ _ _ h2, getD_set_ne _ _ _ _ _ h1]

theorem slice_decomp {α : Type} (t : List α) (pl pr : ℕ) (h : pl ≤ pr + 1) :
    t.take pl ++ (t.drop pl).take (pr + 1 - pl) ++ t.drop (pr + 1) = t := by
  have h2 : (t.drop pl).drop (pr + 1 - pl) = t.drop (pr + 1) := by
    rw [List.drop_drop]
    congr 1
    omega
  rw [List.append_assoc, ← h2, List.take_append_drop, List.take_append_drop]

theorem slice_length {α : Type} (t : List α) (pl pr : ℕ) (hpr : pr < t.length)
    (hple : pl ≤ pr) : ((t.drop pl).take (pr + 1 - pl)).length = pr + 1 - pl := by
  simp only [List.length_take, List.length_drop]
  omega

theorem getD_slice {α : Type} (t : List α) (d : α) (pl pr p : ℕ) (h1 : pl ≤ p)
    (h2 : p ≤ pr) (h3 : pr < t.length) :
    ((t.drop pl).take (pr + 1 - pl)).getD (p - pl) d = t.getD p d := by
  have hlen : ((t.drop pl).take (pr + 1 - pl)).length = pr + 1 - pl :=
    slice_length t pl pr h3 (le_trans h1 h2)
  have hidx : p - pl < pr + 1 - pl := by omega
  rw [List.getD_eq_getElem _ _ (by omega), List.getD_eq_getElem _ _ (by omega : p < t.length)]
  rw [List.getElem_take, List.getElem_drop]
  congr 1
  omega

theorem mem_slice {α : Type} (t : List α) (d : α) (pl pr : ℕ) (x : α)
    (hx : x ∈ (t.drop pl).take (pr + 1 - pl)) (hpr : pr < t.length) (hple : pl ≤ pr) :
    ∃ p, pl ≤ p ∧ p ≤ pr ∧ t.getD p d = x := by
  obtain ⟨i, hi, hix⟩ := List.getElem_of_mem hx
  have hlen : ((t.drop pl).take (pr + 1 - pl)).length = pr + 1 - pl :=
    slice_length t pl pr hpr hple
  refine ⟨pl + i, by omega, by omega, ?_⟩
  rw [← hix, List.getElem_take, List.getElem_drop, List.getD_eq_getElem _ _ (by omega)]

theorem comp_length {α : Type} (t m : List α) (pl pr : ℕ) (hpr : pr < t.length)
    (hple : pl ≤ pr) (hm : m.length = pr + 1 - pl) :
    (t.take pl ++ m ++ t.drop (pr + 1)).length = t.length := by
  simp only [List.length_append, List.length_take, List.length_drop, hm]
  omega

theorem comp_getD_left {α : Type} (t m : List α) (d : α) (pl pr p : ℕ)
    (hpr : pr < t.length) (hple : pl ≤ pr) (hm : m.length = pr + 1 - pl) (hp : p < pl) :
    (t.take pl ++ m ++ t.drop (pr + 1)).getD p d = t.getD p d := by
  have htk : (t.take pl).length = pl := by simp only [List.length_take]; omega
  have h1 : p < (t.take pl).length := by omega
  have h2 : p < (t.take pl ++ m).length := by
    simp only [List.length_append]
    omega
  rw [List.getD_eq_getElem _ _ (by rw [comp_length t m pl pr hpr hple hm]; omega),
    List.getElem_append_left h2, List.getElem_append_left h1,
    List.getElem_take, List.getD_eq_getElem _ _ (by omega)]

theorem comp_getD_mid {α : Type} (t m : List α) (d : α) (pl pr p : ℕ)
    (hpr : pr < t.length) (hple : pl ≤ pr) (hm : m.length = pr + 1 - pl)
    (h1 : pl ≤ p) (h2 : p ≤ pr) :
    (t.take pl ++ m ++ t.drop (pr + 1)).getD p d = m.getD (p - pl) d := by
  have htk : (t.take pl).length = pl := by simp only [List.length_take]; omega
  have h4 : p < (t.take pl ++ m).length := by
    simp only [List.length_append, htk, hm]
    omega
  rw [List.getD_eq_getElem _ _ (by rw [comp_length t m pl pr hpr hple hm]; omega),
    List.getElem_append_left h4]
  have h3 : (t.take pl).length ≤ p := by omega
  rw [List.getElem_append_right h3, List.getD_eq_getElem _ _ (by rw [hm]; omega)]
  congr 1
  omega

theorem comp_getD_right {α : Type} (t m : List α) (d : α) (pl pr p : ℕ)
    (hpr : pr < t.length) (hple : pl ≤ pr) (hm : m.length = pr + 1 - pl)
    (h1 : pr < p) (h2 : p < t.length) :
    (t.take pl ++ m ++ t.drop (pr + 1)).getD p d = t.getD p d := by
  have htk : (t.take pl).length = pl := by simp only [List.length_take]; omega
  have hab : (t.take pl ++ m).length = pr + 1 := by
    simp only [List.length_append, htk, hm]
    omega
  rw [List.getD_eq_getElem _ _ (by rw [comp_length t m pl pr hpr hple hm]; omega),
    List.getElem_append_right (by rw [hab]; omega)]
  rw [List.getElem_drop, List.getD_eq_getElem _ _ (by omega)]
  congr 1
  rw [hab]
  omega

theorem map_sub_range (n : ℕ) :
    (List.range n).map (fun k => n - 1 - k) = (List.range n).reverse := by
  apply List.ext_getElem
  · simp
  · intro i h1 h2
    rw [List.getElem_map, List.getElem_range, List.getElem_reverse, List.getElem_range]
    simp

/-! ## Scan loops of the Hoare partition -/

theorem scanUp_ok (v : List ℚ) (vp : ℚ) (t : List ℕ) :
    ∀ (fuel start q : ℕ), start ≤ q → q < start + fuel →
      (∀ r, start ≤ r → r < q → NpSort.keyAt v t r < vp) →
      ¬ NpSort.keyAt v t q < vp →
      NpSort.scanUp v vp t fuel start = q := by
  intro fuel
  induction fuel with
  | zero =>
    intro start q h1 h2 _ _
    omega
  | succ fuel ih =>
    intro start q h1 h2 hbt hq
    unfold NpSort.scanUp
    by_cases hs : start = q
    · subst hs
      rw [if_neg hq]
    · have hlt : start < q := by omega
      rw [if_pos (hbt start le_rfl hlt)]
      exact ih (start + 1) q (by omega) (by omega) (fun r hr1 hr2 => hbt r (by omega) hr2) hq

theorem scanDown_ok (v : List ℚ) (vp : ℚ) (t : List ℕ) :
    ∀ (fuel start q : ℕ), q ≤ start → start < q + fuel →
      (∀ r, q < r → r ≤ start → vp < NpSort.keyAt v t r) →
      ¬ vp < NpSort.keyAt v t q →
      NpSort.scanDown v vp t fuel start = q := by
  intro fuel
  induction fuel with
  | zero =>
    intro start q h1 h2 _ _
    omega
  | succ fuel ih =>
    intro start q h1 h2 hbt hq
    unfold NpSort.scanDown
    by_cases hs : start = q
    · subst hs
      rw [if_neg hq]
    · have hlt : q < start := by omega
      rw [if_pos (hbt start hlt le_rfl)]
      exact ih (start - 1) q (by omega) (by omega)
        (fun r hr1 hr2 => hbt r hr1 (by omega)) hq

theorem exists_first_stop_up (v : List ℚ) (vp : ℚ) (t : List ℕ) (start s : ℕ)
    (hs : start ≤ s) (hstop : ¬ NpSort.keyAt v t s < vp) :
    ∃ q, start ≤ q ∧ q ≤ s ∧ (∀ r, start ≤ r → r < q → NpSort.keyAt v t r < vp)
      ∧ ¬ NpSort.keyAt v t q < vp := by
  have hex : ∃ k, ¬ NpSort.keyAt v t (start + k) < vp := ⟨s - start, by
    have he : start + (s - start) = s := by omega
    rw [he]
    exact hstop⟩
  refine ⟨start + Nat.find hex, by omega, ?_, ?_, Nat.find_spec hex⟩
  · have hle : Nat.find hex ≤ s - start := Nat.find_min' hex (by
      have he : start + (s - start) = s := by omega
      rw [he]
      exact hstop)
    omega
  · intro r hr1 hr2
    have hk : r - start < Nat.find hex := by omega
    have hmin := Nat.find_min hex hk
    have he : start + (r - start) = r := by omega
    rw [he] at hmin
    exact not_not.mp hmin

theorem exists_first_stop_down (v : List ℚ) (vp : ℚ) (t : List ℕ) (start s : ℕ)
    (hs : s ≤ start) (hstop : ¬ vp < NpSort.keyAt v t s) :
    ∃ q, s ≤ q ∧ q ≤ start ∧ (∀ r, q < r → r ≤ start → vp < NpSort.keyAt v t r)
      ∧ ¬ vp < NpSort.keyAt v t q := by
  have hex : ∃ k, ¬ vp < NpSort.keyAt v t (start - k) := ⟨start - s, by
    have he : start - (start - s) = s := by omega
    rw [he]
    exact hstop⟩
  refine ⟨start - Nat.find hex, ?_, by omega, ?_, Nat.find_spec hex⟩
  · have hle : Nat.find hex ≤ start - s := Nat.find_min' hex (by
      have he : start - (start - s) = s := by omega
      rw [he]
      exact hstop)
    omega
  · intro r hr1 hr2
    have hk : start - r < Nat.find hex := by omega
    have hmin := Nat.find_min hex hk
    have he : start - (start - r) = r := by omega
    rw [he] at hmin
    exact not_not.mp hmin

/-! ## The Hoare partition exchange loop -/

theorem partLoop_ok (v : List ℚ) (vp : ℚ) (pl pr : ℕ) :
    ∀ (fuel : ℕ) (t : List ℕ) (pi pj : ℕ),
      pi < pj → pl ≤ pi → pj ≤ pr - 1 → pr < t.length → pl + 2 ≤ pr →
      pj ≤ pi + fuel → pr + 1 ≤ pi + fuel →
      (∀ p, pl ≤ p → p ≤ pi → NpSort.keyAt v t p ≤ vp) →
      (∀ q, pj ≤ q → q ≤ pr → vp ≤ NpSort.keyAt v t q) →
      NpSort.keyAt v t (pr - 1) = vp →
      ∃ pi2 t2, NpSort.partLoop v vp fuel t pi pj = (pi2, t2)
        ∧ pi < pi2 ∧ pi2 ≤ pr - 1
        ∧ t2.length = t.length
        ∧ List.Perm t2 t
        ∧ (∀ p, p < pl ∨ pr < p → t2.getD p 0 = t.getD p 0)
        ∧ (∀ p, pl ≤ p → p < pi2 → NpSort.keyAt v t2 p ≤ vp)
        ∧ (∀ q, pi2 ≤ q → q ≤ pr → vp ≤ NpSort.keyAt v t2 q)
        ∧ NpSort.keyAt v t2 (pr - 1) = vp := by
  intro fuel
  induction fuel with
  | zero =>
    intro t pi pj h1 h2 h3 h4 h5 h6 h7 hL hR hP
    omega
  | succ fuel ih =>
    intro t pi pj h1 h2 h3 h4 h5 h6 h7 hL hR hP
    obtain ⟨qu, hqu1, hqu2, hqu3, hqu4⟩ :=
      exists_first_stop_up v vp t (pi + 1) (pr - 1) (by omega)
        (by rw [hP]; exact lt_irrefl vp)
    obtain ⟨qd, hqd1, hqd2, hqd3, hqd4⟩ :=
      exists_first_stop_down v vp t (pj - 1) pi (by omega) (by
        have := hL pi h2 le_rfl
        exact not_lt.mpr this)
    have hup : NpSort.scanUp v vp t (fuel + 2) (pi + 1) = qu :=
      scanUp_ok v vp t (fuel + 2) (pi + 1) qu hqu1 (by omega) hqu3 hqu4
    have hdn : NpSort.scanDown v vp t (fuel + 2) (pj - 1) = qd :=
      scanDown_ok v vp t (fuel + 2) (pj - 1) qd hqd2 (by omega) hqd3 hqd4
    have hstep : NpSort.partLoop v vp (fuel + 1) t pi pj
        = if NpSort.scanDown v vp t (fuel + 2) (pj - 1)
              ≤ NpSort.scanUp v vp t (fuel + 2) (pi + 1) then
            (NpSort.scanUp v vp t (fuel + 2) (pi + 1), t)
          else NpSort.partLoop v vp fuel
            (NpSort.lswap t (NpSort.scanUp v vp t (fuel + 2) (pi + 1))
              (NpSort.scanDown v vp t (fuel + 2) (pj - 1)))
            (NpSort.scanUp v vp t (fuel + 2) (pi + 1))
            (NpSort.scanDown v vp t (fuel + 2) (pj - 1)) := rfl
    rw [hup, hdn] at hstep
    by_cases hbr : qd ≤ qu
    · rw [if_pos hbr] at hstep
      refine ⟨qu, t, hstep, by omega, hqu2, rfl, List.Perm.refl t, fun p _ => rfl, ?_, ?_, hP⟩
      · intro p hp1 hp2
        by_cases hpi : p ≤ pi
        · exact hL p hp1 hpi
        · exact le_of_lt (hqu3 p (by omega) hp2)
      · intro q hq1 hq2
        by_cases hqq : q = qu
        · subst hqq
          exact le_of_not_lt hqu4
        · by_cases hqj : pj ≤ q
          · exact hR q hqj hq2
          · exact le_of_lt (hqd3 q (by omega) (by omega))
    · rw [if_neg hbr] at hstep
      have huq : qu < qd := by omega
      have hqun : qu < t.length := by omega
      have hqdn : qd < t.length := by omega
      have hlsl : (NpSort.lswap t qu qd).length = t.length := lswap_length t qu qd
      obtain ⟨pi2, t2, heq, o1, o2, o3, o4, o5, o6, o7, o8⟩ :=
        ih (NpSort.lswap t qu qd) qu qd huq (by omega) (by omega)
          (by rw [hlsl]; exact h4) h5 (by omega) (by omega)
          (by
            intro p hp1 hp2
            by_cases hpq : p = qu
            · rw [hpq, NpSort.keyAt, getD_lswap_left t qu qd hqun hqdn]
              exact le_of_not_lt hqd4
            · rw [NpSort.keyAt, getD_lswap_other t qu qd p hpq (by omega)]
              by_cases hpi : p ≤ pi
              · exact hL p hp1 hpi
              · exact le_of_lt (hqu3 p (by omega) (by omega)))
          (by
            intro q hq1 hq2
            by_cases hqq : q = qd
            · rw [hqq, NpSort.keyAt, getD_lswap_right t qu qd hqun hqdn]
              exact le_of_not_lt hqu4
            · rw [NpSort.keyAt, getD_lswap_other t qu qd q (by omega) hqq]
              by_cases hqj : pj ≤ q
              · exact hR q hqj hq2
              · exact le_of_lt (hqd3 q (by omega) (by omega)))
          (by
            rw [NpSort.keyAt, getD_lswap_other t qu qd (pr - 1) (by omega) (by omega)]
            exact hP)
      rw [heq] at hstep
      refine ⟨pi2, t2, hstep, by omega, o2, by rw [o3, hlsl], ?_, ?_, o6, o7, o8⟩
      · exact o4.trans (lswap_perm t qu qd hqun hqdn)
      · intro p hp
        rw [o5 p hp, getD_lswap_other t qu qd p (by omega) (by omega)]

/-! ## The median-of-3 partition step -/

theorem condSwap_ok (v : List ℚ) (t u : List ℕ) (a b : ℕ) (ha : a < t.length)
    (hb : b < t.length) (hab : a ≠ b)
    (hu : u = if NpSort.keyAt v t b < NpSort.keyAt v t a then NpSort.lswap t b a else t) :
    u.length = t.length ∧ List.Perm u t
    ∧ (∀ p, p ≠ a → p ≠ b → u.getD p 0 = t.getD p 0)
    ∧ NpSort.keyAt v u a ≤ NpSort.keyAt v u b
    ∧ ((u.getD a 0 = t.getD a 0 ∧ u.getD b 0 = t.getD b 0)
        ∨ (u.getD a 0 = t.getD b 0 ∧ u.getD b 0 = t.getD a 0)) := by
  by_cases h : NpSort.keyAt v t b < NpSort.keyAt v t a
  · rw [hu, if_pos h]
    have hga : (NpSort.lswap t b a).getD a 0 = t.getD b 0 := getD_lswap_right t b a hb ha
    have hgb : (NpSort.lswap t b a).getD b 0 = t.getD a 0 := getD_lswap_left t b a hb ha
    refine ⟨lswap_length t b a, lswap_perm t b a hb ha, ?_, ?_, Or.inr ⟨hga, hgb⟩⟩
    · intro p hpa hpb
      exact getD_lswap_other t b a p hpb hpa
    · rw [NpSort.keyAt, NpSort.keyAt, hga, hgb]
      exact le_of_lt h
  · rw [hu, if_neg h]
    exact ⟨rfl, List.Perm.refl t, fun p _ _ => rfl, not_lt.mp h, Or.inl ⟨rfl, rfl⟩⟩

theorem partitionStep_ok (v : List ℚ) (t : List ℕ) (pl pr : ℕ)
    (hpr : pr < t.length) (hgap : 15 < pr - pl) :
    ∃ pi t6, NpSort.partitionStep v t pl pr = (pi, t6)
      ∧ pl + 1 ≤ pi ∧ pi ≤ pr - 1
      ∧ t6.length = t.length
      ∧ List.Perm t6 t
      ∧ (∀ p, p < pl ∨ pr < p → t6.getD p 0 = t.getD p 0)
      ∧ (∀ p, pl ≤ p → p < pi → NpSort.keyAt v t6 p ≤ NpSort.keyAt v t6 pi)
      ∧ (∀ q, pi < q → q ≤ pr → NpSort.keyAt v t6 pi ≤ NpSort.keyAt v t6 q) := by
  set pm := pl + (pr - pl) / 2 with hpm
  have hpmb : pl + 8 ≤ pm ∧ pm + 8 ≤ pr := by omega
  set t1 := (if NpSort.keyAt v t pm < NpSort.keyAt v t pl then NpSort.lswap t pm pl else t)
    with ht1
  obtain ⟨l1, p1, o1, k1, d1⟩ :=
    condSwap_ok v t t1 pl pm (by omega) (by omega) (by omega) ht1
  set t2 := (if NpSort.keyAt v t1 pr < NpSort.keyAt v t1 pm then NpSort.lswap t1 pr pm else t1)
    with ht2
  obtain ⟨l2, p2, o2, k2, d2⟩ :=
    condSwap_ok v t1 t2 pm pr (by omega) (by omega) (by omega) ht2
  set t3 := (if NpSort.keyAt v t2 pm < NpSort.keyAt v t2 pl then NpSort.lswap t2 pm pl else t2)
    with ht3
  obtain ⟨l3, p3, o3, k3, d3⟩ :=
    condSwap_ok v t2 t3 pl pm (by omega) (by omega) (by omega) ht3
  -- `pr` is untouched by the third swap
  have h3pr : t3.getD pr 0 = t2.getD pr 0 := o3 pr (by omega) (by omega)
  -- after the three conditional swaps, the three sampled keys are ordered
  have hk2plpr : NpSort.keyAt v t2 pl ≤ NpSort.keyAt v t2 pr := by
    have h2pl : t2.getD pl 0 = t1.getD pl 0 := o2 pl (by omega) (by omega)
    rcases d2 with ⟨e1, e2⟩ | ⟨e1, e2⟩
    · have hmid : NpSort.keyAt v t1 pm ≤ NpSort.keyAt v t1 pr := by
        have := k2
        rw [NpSort.keyAt, NpSort.keyAt, e1, e2] at this
        exact this
      rw [NpSort.keyAt, NpSort.keyAt, h2pl, e2]
      exact le_trans k1 hmid
    · rw [NpSort.keyAt, NpSort.keyAt, h2pl, e2]
      exact k1
  have hk3pmpr : NpSort.keyAt v t3 pm ≤ NpSort.keyAt v t3 pr := by
    rcases d3 with ⟨e1, e2⟩ | ⟨e1, e2⟩
    · rw [NpSort.keyAt, NpSort.keyAt, e2, h3pr]
      exact k2
    · rw [NpSort.keyAt, NpSort.keyAt, e2, h3pr]
      exact hk2plpr
  set vp := NpSort.keyAt v t3 pm with hvp
  set t4 := NpSort.lswap t3 pm (pr - 1) with ht4
  have l4 : t4.length = t.length := by rw [ht4, lswap_length, l3, l2, l1]
  have p4 : List.Perm t4 t3 := lswap_perm t3 pm (pr - 1) (by omega) (by omega)
  have o4 : ∀ p, p ≠ pm → p ≠ pr - 1 → t4.getD p 0 = t3.getD p 0 := by
    intro p hp1 hp2
    exact getD_lswap_other t3 pm (pr - 1) p hp1 hp2
  have k4piv : NpSort.keyAt v t4 (pr - 1) = vp := by
    rw [NpSort.keyAt, ht4, getD_lswap_right t3 pm (pr - 1) (by omega) (by omega)]
    rfl
  have k4pl : NpSort.keyAt v t4 pl ≤ vp := by
    rw [NpSort.keyAt, o4 pl (by omega) (by omega)]
    exact k3
  have k4pr : vp ≤ NpSort.keyAt v t4 pr := by
    rw [NpSort.keyAt, o4 pr (by omega) (by omega)]
    exact hk3pmpr
  obtain ⟨pi5, t5, hpL, q1, q2, q3, q4, q5, q6, q7, q8⟩ :=
    partLoop_ok v vp pl pr (pr + 2) t4 pl (pr - 1) (by omega) le_rfl le_rfl
      (by omega) (by omega) (by omega) (by omega)
      (by
        intro p hp1 hp2
        have hpe : p = pl := by omega
        rw [hpe]
        exact k4pl)
      (by
        intro q hq1 hq2
        by_cases hqe : q = pr - 1
        · rw [hqe, k4piv]
        · have hqe2 : q = pr := by omega
          rw [hqe2]
          exact k4pr)
      k4piv
  have hdef0 : NpSort.partitionStep v t pl pr
      = ((NpSort.partLoop v vp (pr + 2) t4 pl (pr - 1)).1,
         NpSort.lswap (NpSort.partLoop v vp (pr + 2) t4 pl (pr - 1)).2
           (NpSort.partLoop v vp (pr + 2) t4 pl (pr - 1)).1 (pr - 1)) := rfl
  rw [hpL] at hdef0
  have hpi5r : pi5 < t5.length := by
    rw [q3, l4]
    omega
  have hprr : pr - 1 < t5.length := by
    rw [q3, l4]
    omega
  refine ⟨pi5, NpSort.lswap t5 pi5 (pr - 1), hdef0, by omega, q2, ?_, ?_, ?_, ?_, ?_⟩
  · rw [lswap_length, q3, l4]
  · exact ((lswap_perm t5 pi5 (pr - 1) hpi5r hprr).trans q4).trans
      (p4.trans ((p3.trans p2).trans p1))
  · intro p hp
    rw [getD_lswap_other t5 pi5 (pr - 1) p (by omega) (by omega), q5 p hp,
      o4 p (by omega) (by omega), o3 p (by omega) (by omega), o2 p (by omega) (by omega),
      o1 p (by omega) (by omega)]
  · intro p hp1 hp2
    have hkp : NpSort.keyAt v (NpSort.lswap t5 pi5 (pr - 1)) p = NpSort.keyAt v t5 p := by
      rw [NpSort.keyAt, getD_lswap_other t5 pi5 (pr - 1) p (by omega) (by omega)]
      rfl
    have hki : NpSort.keyAt v (NpSort.lswap t5 pi5 (pr - 1)) pi5 = vp := by
      rw [NpSort.keyAt, getD_lswap_left t5 pi5 (pr - 1) hpi5r hprr]
      exact q8
    rw [hkp, hki]
    exact q6 p hp1 hp2
  · intro q hq1 hq2
    have hki : NpSort.keyAt v (NpSort.lswap t5 pi5 (pr - 1)) pi5 = vp := by
      rw [NpSort.keyAt, getD_lswap_left t5 pi5 (pr - 1) hpi5r hprr]
      exact q8
    rw [hki]
    by_cases hqe : q = pr - 1
    · rw [hqe, NpSort.keyAt, getD_lswap_right t5 pi5 (pr - 1) hpi5r hprr]
      exact q7 pi5 le_rfl (by omega)
    · rw [NpSort.keyAt, getD_lswap_other t5 pi5 (pr - 1) q (by omega) hqe]
      exact q7 q (by omega) hq2

/-! ## Segment finishers and the cross-pair transfer argument -/

theorem insertionSortSegment_ok (v : List ℚ) (t : List ℕ) (pl pr : ℕ) :
    ∃ m, NpSort.insertionSortSegment v t pl pr = t.take pl ++ m ++ t.drop (pr + 1)
      ∧ List.Perm m ((t.drop pl).take (pr + 1 - pl))
      ∧ m.Pairwise (fun x y : ℕ => v.getD x 0 ≤ v.getD y 0) := by
  haveI : IsTotal ℕ (fun x y : ℕ => v.getD x 0 ≤ v.getD y 0) := ⟨fun a b => le_total _ _⟩
  haveI : IsTrans ℕ (fun x y : ℕ => v.getD x 0 ≤ v.getD y 0) :=
    ⟨fun _ _ _ h1 h2 => le_trans h1 h2⟩
  refine ⟨((t.drop pl).take (pr + 1 - pl)).insertionSort
      (fun x y : ℕ => v.getD x 0 ≤ v.getD y 0), rfl, List.perm_insertionSort _ _,
    List.sorted_insertionSort _ _⟩

theorem pairwise_of_positional (v : List ℚ) (t : List ℕ)
    (h : ∀ p q, p < q → q < t.length → NpSort.keyAt v t p ≤ NpSort.keyAt v t q) :
    t.Pairwise (fun x y : ℕ => v.getD x 0 ≤ v.getD y 0) := by
  rw [List.pairwise_iff_getElem]
  intro i j hi hj hij
  have h2 := h i j hij hj
  rw [NpSort.keyAt, NpSort.keyAt, List.getD_eq_getElem t 0 hi,
    List.getD_eq_getElem t 0 hj] at h2
  exact h2

theorem positional_of_pairwise (v : List ℚ) (m : List ℕ)
    (hm : m.Pairwise (fun x y : ℕ => v.getD x 0 ≤ v.getD y 0)) :
    ∀ i j, i < j → j < m.length → v.getD (m.getD i 0) 0 ≤ v.getD (m.getD j 0) 0 := by
  intro i j hij hj
  have h2 := List.pairwise_iff_getElem.mp hm i j (by omega) hj hij
  rw [List.getD_eq_getElem m 0 (by omega), List.getD_eq_getElem m 0 hj]
  exact h2

theorem cross_transfer (v : List ℚ) (t t2 : List ℕ) (pl pr : ℕ) (stack : List (ℕ × ℕ))
    (hlen : t2.length = t.length) (hpr : pr < t.length) (hple : pl ≤ pr)
    (hout : ∀ p, p < pl ∨ pr < p → t2.getD p 0 = t.getD p 0)
    (hmid : List.Perm ((t2.drop pl).take (pr + 1 - pl)) ((t.drop pl).take (pr + 1 - pl)))
    (hdisj : ∀ s ∈ stack, s.2 < pl ∨ pr < s.1)
    (hcross : ∀ p q, p < q → q < t.length →
      (∀ s ∈ (pl, pr) :: stack, ¬ (s.1 ≤ p ∧ q ≤ s.2)) →
      NpSort.keyAt v t p ≤ NpSort.keyAt v t q) :
    ∀ p q, p < q → q < t.length →
      (∀ s ∈ stack, ¬ (s.1 ≤ p ∧ q ≤ s.2)) → ¬ (pl ≤ p ∧ q ≤ pr) →
      NpSort.keyAt v t2 p ≤ NpSort.keyAt v t2 q := by
  have htrans : ∀ r, r < t.length → ∃ r2, r2 < t.length
      ∧ NpSort.keyAt v t2 r = NpSort.keyAt v t r2
      ∧ ((pl ≤ r ∧ r ≤ pr) → (pl ≤ r2 ∧ r2 ≤ pr))
      ∧ (¬ (pl ≤ r ∧ r ≤ pr) → r2 = r) := by
    intro r hr
    by_cases hrseg : pl ≤ r ∧ r ≤ pr
    · have hpr2 : pr < t2.length := by omega
      have h1 : t2.getD r 0 = ((t2.drop pl).take (pr + 1 - pl)).getD (r - pl) 0 :=
        (getD_slice t2 0 pl pr r hrseg.1 hrseg.2 hpr2).symm
      have hsl : ((t2.drop pl).take (pr + 1 - pl)).length = pr + 1 - pl :=
        slice_length t2 pl pr hpr2 hple
      have hmem : ((t2.drop pl).take (pr + 1 - pl)).getD (r - pl) 0
          ∈ (t2.drop pl).take (pr + 1 - pl) := by
        rw [List.getD_eq_getElem _ 0 (by omega)]
        exact List.getElem_mem _
      have hmem2 : ((t2.drop pl).take (pr + 1 - pl)).getD (r - pl) 0
          ∈ (t.drop pl).take (pr + 1 - pl) := hmid.mem_iff.mp hmem
      obtain ⟨r2, hr21, hr22, hr2eq⟩ :=
        mem_slice t 0 pl pr _ hmem2 hpr hple
      refine ⟨r2, by omega, ?_, fun _ => ⟨hr21, hr22⟩, fun hc => absurd hrseg hc⟩
      rw [NpSort.keyAt, NpSort.keyAt, h1, hr2eq]
    · refine ⟨r, hr, ?_, fun hc => absurd hc hrseg, fun _ => rfl⟩
      rw [NpSort.keyAt, NpSort.keyAt, hout r (by omega)]
  intro p q hpq hq hst hseg
  obtain ⟨p2, hp2len, hp2k, hp2in, hp2out⟩ := htrans p (by omega)
  obtain ⟨q2, hq2len, hq2k, hq2in, hq2out⟩ := htrans q hq
  rw [hp2k, hq2k]
  by_cases hpin : pl ≤ p ∧ p ≤ pr
  · by_cases hqin : pl ≤ q ∧ q ≤ pr
    · exact absurd ⟨hpin.1, hqin.2⟩ hseg
    · -- p in the segment, q beyond it (q > pr since p < q and p ≥ pl)
      have hqgt : pr < q := by omega
      have hq2e : q2 = q := hq2out hqin
      obtain ⟨hp21, hp22⟩ := hp2in hpin
      apply hcross p2 q2 (by omega) (by omega)
      intro s hs
      rcases List.mem_cons.mp hs with hs1 | hs2
      · rw [hs1]
        intro hcon
        omega
      · rcases hdisj s hs2 with hd | hd
        · intro hcon
          omega
        · intro hcon
          omega
  · have hp2e : p2 = p := hp2out hpin
    by_cases hqin : pl ≤ q ∧ q ≤ pr
    · -- q in the segment, p before it (p < pl)
      have hplt : p < pl := by omega
      obtain ⟨hq21, hq22⟩ := hq2in hqin
      apply hcross p2 q2 (by omega) (by omega)
      intro s hs
      rcases List.mem_cons.mp hs with hs1 | hs2
      · rw [hs1]
        intro hcon
        omega
      · rcases hdisj s hs2 with hd | hd
        · intro hcon
          omega
        · intro hcon
          omega
    · have hq2e : q2 = q := hq2out hqin
      apply hcross p2 q2 (by omega) (by omega)
      intro s hs
      rcases List.mem_cons.mp hs with hs1 | hs2
      · rw [hs1]
        intro hcon
        omega
      · intro hcon
        rw [hp2e, hq2e] at hcon
        exact hst s hs2 hcon

/-! ## Heapsort fallback: sift-down -/

theorem take_transposition {α : Type} (l : List α) (d : α) (p q n : ℕ) (hpq : p ≠ q)
    (hp : p < n) (hq : q < n) (hn : n ≤ l.length) (u w : α) :
    List.Perm (((l.set p u).set q w).take n) (((l.set p w).set q u).take n) := by
  rw [List.set_take, List.set_take, List.set_take, List.set_take]
  set L := l.take n with hL
  have hpL : p < L.length := by rw [hL, List.length_take]; omega
  have hqL : q < L.length := by rw [hL, List.length_take]; omega
  have hgq : ((L.set p u).set q w).getD q d = w :=
    getD_set_self _ q w d (by simpa using hqL)
  have hgp : ((L.set p u).set q w).getD p d = u := by
    rw [getD_set_ne _ _ _ _ _ hpq, getD_set_self _ p u d hpL]
  have hN : (L.set p w).set q u
      = (((L.set p u).set q w).set p (((L.set p u).set q w).getD q d)).set q
          (((L.set p u).set q w).getD p d) := by
    rw [hgq, hgp]
    apply List.ext_getElem
    · simp
    · intro k h1 h2
      by_cases hkp : k = p
      · subst hkp
        rw [List.getElem_set_ne (fun e => hpq e.symm), List.getElem_set_self,
          List.getElem_set_ne (fun e => hpq e.symm), List.getElem_set_self]
      · by_cases hkq : k = q
        · subst hkq
          rw [List.getElem_set_self, List.getElem_set_self]
        · rw [List.getElem_set_ne (fun e => hkq e.symm),
            List.getElem_set_ne (fun e => hkp e.symm),
            List.getElem_set_ne (fun e => hkq e.symm),
            List.getElem_set_ne (fun e => hkp e.symm),
            List.getElem_set_ne (fun e => hkq e.symm),
            List.getElem_set_ne (fun e => hkp e.symm)]
  rw [hN]
  exact (set_set_perm ((L.set p u).set q w) d p q (by simpa using hpL)
    (by simpa using hqL)).symm

theorem siftLoop_ok (v : List ℚ) (tmp n l : ℕ) (hl : 1 ≤ l) :
    ∀ (fuel : ℕ) (a : List ℕ) (i j : ℕ),
      l ≤ i → i ≤ n → j = 2 * i → n ≤ a.length → n < fuel + i →
      (∀ j2, 2 ≤ j2 → j2 ≤ n → l ≤ j2 / 2 → j2 / 2 ≠ i →
        v.getD (a.getD (j2 - 1) 0) 0 ≤ v.getD (a.getD (j2 / 2 - 1) 0) 0) →
      (l < i → v.getD tmp 0 ≤ v.getD (a.getD (i / 2 - 1) 0) 0) →
      (l < i → ∀ c, c / 2 = i → c ≤ n →
        v.getD (a.getD (c - 1) 0) 0 ≤ v.getD (a.getD (i / 2 - 1) 0) 0) →
      ∃ r, NpSort.siftLoop v tmp n fuel a i j = r
        ∧ r.length = a.length
        ∧ (∀ p, p < i - 1 ∨ n ≤ p → r.getD p 0 = a.getD p 0)
        ∧ List.Perm (r.take n) ((a.set (i - 1) tmp).take n)
        ∧ (∀ j2, 2 ≤ j2 → j2 ≤ n → l ≤ j2 / 2 →
            v.getD (r.getD (j2 - 1) 0) 0 ≤ v.getD (r.getD (j2 / 2 - 1) 0) 0) := by
  intro fuel
  induction fuel with
  | zero =>
    intro a i j hli hin hj hna hfuel h1 h2 h3
    omega
  | succ fuel ih =>
    intro a i j hli hin hj hna hfuel h1 h2 h3
    have hi1 : 1 ≤ i := le_trans hl hli
    have hexit : (∀ j2, 2 ≤ j2 → j2 ≤ n → j2 / 2 = i →
          v.getD (a.getD (j2 - 1) 0) 0 ≤ v.getD tmp 0) →
        ∃ r, a.set (i - 1) tmp = r
          ∧ r.length = a.length
          ∧ (∀ p, p < i - 1 ∨ n ≤ p → r.getD p 0 = a.getD p 0)
          ∧ List.Perm (r.take n) ((a.set (i - 1) tmp).take n)
          ∧ (∀ j2, 2 ≤ j2 → j2 ≤ n → l ≤ j2 / 2 →
              v.getD (r.getD (j2 - 1) 0) 0 ≤ v.getD (r.getD (j2 / 2 - 1) 0) 0) := by
      intro hchild
      refine ⟨a.set (i - 1) tmp, rfl, by simp, ?_, List.Perm.refl _, ?_⟩
      · intro p hp
        exact getD_set_ne a (i - 1) p tmp 0 (by omega)
      · intro j2 hj2a hj2b hj2c
        by_cases hcase : j2 = i
        · have hi2 : 2 ≤ i := by omega
          have hpar : i / 2 ≠ i := by omega
          have hlpi : l < i := by
            rw [hcase] at hj2c
            omega
        -- node i now holds tmp; its parent is unchanged
          rw [hcase, getD_set_self a (i - 1) tmp 0 (by omega),
            getD_set_ne a (i - 1) (i / 2 - 1) tmp 0 (by omega)]
          exact h2 hlpi
        · by_cases hcase2 : j2 / 2 = i
          · rw [hcase2, getD_set_ne a (i - 1) (j2 - 1) tmp 0 (by omega),
              getD_set_self a (i - 1) tmp 0 (by omega)]
            exact hchild j2 hj2a hj2b hcase2
          · rw [getD_set_ne a (i - 1) (j2 - 1) tmp 0 (by omega),
              getD_set_ne a (i - 1) (j2 / 2 - 1) tmp 0 (by
                have : 1 ≤ j2 / 2 := by omega
                omega)]
            exact h1 j2 hj2a hj2b hj2c hcase2
    by_cases hjn : j ≤ n
    · set jb := (if j < n ∧ v.getD (a.getD (j - 1) 0) 0 < v.getD (a.getD j 0) 0
        then j + 1 else j) with hjb
      have hstep0 : NpSort.siftLoop v tmp n (fuel + 1) a i j
          = (if j ≤ n then
              (if v.getD tmp 0 < v.getD (a.getD (jb - 1) 0) 0 then
                NpSort.siftLoop v tmp n fuel (a.set (i - 1) (a.getD (jb - 1) 0)) jb (jb + jb)
              else a.set (i - 1) tmp)
            else a.set (i - 1) tmp) := by
        rw [hjb]
        rfl
      have hstep := hstep0.trans (if_pos hjn)
      have hjbor : jb = j ∨ jb = j + 1 := by
        rw [hjb]
        by_cases hb : j < n ∧ v.getD (a.getD (j - 1) 0) 0 < v.getD (a.getD j 0) 0
        · rw [if_pos hb]
          exact Or.inr rfl
        · rw [if_neg hb]
          exact Or.inl rfl
      have hjbn : jb ≤ n := by
        rw [hjb]
        by_cases hb : j < n ∧ v.getD (a.getD (j - 1) 0) 0 < v.getD (a.getD j 0) 0
        · rw [if_pos hb]
          omega
        · rw [if_neg hb]
          exact hjn
      have hjb2 : jb / 2 = i := by
        rcases hjbor with he | he <;> omega
      have hsib : ∀ j2, j2 / 2 = i → j2 ≤ n →
          v.getD (a.getD (j2 - 1) 0) 0 ≤ v.getD (a.getD (jb - 1) 0) 0 := by
        intro j2 hj2i hj2n
        have hj2or : j2 = 2 * i ∨ j2 = 2 * i + 1 := by omega
        by_cases hb : j < n ∧ v.getD (a.getD (j - 1) 0) 0 < v.getD (a.getD j 0) 0
        · have hjbe : jb = j + 1 := by rw [hjb, if_pos hb]
          rcases hj2or with he | he
          · rw [hjbe]
            have hidx : j + 1 - 1 = j := by omega
            rw [hidx]
            have hidx2 : j2 - 1 = j - 1 := by omega
            rw [hidx2]
            exact le_of_lt hb.2
          · have : j2 = jb := by omega
            rw [this]
        · have hjbe : jb = j := by rw [hjb, if_neg hb]
          rcases hj2or with he | he
          · have : j2 = jb := by omega
            rw [this]
          · have hj2j : j2 = j + 1 := by omega
            have hjlt : j < n := by omega
            have hnotlt : ¬ v.getD (a.getD (j - 1) 0) 0 < v.getD (a.getD j 0) 0 := by
              intro hcon
              exact hb ⟨hjlt, hcon⟩
            rw [hjbe, hj2j]
            have hidx : j + 1 - 1 = j := by omega
            rw [hidx]
            exact not_lt.mp hnotlt
      by_cases hmv : v.getD tmp 0 < v.getD (a.getD (jb - 1) 0) 0
      · -- move the larger child up into the hole, recurse at the child
        rw [if_pos hmv] at hstep
        have hib : i < jb := by omega
        have hvai : (a.set (i - 1) (a.getD (jb - 1) 0)).getD (i - 1) 0
            = a.getD (jb - 1) 0 := getD_set_self a (i - 1) _ 0 (by omega)
        have hva : ∀ k, k ≠ i - 1 →
            (a.set (i - 1) (a.getD (jb - 1) 0)).getD k 0 = a.getD k 0 :=
          fun k hk => getD_set_ne a (i - 1) k _ 0 hk
        obtain ⟨r, hreq, hrlen, hrframe, hrperm, hrheap⟩ :=
          ih (a.set (i - 1) (a.getD (jb - 1) 0)) jb (jb + jb) (by omega) hjbn
            (by omega) (by simpa using hna) (by omega)
            (by
              intro j2 hj2a hj2b hj2c hj2d
              by_cases hcase : j2 = i
              · have hi2 : 2 ≤ i := by omega
                have hlpi : l < i := by
                  rw [hcase] at hj2c
                  omega
                rw [hcase, hvai, hva (i / 2 - 1) (by omega)]
                exact h3 hlpi jb hjb2 hjbn
              · by_cases hcase2 : j2 / 2 = i
                · rw [hcase2, hvai, hva (j2 - 1) (by omega)]
                  exact hsib j2 hcase2 hj2b
                · rw [hva (j2 - 1) (by omega), hva (j2 / 2 - 1) (by
                    have : 1 ≤ j2 / 2 := by omega
                    omega)]
                  exact h1 j2 hj2a hj2b hj2c hcase2)
            (by
              intro _
              rw [hjb2, hvai]
              exact le_of_lt hmv)
            (by
              intro _ c hc hcn
              have hci : c ≠ i := by omega
              rw [hjb2, hvai, hva (c - 1) (by omega)]
              have := h1 c (by omega) hcn (by omega) (by omega)
              rw [hc] at this
              exact this)
        refine ⟨r, by rw [hstep, hreq], by simpa using hrlen, ?_, ?_, hrheap⟩
        · intro p hp
          rw [hrframe p (by omega), hva p (by omega)]
        · have hx : (a.set (i - 1) tmp).getD (jb - 1) 0 = a.getD (jb - 1) 0 :=
            getD_set_ne a (i - 1) (jb - 1) tmp 0 (by omega)
          have hcollapse : ((a.set (i - 1) tmp).set (jb - 1) (a.getD (jb - 1) 0))
              = a.set (i - 1) tmp := by
            rw [← hx]
            exact set_getD_self (a.set (i - 1) tmp) (jb - 1) 0 (by simp; omega)
          have htp := take_transposition a 0 (i - 1) (jb - 1) n (by omega)
            (by omega) (by omega) hna (a.getD (jb - 1) 0) tmp
          rw [hcollapse] at htp
          exact hrperm.trans htp
      · rw [if_neg hmv] at hstep
        obtain ⟨r, hreq, hrest⟩ := hexit (by
          intro j2 hj2a hj2b hj2c
          exact le_trans (hsib j2 hj2c hj2b) (not_lt.mp hmv))
        exact ⟨r, by rw [hstep, hreq], hrest⟩
    · have hstep : NpSort.siftLoop v tmp n (fuel + 1) a i j = a.set (i - 1) tmp := by
        unfold NpSort.siftLoop
        rw [if_neg hjn]
      obtain ⟨r, hreq, hrest⟩ := hexit (by
        intro j2 hj2a hj2b hj2c
        omega)
      exact ⟨r, by rw [hstep, hreq], hrest⟩

/-! ## Heapsort fallback: build, extract, and the segment wrapper -/

theorem heapBuild_ok (v : List ℚ) (n : ℕ) :
    ∀ (l : ℕ) (a : List ℕ), n ≤ a.length → 2 * l ≤ n →
      (∀ j2, 2 ≤ j2 → j2 ≤ n → l < j2 / 2 →
        v.getD (a.getD (j2 - 1) 0) 0 ≤ v.getD (a.getD (j2 / 2 - 1) 0) 0) →
      ∃ r, NpSort.heapBuild v n l a = r
        ∧ r.length = a.length
        ∧ (∀ p, n ≤ p → r.getD p 0 = a.getD p 0)
        ∧ List.Perm (r.take n) (a.take n)
        ∧ (∀ j2, 2 ≤ j2 → j2 ≤ n →
            v.getD (r.getD (j2 - 1) 0) 0 ≤ v.getD (r.getD (j2 / 2 - 1) 0) 0) := by
  intro l
  induction l with
  | zero =>
    intro a hna _ hhb
    exact ⟨a, rfl, rfl, fun _ _ => rfl, List.Perm.refl _, fun j2 ha hb =>
      hhb j2 ha hb (by omega)⟩
  | succ l ih =>
    intro a hna h2l hhb
    obtain ⟨r1, hs1, hs2, hs3, hs4, hs5⟩ :=
      siftLoop_ok v (a.getD l 0) n (l + 1) (by omega) (n + 2) a (l + 1) (2 * (l + 1))
        le_rfl (by omega) rfl hna (by omega)
        (by
          intro j2 ha hb hc hd
          exact hhb j2 ha hb (by omega))
        (fun hcon => absurd hcon (lt_irrefl _))
        (fun hcon => absurd hcon (lt_irrefl _))
    obtain ⟨r, hr1, hr2, hr3, hr4, hr5⟩ :=
      ih r1 (by omega) (by omega)
        (by
          intro j2 ha hb hc
          exact hs5 j2 ha hb (by omega))
    have hstep : NpSort.heapBuild v n (l + 1) a
        = NpSort.heapBuild v n l
            (NpSort.siftLoop v (a.getD l 0) n (n + 2) a (l + 1) (2 * (l + 1))) := rfl
    rw [hs1] at hstep
    refine ⟨r, hstep.trans hr1, hr2.trans hs2, ?_, ?_, hr5⟩
    · intro p hp
      rw [hr3 p hp, hs3 p (Or.inr hp)]
    · have hcoll : (a.set (l + 1 - 1) (a.getD l 0)).take n = a.take n := by
        have he : l + 1 - 1 = l := by omega
        rw [he, set_getD_self a l 0 (by omega)]
      rw [hcoll] at hs4
      exact hr4.trans hs4

theorem heap_root_max (v : List ℚ) (a : List ℕ) (n : ℕ)
    (hheap : ∀ j2, 2 ≤ j2 → j2 ≤ n →
      v.getD (a.getD (j2 - 1) 0) 0 ≤ v.getD (a.getD (j2 / 2 - 1) 0) 0) :
    ∀ j, 1 ≤ j → j ≤ n → v.getD (a.getD (j - 1) 0) 0 ≤ v.getD (a.getD 0 0) 0 := by
  have hk : ∀ (k : ℕ) (j : ℕ), j ≤ k → 1 ≤ j → j ≤ n →
      v.getD (a.getD (j - 1) 0) 0 ≤ v.getD (a.getD 0 0) 0 := by
    intro k
    induction k with
    | zero =>
      intro j h1 h2 _
      omega
    | succ k ih =>
      intro j h1 h2 h3
      by_cases hj : j = 1
      · rw [hj]
      · have hj2 : 2 ≤ j := by omega
        refine le_trans (hheap j hj2 h3) ?_
        exact ih (j / 2) (by omega) (by omega) (by omega)
  intro j
  exact hk j j le_rfl

theorem heapExtract_ok (v : List ℚ) (N : ℕ) :
    ∀ (fuel n : ℕ) (a : List ℕ), a.length = N → n ≤ N → n ≤ fuel →
      (∀ j2, 2 ≤ j2 → j2 ≤ n →
        v.getD (a.getD (j2 - 1) 0) 0 ≤ v.getD (a.getD (j2 / 2 - 1) 0) 0) →
      (∀ p q, n ≤ p → p < q → q < N → v.getD (a.getD p 0) 0 ≤ v.getD (a.getD q 0) 0) →
      (∀ p q, p < n → n ≤ q → q < N → v.getD (a.getD p 0) 0 ≤ v.getD (a.getD q 0) 0) →
      ∃ r, NpSort.heapExtract v fuel n a = r
        ∧ r.length = N
        ∧ List.Perm r a
        ∧ (∀ p q, p < q → q < N → v.getD (r.getD p 0) 0 ≤ v.getD (r.getD q 0) 0) := by
  intro fuel
  induction fuel with
  | zero =>
    intro n a haN hnN hnf hheap hsuf hbr
    have hn0 : n = 0 := by omega
    refine ⟨a, rfl, haN, List.Perm.refl a, ?_⟩
    intro p q hpq hq
    exact hsuf p q (by omega) hpq hq
  | succ fuel ih =>
    intro n a haN hnN hnf hheap hsuf hbr
    by_cases hn1 : n ≤ 1
    · have hstep : NpSort.heapExtract v (fuel + 1) n a = a := by
        have h0 : NpSort.heapExtract v (fuel + 1) n a
            = (if n ≤ 1 then a else NpSort.heapExtract v fuel (n - 1)
                (NpSort.siftLoop v (a.getD (n - 1) 0) (n - 1) ((n - 1) + 2)
                  (a.set (n - 1) (a.getD 0 0)) 1 2)) := rfl
        rw [h0, if_pos hn1]
      refine ⟨a, hstep, haN, List.Perm.refl a, ?_⟩
      intro p q hpq hq
      by_cases hp : p < n
      · exact hbr p q hp (by omega) hq
      · exact hsuf p q (by omega) hpq hq
    · have hn2 : 2 ≤ n := by omega
      have hroot := heap_root_max v a n hheap
      set a2 := a.set (n - 1) (a.getD 0 0) with ha2
      have ha2len : a2.length = N := by rw [ha2, List.length_set, haN]
      have ha2out : ∀ p, p ≠ n - 1 → a2.getD p 0 = a.getD p 0 := by
        intro p hp
        rw [ha2, getD_set_ne a (n - 1) p _ 0 hp]
      have ha2at : a2.getD (n - 1) 0 = a.getD 0 0 := by
        rw [ha2, getD_set_self a (n - 1) _ 0 (by omega)]
      obtain ⟨r1, hs1, hs2, hs3, hs4, hs5⟩ :=
        siftLoop_ok v (a.getD (n - 1) 0) (n - 1) 1 le_rfl ((n - 1) + 2) a2 1 2
          le_rfl (by omega) rfl (by omega) (by omega)
          (by
            intro j2 ha' hb' hc' hd'
            rw [ha2out (j2 - 1) (by omega), ha2out (j2 / 2 - 1) (by
              have : 1 ≤ j2 / 2 := by omega
              omega)]
            exact hheap j2 ha' (by omega))
          (fun hcon => absurd hcon (lt_irrefl _))
          (fun hcon => absurd hcon (lt_irrefl _))
      -- value-level view of the sifted prefix
      have hmemval : ∀ p, p < n - 1 → ∃ jj, 1 ≤ jj ∧ jj ≤ n
          ∧ r1.getD p 0 = a.getD (jj - 1) 0 := by
        intro p hp
        have hr1len : r1.length = N := hs2.trans ha2len
        have hp1 : r1.getD p 0 ∈ r1.take (n - 1) := by
          have he : (r1.take (n - 1)).getD p 0 = r1.getD p 0 := by
            rw [List.getD_eq_getElem _ 0 (by rw [List.length_take]; omega),
              List.getElem_take, ← List.getD_eq_getElem r1 0 (by omega)]
          rw [← he, List.getD_eq_getElem _ 0 (by rw [List.length_take]; omega)]
          exact List.getElem_mem _
        have hp2 : r1.getD p 0 ∈ (a2.set 0 (a.getD (n - 1) 0)).take (n - 1) := by
          have hs4' := hs4
          have he : (1 : ℕ) - 1 = 0 := rfl
          rw [he] at hs4'
          exact hs4'.mem_iff.mp hp1
        obtain ⟨i2, hi2, hi2eq⟩ := List.getElem_of_mem hp2
        have hi2len : i2 < n - 1 := by
          have := hi2
          rw [List.length_take, List.length_set] at this
          omega
        by_cases hi20 : i2 = 0
        · subst hi20
          refine ⟨n, by omega, le_rfl, ?_⟩
          rw [← hi2eq, List.getElem_take,
            ← List.getD_eq_getElem _ 0 (by rw [List.length_set]; omega),
            getD_set_self a2 0 _ 0 (by omega)]
        · refine ⟨i2 + 1, by omega, by omega, ?_⟩
          rw [← hi2eq, List.getElem_take,
            ← List.getD_eq_getElem _ 0 (by rw [List.length_set]; omega),
            getD_set_ne a2 0 i2 _ 0 hi20, ha2out i2 (by omega)]
          simp
      obtain ⟨r, hr1, hr2, hr3, hr4⟩ :=
        ih (n - 1) r1 (by rw [hs2, ha2len]) (by omega) (by omega)
          (by
            intro j2 ha' hb'
            exact hs5 j2 ha' hb' (by omega))
          (by
            intro p q hp hpq hq
            by_cases hpn : p = n - 1
            · have hq2 : n ≤ q := by omega
              rw [hpn, hs3 (n - 1) (Or.inr (by omega)), ha2at,
                hs3 q (Or.inr (by omega)), ha2out q (by omega)]
              exact hbr 0 q (by omega) hq2 hq
            · have hpn2 : n ≤ p := by omega
              rw [hs3 p (Or.inr (by omega)), ha2out p (by omega),
                hs3 q (Or.inr (by omega)), ha2out q (by omega)]
              exact hsuf p q hpn2 hpq hq)
          (by
            intro p q hp hq hqN
            obtain ⟨jj, hjj1, hjj2, hjjeq⟩ := hmemval p hp
            by_cases hqn : q = n - 1
            · rw [hqn, hs3 (n - 1) (Or.inr (by omega)), ha2at, hjjeq]
              exact hroot jj hjj1 hjj2
            · have hq2 : n ≤ q := by omega
              rw [hs3 q (Or.inr (by omega)), ha2out q (by omega), hjjeq]
              exact hbr (jj - 1) q (by omega) hq2 hqN)
      have hstep : NpSort.heapExtract v (fuel + 1) n a
          = NpSort.heapExtract v fuel (n - 1)
              (NpSort.siftLoop v (a.getD (n - 1) 0) (n - 1) ((n - 1) + 2) a2 1 2) := by
        have h0 : NpSort.heapExtract v (fuel + 1) n a
            = (if n ≤ 1 then a else NpSort.heapExtract v fuel (n - 1)
                (NpSort.siftLoop v (a.getD (n - 1) 0) (n - 1) ((n - 1) + 2)
                  (a.set (n - 1) (a.getD 0 0)) 1 2)) := rfl
        rw [h0, if_neg hn1, ha2]
      rw [hs1] at hstep
      refine ⟨r, hstep.trans hr1, hr2, ?_, hr4⟩
      -- r ~ r1 ~ a2.set 0 tmp ~ a
      have hdropeq : r1.drop (n - 1) = (a2.set 0 (a.getD (n - 1) 0)).drop (n - 1) := by
        apply List.ext_getElem
        · rw [List.length_drop, List.length_drop, List.length_set, hs2, ha2len]
        · intro k h1 h2
          rw [List.length_drop] at h1 h2
          rw [List.getElem_drop, List.getElem_drop,
            ← List.getD_eq_getElem r1 0 (by omega),
            ← List.getD_eq_getElem _ 0 (by omega),
            hs3 (n - 1 + k) (Or.inr (by omega)),
            getD_set_ne a2 0 (n - 1 + k) _ 0 (by omega)]
      have hperm1 : List.Perm r1 (a2.set 0 (a.getD (n - 1) 0)) := by
        have hsplit : r1 = r1.take (n - 1) ++ r1.drop (n - 1) :=
          (List.take_append_drop (n - 1) r1).symm
        have hsplit2 : a2.set 0 (a.getD (n - 1) 0)
            = (a2.set 0 (a.getD (n - 1) 0)).take (n - 1)
              ++ (a2.set 0 (a.getD (n - 1) 0)).drop (n - 1) :=
          (List.take_append_drop (n - 1) _).symm
        rw [hsplit, hsplit2, ← hdropeq]
        have hs4' := hs4
        have he : (1 : ℕ) - 1 = 0 := rfl
        rw [he] at hs4'
        exact hs4'.append_right _
      have hperm2 : List.Perm (a2.set 0 (a.getD (n - 1) 0)) a := by
        rw [ha2]
        exact set_set_perm a 0 (n - 1) 0 (by omega) (by omega)
      exact (hr3.trans hperm1).trans hperm2

theorem npHeapsortSeg_ok (v : List ℚ) (t : List ℕ) (pl pr : ℕ)
    (hpr : pr < t.length) (hple : pl ≤ pr) :
    ∃ m, NpSort.npHeapsortSeg v t pl pr = t.take pl ++ m ++ t.drop (pr + 1)
      ∧ List.Perm m ((t.drop pl).take (pr + 1 - pl))
      ∧ m.Pairwise (fun x y : ℕ => v.getD x 0 ≤ v.getD y 0) := by
  set seg := (t.drop pl).take (pr + 1 - pl) with hseg
  set N := seg.length with hN
  obtain ⟨b, hb1, hb2, hb3, hb4, hb5⟩ :=
    heapBuild_ok v N (N / 2) seg le_rfl (by omega)
      (by
        intro j2 h1 h2 h3
        omega)
  obtain ⟨m, hm1, hm2, hm3, hm4⟩ :=
    heapExtract_ok v N (N + 1) N b (hb2.trans rfl) le_rfl (by omega) hb5
      (by
        intro p q h1 h2 h3
        omega)
      (by
        intro p q h1 h2 h3
        omega)
  have hdef : NpSort.npHeapsortSeg v t pl pr
      = t.take pl ++ NpSort.heapExtract v (N + 1) N (NpSort.heapBuild v N (N / 2) seg)
          ++ t.drop (pr + 1) := by
    rw [hN, hseg]
    rfl
  rw [hb1, hm1] at hdef
  have hbfull : b.take N = b := by
    have : b.length = N := hb2.trans rfl
    rw [← this, List.take_length]
  have hsegfull : seg.take N = seg := by
    rw [hN, List.take_length]
  refine ⟨m, hdef, ?_, ?_⟩
  · rw [hbfull, hsegfull] at hb4
    exact hm3.trans hb4
  · have hlen : m.length = N := by rw [hm3.length_eq, hb2]
    rw [List.pairwise_iff_getElem]
    intro i j hi hj hij
    have h2 := hm4 i j hij (by omega)
    rw [List.getD_eq_getElem m 0 hi, List.getD_eq_getElem m 0 hj] at h2
    exact h2

/-! ## Assembling the introsort main loop -/

theorem getD_oob {α : Type} (l : List α) (p : ℕ) (d : α) (h : l.length ≤ p) :
    l.getD p d = d := by
  rw [List.getD_eq_getElem?_getD, List.getElem?_eq_none h]
  rfl

theorem slice_perm_of_outside_eq (t t2 : List ℕ) (pl pr : ℕ) (hpr : pr < t.length)
    (hple : pl ≤ pr) (hlen : t2.length = t.length)
    (hout : ∀ p, p < pl ∨ pr < p → t2.getD p 0 = t.getD p 0)
    (hperm : List.Perm t2 t) :
    List.Perm ((t2.drop pl).take (pr + 1 - pl)) ((t.drop pl).take (pr + 1 - pl)) := by
  have htake : t2.take pl = t.take pl := by
    apply List.ext_getElem
    · rw [List.length_take, List.length_take, hlen]
    · intro k h1 h2
      rw [List.length_take] at h1
      rw [List.getElem_take, List.getElem_take,
        ← List.getD_eq_getElem t2 0 (by omega), ← List.getD_eq_getElem t 0 (by omega)]
      exact hout k (Or.inl (by omega))
  have hdrop : t2.drop (pr + 1) = t.drop (pr + 1) := by
    apply List.ext_getElem
    · rw [List.length_drop, List.length_drop, hlen]
    · intro k h1 h2
      rw [List.length_drop] at h1
      rw [List.getElem_drop, List.getElem_drop,
        ← List.getD_eq_getElem t2 0 (by omega), ← List.getD_eq_getElem t 0 (by omega)]
      exact hout (pr + 1 + k) (Or.inr (by omega))
  have h1 := slice_decomp t2 pl pr (by omega)
  have h2 := slice_decomp t pl pr (by omega)
  have hperm2 := hperm
  rw [← h1, ← h2, htake, hdrop] at hperm2
  exact (List.perm_append_left_iff _).mp ((List.perm_append_right_iff _).mp hperm2)

theorem finish_segment_cross (v : List ℚ) (t : List ℕ) (pl pr : ℕ)
    (stack : List (ℕ × ℕ)) (hpr : pr < t.length) (hple : pl ≤ pr) (m : List ℕ)
    (hmperm : List.Perm m ((t.drop pl).take (pr + 1 - pl)))
    (hmsort : m.Pairwise (fun x y : ℕ => v.getD x 0 ≤ v.getD y 0))
    (hdisj : ∀ s ∈ stack, s.2 < pl ∨ pr < s.1)
    (hcross : ∀ p q, p < q → q < t.length →
      (∀ s ∈ (pl, pr) :: stack, ¬ (s.1 ≤ p ∧ q ≤ s.2)) →
      NpSort.keyAt v t p ≤ NpSort.keyAt v t q) :
    ∀ p q, p < q → q < t.length →
      (∀ s ∈ stack, ¬ (s.1 ≤ p ∧ q ≤ s.2)) →
      NpSort.keyAt v (t.take pl ++ m ++ t.drop (pr + 1)) p
        ≤ NpSort.keyAt v (t.take pl ++ m ++ t.drop (pr + 1)) q := by
  have hmlen : m.length = pr + 1 - pl := by
    rw [hmperm.length_eq, slice_length t pl pr hpr hple]
  have hclen : (t.take pl ++ m ++ t.drop (pr + 1)).length = t.length :=
    comp_length t m pl pr hpr hple hmlen
  have hout : ∀ p, p < pl ∨ pr < p →
      (t.take pl ++ m ++ t.drop (pr + 1)).getD p 0 = t.getD p 0 := by
    intro p hp
    by_cases hplen : p < t.length
    · rcases hp with hp | hp
      · exact comp_getD_left t m 0 pl pr p hpr hple hmlen hp
      · exact comp_getD_right t m 0 pl pr p hpr hple hmlen hp hplen
    · rw [getD_oob _ p 0 (by omega), getD_oob t p 0 (by omega)]
  have hmid : (((t.take pl ++ m ++ t.drop (pr + 1)).drop pl).take (pr + 1 - pl)) = m := by
    have htl : (t.take pl).length = pl := by
      rw [List.length_take]
      omega
    rw [List.append_assoc, List.drop_left' htl, List.take_left' hmlen]
  intro p q hpq hq hst
  by_cases hboth : pl ≤ p ∧ q ≤ pr
  · have hkp : NpSort.keyAt v (t.take pl ++ m ++ t.drop (pr + 1)) p
        = v.getD (m.getD (p - pl) 0) 0 := by
      rw [NpSort.keyAt, comp_getD_mid t m 0 pl pr p hpr hple hmlen hboth.1 (by omega)]
    have hkq : NpSort.keyAt v (t.take pl ++ m ++ t.drop (pr + 1)) q
        = v.getD (m.getD (q - pl) 0) 0 := by
      rw [NpSort.keyAt, comp_getD_mid t m 0 pl pr q hpr hple hmlen (by omega) hboth.2]
    rw [hkp, hkq]
    exact positional_of_pairwise v m hmsort (p - pl) (q - pl) (by omega) (by omega)
  · exact cross_transfer v t (t.take pl ++ m ++ t.drop (pr + 1)) pl pr stack hclen hpr hple
      hout (by rw [hmid]; exact hmperm) hdisj hcross p q hpq hq hst hboth

theorem quickLoop_succ_eq (v : List ℚ) (fuel : ℕ) (t : List ℕ) (pl pr : ℕ)
    (stack : List (ℕ × ℕ)) (depth : ℤ) :
    NpSort.quickLoop v (fuel + 1) t pl pr stack depth
      = (if 15 < pr - pl then
          (if depth < 0 then
            (match stack with
              | [] => NpSort.npHeapsortSeg v t pl pr
              | (pl2, pr2) :: rest =>
                NpSort.quickLoop v fuel (NpSort.npHeapsortSeg v t pl pr) pl2 pr2 rest
                  (depth - 1))
          else
            (if (NpSort.partitionStep v t pl pr).1 - pl
                < pr - (NpSort.partitionStep v t pl pr).1 then
              NpSort.quickLoop v fuel (NpSort.partitionStep v t pl pr).2 pl
                ((NpSort.partitionStep v t pl pr).1 - 1)
                (((NpSort.partitionStep v t pl pr).1 + 1, pr) :: stack) (depth - 1)
            else
              NpSort.quickLoop v fuel (NpSort.partitionStep v t pl pr).2
                ((NpSort.partitionStep v t pl pr).1 + 1) pr
                ((pl, (NpSort.partitionStep v t pl pr).1 - 1) :: stack) (depth - 1)))
        else
          (match stack with
            | [] => NpSort.insertionSortSegment v t pl pr
            | (pl2, pr2) :: rest =>
              NpSort.quickLoop v fuel (NpSort.insertionSortSegment v t pl pr) pl2 pr2 rest
                depth)) := rfl

theorem quickLoop_ok (v : List ℚ) :
    ∀ (fuel : ℕ) (t : List ℕ) (pl pr : ℕ) (stack : List (ℕ × ℕ)) (depth : ℤ),
      pr < t.length → pl ≤ pr →
      (∀ s ∈ stack, s.1 ≤ s.2 ∧ s.2 < t.length) →
      (((pl, pr) :: stack).Pairwise (fun s s2 => s.2 < s2.1 ∨ s2.2 < s.1)) →
      (∀ p q, p < q → q < t.length →
        (∀ s ∈ (pl, pr) :: stack, ¬ (s.1 ≤ p ∧ q ≤ s.2)) →
        NpSort.keyAt v t p ≤ NpSort.keyAt v t q) →
      ((((pl, pr) :: stack).map (fun s => 2 * (s.2 + 1 - s.1))).sum ≤ fuel) →
      ∃ r, NpSort.quickLoop v fuel t pl pr stack depth = r
        ∧ r.length = t.length
        ∧ List.Perm r t
        ∧ (∀ p q, p < q → q < t.length → NpSort.keyAt v r p ≤ NpSort.keyAt v r q) := by
  intro fuel
  induction fuel with
  | zero =>
    intro t pl pr stack depth hpr hple hbounds hdisj hcross hfuel
    rw [List.map_cons, List.sum_cons] at hfuel
    omega
  | succ fuel ih =>
    intro t pl pr stack depth hpr hple hbounds hdisj hcross hfuel
    rw [List.map_cons, List.sum_cons] at hfuel
    have hdisjhead : ∀ s ∈ stack, s.2 < pl ∨ pr < s.1 := by
      intro s hs
      rcases (List.pairwise_cons.mp hdisj).1 s hs with h | h
      · exact Or.inr h
      · exact Or.inl h
    have htail : stack.Pairwise (fun s s2 : ℕ × ℕ => s.2 < s2.1 ∨ s2.2 < s.1) :=
      (List.pairwise_cons.mp hdisj).2
    have h0 := quickLoop_succ_eq v fuel t pl pr stack depth
    by_cases hbig : 15 < pr - pl
    · by_cases hdep : depth < 0
      · -- heapsort fallback on this segment, then pop
        obtain ⟨m, hmeq, hmperm, hmsort⟩ := npHeapsortSeg_ok v t pl pr hpr hple
        have hmlen : m.length = pr + 1 - pl := by
          rw [hmperm.length_eq, slice_length t pl pr hpr hple]
        have hclen : (t.take pl ++ m ++ t.drop (pr + 1)).length = t.length :=
          comp_length t m pl pr hpr hple hmlen
        have hcperm : List.Perm (t.take pl ++ m ++ t.drop (pr + 1)) t := by
          have hp0 := (hmperm.append_left (t.take pl)).append_right (t.drop (pr + 1))
          rw [slice_decomp t pl pr (by omega)] at hp0
          exact hp0
        have hcfin := finish_segment_cross v t pl pr stack hpr hple m hmperm hmsort
          hdisjhead hcross
        cases stack with
        | nil =>
          have hstep : NpSort.quickLoop v (fuel + 1) t pl pr [] depth
              = NpSort.npHeapsortSeg v t pl pr := by
            rw [h0, if_pos hbig, if_pos hdep]
          rw [hmeq] at hstep
          refine ⟨_, hstep, hclen, hcperm, ?_⟩
          intro p q hpq hq
          exact hcfin p q hpq hq (by intro s hs; cases hs)
        | cons s rest =>
          obtain ⟨pl2, pr2⟩ := s
          have hstep : NpSort.quickLoop v (fuel + 1) t pl pr ((pl2, pr2) :: rest) depth
              = NpSort.quickLoop v fuel (NpSort.npHeapsortSeg v t pl pr) pl2 pr2 rest
                  (depth - 1) := by
            rw [h0, if_pos hbig, if_pos hdep]
          rw [hmeq] at hstep
          have hb2 := hbounds (pl2, pr2) (List.mem_cons_self _ _)
          obtain ⟨r, hr1, hr2, hr3, hr4⟩ :=
            ih (t.take pl ++ m ++ t.drop (pr + 1)) pl2 pr2 rest (depth - 1)
              (by rw [hclen]; exact hb2.2) hb2.1
              (by
                intro s hs
                have hsb := hbounds s (List.mem_cons_of_mem _ hs)
                rw [hclen]
                exact hsb)
              htail
              (by
                intro p q hpq hq hex
                rw [hclen] at hq
                refine hcfin p q hpq hq ?_
                intro s hs
                rcases List.mem_cons.mp hs with hs1 | hs2
                · exact hs1 ▸ hex (pl2, pr2) (List.mem_cons_self _ _)
                · exact hex s (List.mem_cons_of_mem _ hs2))
              (by
                rw [List.map_cons, List.sum_cons] at hfuel ⊢
                omega)
          refine ⟨r, hstep.trans hr1, hr2.trans hclen, hr3.trans hcperm, ?_⟩
          intro p q hpq hq
          exact hr4 p q hpq (by rw [hclen]; exact hq)
      · -- partition this segment, recurse into the smaller half, push the larger
        obtain ⟨pi, t6, hpeq, hpi1, hpi2, hlen6, hperm6, hout6, hleft6, hright6⟩ :=
          partitionStep_ok v t pl pr hpr hbig
        have hout6' : ∀ p, p < pl ∨ pr < p → t6.getD p 0 = t.getD p 0 := by
          intro p hp
          by_cases hplen : p < t.length
          · exact hout6 p hp
          · rw [getD_oob _ p 0 (by omega), getD_oob t p 0 (by omega)]
        have hmid6 : List.Perm ((t6.drop pl).take (pr + 1 - pl))
            ((t.drop pl).take (pr + 1 - pl)) :=
          slice_perm_of_outside_eq t t6 pl pr hpr hple hlen6 hout6' hperm6
        have hcross6 : ∀ p q, p < q → q < t.length →
            ¬ (pl ≤ p ∧ q ≤ pi - 1) → ¬ (pi + 1 ≤ p ∧ q ≤ pr) →
            (∀ s ∈ stack, ¬ (s.1 ≤ p ∧ q ≤ s.2)) →
            NpSort.keyAt v t6 p ≤ NpSort.keyAt v t6 q := by
          intro p q hpq hq hexL hexR hst
          by_cases hboth : pl ≤ p ∧ q ≤ pr
          · have h1 : NpSort.keyAt v t6 p ≤ NpSort.keyAt v t6 pi := by
              by_cases hpp : p = pi
              · rw [hpp]
              · exact hleft6 p hboth.1 (by omega)
            have h2 : NpSort.keyAt v t6 pi ≤ NpSort.keyAt v t6 q := by
              by_cases hqq : q = pi
              · rw [hqq]
              · exact hright6 q (by omega) hboth.2
            exact le_trans h1 h2
          · exact cross_transfer v t t6 pl pr stack hlen6 hpr hple hout6' hmid6
              hdisjhead hcross p q hpq hq hst hboth
        by_cases hside : pi - pl < pr - pi
        · -- continue with [pl, pi-1], push [pi+1, pr]
          have hstep : NpSort.quickLoop v (fuel + 1) t pl pr stack depth
              = NpSort.quickLoop v fuel t6 pl (pi - 1) ((pi + 1, pr) :: stack)
                  (depth - 1) := by
            rw [h0, if_pos hbig, if_neg hdep, hpeq, if_pos hside]
          obtain ⟨r, hr1, hr2, hr3, hr4⟩ :=
            ih t6 pl (pi - 1) ((pi + 1, pr) :: stack) (depth - 1)
              (by omega) (by omega)
              (by
                intro s hs
                rcases List.mem_cons.mp hs with hs1 | hs2
                · rw [hs1]
                  exact ⟨by omega, by omega⟩
                · have hsb := hbounds s hs2
                  exact ⟨hsb.1, by omega⟩)
              (by
                rw [List.pairwise_cons]
                refine ⟨?_, ?_⟩
                · intro s hs
                  rcases List.mem_cons.mp hs with hs1 | hs2
                  · rw [hs1]
                    left
                    simp only []
                    omega
                  · rcases hdisjhead s hs2 with hd | hd
                    · right
                      omega
                    · left
                      omega
                · rw [List.pairwise_cons]
                  refine ⟨?_, htail⟩
                  intro s hs
                  rcases hdisjhead s hs with hd | hd
                  · right
                    omega
                  · left
                    omega)
              (by
                intro p q hpq hq hex
                rw [hlen6] at hq
                refine hcross6 p q hpq hq
                  (hex (pl, pi - 1) (List.mem_cons_self _ _))
                  (hex (pi + 1, pr) (List.mem_cons_of_mem _ (List.mem_cons_self _ _)))
                  (fun s hs => hex s (List.mem_cons_of_mem _ (List.mem_cons_of_mem _ hs))))
              (by
                rw [List.map_cons, List.sum_cons, List.map_cons, List.sum_cons]
                simp only []
                omega)
          refine ⟨r, hstep.trans hr1, hr2.trans hlen6, hr3.trans hperm6, ?_⟩
          intro p q hpq hq
          exact hr4 p q hpq (by rw [hlen6]; exact hq)
        · -- continue with [pi+1, pr], push [pl, pi-1]
          have hstep : NpSort.quickLoop v (fuel + 1) t pl pr stack depth
              = NpSort.quickLoop v fuel t6 (pi + 1) pr ((pl, pi - 1) :: stack)
                  (depth - 1) := by
            rw [h0, if_pos hbig, if_neg hdep, hpeq, if_neg hside]
          obtain ⟨r, hr1, hr2, hr3, hr4⟩ :=
            ih t6 (pi + 1) pr ((pl, pi - 1) :: stack) (depth - 1)
              (by omega) (by omega)
              (by
                intro s hs
                rcases List.mem_cons.mp hs with hs1 | hs2
                · rw [hs1]
                  exact ⟨by omega, by omega⟩
                · have hsb := hbounds s hs2
                  exact ⟨hsb.1, by omega⟩)
              (by
                rw [List.pairwise_cons]
                refine ⟨?_, ?_⟩
                · intro s hs
                  rcases List.mem_cons.mp hs with hs1 | hs2
                  · rw [hs1]
                    right
                    simp only []
                    omega
                  · rcases hdisjhead s hs2 with hd | hd
                    · right
                      omega
                    · left
                      omega
                · rw [List.pairwise_cons]
                  refine ⟨?_, htail⟩
                  intro s hs
                  rcases hdisjhead s hs with hd | hd
                  · right
                    omega
                  · left
                    omega)
              (by
                intro p q hpq hq hex
                rw [hlen6] at hq
                refine hcross6 p q hpq hq
                  (hex (pl, pi - 1) (List.mem_cons_of_mem _ (List.mem_cons_self _ _)))
                  (hex (pi + 1, pr) (List.mem_cons_self _ _))
                  (fun s hs => hex s (List.mem_cons_of_mem _ (List.mem_cons_of_mem _ hs))))
              (by
                rw [List.map_cons, List.sum_cons, List.map_cons, List.sum_cons]
                simp only []
                omega)
          refine ⟨r, hstep.trans hr1, hr2.trans hlen6, hr3.trans hperm6, ?_⟩
          intro p q hpq hq
          exact hr4 p q hpq (by rw [hlen6]; exact hq)
    · -- the segment is small: one stable insertion sort, then pop
      obtain ⟨m, hmeq, hmperm, hmsort⟩ := insertionSortSegment_ok v t pl pr
      have hmlen : m.length = pr + 1 - pl := by
        rw [hmperm.length_eq, slice_length t pl pr hpr hple]
      have hclen : (t.take pl ++ m ++ t.drop (pr + 1)).length = t.length :=
        comp_length t m pl pr hpr hple hmlen
      have hcperm : List.Perm (t.take pl ++ m ++ t.drop (pr + 1)) t := by
        have hp0 := (hmperm.append_left (t.take pl)).append_right (t.drop (pr + 1))
        rw [slice_decomp t pl pr (by omega)] at hp0
        exact hp0
      have hcfin := finish_segment_cross v t pl pr stack hpr hple m hmperm hmsort
        hdisjhead hcross
      cases stack with
      | nil =>
        have hstep : NpSort.quickLoop v (fuel + 1) t pl pr [] depth
            = NpSort.insertionSortSegment v t pl pr := by
          rw [h0, if_neg hbig]
        rw [hmeq] at hstep
        refine ⟨_, hstep, hclen, hcperm, ?_⟩
        intro p q hpq hq
        exact hcfin p q hpq hq (by intro s hs; cases hs)
      | cons s rest =>
        obtain ⟨pl2, pr2⟩ := s
        have hstep : NpSort.quickLoop v (fuel + 1) t pl pr ((pl2, pr2) :: rest) depth
            = NpSort.quickLoop v fuel (NpSort.insertionSortSegment v t pl pr) pl2 pr2 rest
                depth := by
          rw [h0, if_neg hbig]
        rw [hmeq] at hstep
        have hb2 := hbounds (pl2, pr2) (List.mem_cons_self _ _)
        obtain ⟨r, hr1, hr2, hr3, hr4⟩ :=
          ih (t.take pl ++ m ++ t.drop (pr + 1)) pl2 pr2 rest depth
            (by rw [hclen]; exact hb2.2) hb2.1
            (by
              intro s hs
              have hsb := hbounds s (List.mem_cons_of_mem _ hs)
              rw [hclen]
              exact hsb)
            htail
            (by
              intro p q hpq hq hex
              rw [hclen] at hq
              refine hcfin p q hpq hq ?_
              intro s hs
              rcases List.mem_cons.mp hs with hs1 | hs2
              · exact hs1 ▸ hex (pl2, pr2) (List.mem_cons_self _ _)
              · exact hex s (List.mem_cons_of_mem _ hs2))
            (by
              rw [List.map_cons, List.sum_cons] at hfuel ⊢
              omega)
        refine ⟨r, hstep.trans hr1, hr2.trans hclen, hr3.trans hcperm, ?_⟩
        intro p q hpq hq
        exact hr4 p q hpq (by rw [hclen]; exact hq)

/-! ## From the verified introsort to the Population Ranker's sort -/

theorem npArgsortQuick_ok (v : List ℚ) :
    (NpSort.npArgsortQuick v).Pairwise (fun x y : ℕ => v.getD x 0 ≤ v.getD y 0)
    ∧ List.Perm (NpSort.npArgsortQuick v) (List.range v.length) := by
  by_cases hn : v.length = 0
  · have hv : v = [] := List.length_eq_zero.mp hn
    rw [hv]
    have he : NpSort.npArgsortQuick [] = ([] : List ℕ) := rfl
    rw [he]
    refine ⟨List.Pairwise.nil, ?_⟩
    simp
  · have hn1 : 1 ≤ v.length := by omega
    have hdef : NpSort.npArgsortQuick v
        = NpSort.quickLoop v (v.length * v.length + v.length + 2) (List.range v.length) 0
            (v.length - 1) [] ((Nat.log2 v.length : ℤ) * 2) := rfl
    have hsq : v.length ≤ v.length * v.length := Nat.le_mul_of_pos_left v.length (by omega)
    obtain ⟨r, hr1, hr2, hr3, hr4⟩ :=
      quickLoop_ok v (v.length * v.length + v.length + 2) (List.range v.length) 0
        (v.length - 1) [] ((Nat.log2 v.length : ℤ) * 2)
        (by simp only [List.length_range]; omega) (by omega)
        (by intro s hs; cases hs)
        (by
          rw [List.pairwise_cons]
          exact ⟨(fun s hs => nomatch hs), List.Pairwise.nil⟩)
        (by
          intro p q hpq hq hex
          rw [List.length_range] at hq
          exact absurd ⟨Nat.zero_le p, by omega⟩ (hex (0, v.length - 1)
            (List.mem_cons_self _ _)))
        (by
          rw [List.map_cons, List.sum_cons]
          simp only [List.map_nil, List.sum_nil]
          omega)
    rw [hdef, hr1]
    constructor
    · apply pairwise_of_positional v r
      intro p q hpq hq
      exact hr4 p q hpq (by rw [hr2] at hq; exact hq)
    · exact hr3

theorem pandasArgsortDesc_ok (v : List ℚ) :
    (pandasArgsortDesc v).Pairwise (fun x y : ℕ => v.getD y 0 ≤ v.getD x 0)
    ∧ List.Perm (pandasArgsortDesc v) (List.range v.length) := by
  obtain ⟨hsort, hperm⟩ := npArgsortQuick_ok v.reverse
  rw [List.length_reverse] at hperm
  have hmemn : ∀ x ∈ NpSort.npArgsortQuick v.reverse, x < v.length := by
    intro x hx
    have := hperm.mem_iff.mp hx
    exact List.mem_range.mp this
  have hdef : pandasArgsortDesc v
      = ((NpSort.npArgsortQuick v.reverse).map (fun k => v.length - 1 - k)).reverse := rfl
  rw [hdef]
  constructor
  · rw [List.pairwise_reverse, List.pairwise_map]
    refine hsort.imp_of_mem ?_
    intro a b ha hb h
    have ha2 : a < v.length := hmemn a ha
    have hb2 : b < v.length := hmemn b hb
    have hga : v.reverse.getD a 0 = v.getD (v.length - 1 - a) 0 :=
      getD_reverse_of_lt v a (by simpa using ha2) 0
    have hgb : v.reverse.getD b 0 = v.getD (v.length - 1 - b) 0 :=
      getD_reverse_of_lt v b (by simpa using hb2) 0
    rw [hga, hgb] at h
    exact h
  · have h1 := hperm.map (fun k => v.length - 1 - k)
    rw [map_sub_range v.length] at h1
    exact (List.reverse_perm _).trans (h1.trans (List.reverse_perm _))

theorem score_getD_all (l : List SuspectEntry) (i : ℕ) :
    (l.getD i SuspectEntry.default).aggregate_risk_score
      = (l.map (fun e => e.aggregate_risk_score)).getD i 0 := by
  by_cases h : i < l.length
  · exact (getD_map_score l i h).symm
  · rw [getD_oob l i _ (by omega), getD_oob _ i 0 (by
      rw [List.length_map]
      omega)]
    rfl

/-- C5, as amended: the ranker's output is always sorted by
`aggregate_risk_score` descending and is always a permutation of the
analyzed partners — on every population size, through numpy's
partitioning and heapsort regimes included — while ties keep their
encounter order only for populations of at most 16 partners (the
insertion-sort regime, which is stable; beyond that the partitioning
regime may permute ties, see the counterexample). -/
theorem c5_amended (results : List SuspectEntry) :
    List.Sorted (fun a b => b.aggregate_risk_score ≤ a.aggregate_risk_score)
        (sortSuspectsDesc results)
    ∧ List.Perm (sortSuspectsDesc results) results
    ∧ (results.length ≤ 16 →
        ∀ q : ℚ, ((sortSuspectsDesc results).filter (fun e => e.aggregate_risk_score = q))
          = results.filter (fun e => e.aggregate_risk_score = q)) := by
  obtain ⟨hsort, hperm⟩ :=
    pandasArgsortDesc_ok (results.map (fun e => e.aggregate_risk_score))
  rw [List.length_map] at hperm
  have hdef : sortSuspectsDesc results
      = (pandasArgsortDesc (results.map (fun e => e.aggregate_risk_score))).map
          (fun i => results.getD i SuspectEntry.default) := rfl
  refine ⟨?_, ?_, ?_⟩
  · rw [hdef]
    show ((pandasArgsortDesc (results.map (fun e => e.aggregate_risk_score))).map
        (fun i => results.getD i SuspectEntry.default)).Pairwise _
    rw [List.pairwise_map]
    refine hsort.imp ?_
    intro a b h
    show (results.getD b SuspectEntry.default).aggregate_risk_score
        ≤ (results.getD a SuspectEntry.default).aggregate_risk_score
    rw [score_getD_all results a, score_getD_all results b]
    exact h
  · rw [hdef]
    have h1 := hperm.map (fun i => results.getD i SuspectEntry.default)
    rw [map_range_getD results SuspectEntry.default] at h1
    exact h1
  · intro h16 q
    rw [sortSuspectsDesc_small results h16, List.filter_reverse,
      insertionSort_filter_score, List.filter_reverse, List.reverse_reverse]

/-- C5 witness: the amended theorem applied to a concrete three-partner
population with a tie (partners P1 and P3 both score 50), the 16-row
bound discharged concretely for the stability clause. -/
theorem c5_amended_witness :
    c5Small.length ≤ 16
    ∧ (List.Sorted (fun a b => b.aggregate_risk_score ≤ a.aggregate_risk_score)
          (sortSuspectsDesc c5Small)
      ∧ List.Perm (sortSuspectsDesc c5Small) c5Small
      ∧ ∀ q : ℚ, ((sortSuspectsDesc c5Small).filter (fun e => e.aggregate_risk_score = q))
          = c5Small.filter (fun e => e.aggregate_risk_score = q)) :=
  ⟨by decide, (c5_amended c5Small).1, (c5_amended c5Small).2.1,
    (c5_amended c5Small).2.2 (by decide)⟩
